import Mathlib

/-!
# Golf Worlds (`scripts/app.js`)

A shallow embedding of the shell of `scripts/app.js`: the render surface
(`resizeCanvas`), the input router (the six canvas/window listeners), the
registry (`worldConstructors`), the session controller (`startWorld`,
`stopCurrentWorld`, `showMenu`) and the five per-world `loop` functions, followed
by the capture rule of the pro golfer world (`checkHoleIn`).

Conventions of the embedding.

* JavaScript numbers are exact rationals (`ℚ`); `canvas.width`/`canvas.height`
  are integers.
* The globals of the script (`currentWorld`, `animationFrameId`, `mouse`, `keys`,
  the canvas size, the three HUD text nodes) are the fields of `Session`.  World
  objects are closures with identity, so every constructed instance lives in
  `Session.heap` and `currentWorld` refers to it by position.
* The browser's list of animation-frame callbacks is `Session.pending`;
  `requestAnimationFrame` appends to it and returns a fresh positive handle,
  `cancelAnimationFrame` removes by handle, and the event `fire` runs one pending
  callback.
* What the environment supplies is a parameter: layout boxes
  (`getBoundingClientRect`), pointer positions, key codes and the readings of
  `performance.now()`.
* The gameplay state of a world instance is represented by the log of the calls it
  has received (`World.received`), together with the variables that decide whether
  its loop reschedules itself: the greenskeeper clock (`lastTick`, `gameTime`,
  `started`, `gameOver`) and the frame handle the caddy closure keeps in its own
  `let animationFrameId`.  Pixels are not modelled.  The HUD fields hold what the
  shell, the `onStart` run by `startWorld` and the greenskeeper `update` write;
  text written by other gameplay code (stroke counts, a new caddy round, the course
  designer leaving its play mode) is not tracked.
* `click` listeners and `setTimeout` callbacks are outside the embedding.  World
  factories, `onStart`, handlers and loop bodies are taken to run to completion:
  the caddy places its bags by rejection sampling on `Math.random`, and the course
  designer indexes a grid that has a row as long as the canvas is less than 160
  times as wide as it is high.
-/

namespace GolfWorlds

/-! ## Render surface -/

/-- Layout box of an element, as `getBoundingClientRect()` reports it. -/
structure Rect where
  left : ℚ
  top : ℚ
  width : ℚ
  height : ℚ
  deriving DecidableEq

/-- Backing pixel size of the canvas (`canvas.width`, `canvas.height`). -/
structure Canvas where
  width : ℤ
  height : ℤ
  deriving DecidableEq

/-- The function `resizeCanvas()`; `rect` is `right.getBoundingClientRect()`. -/
def resizeCanvas (rect : Rect) : Canvas :=
  { width := max 800 ⌊rect.width⌋
    height := max 480 ⌊rect.height⌋ }

/-! ## Shared input state -/

/-- The global `mouse` object. -/
structure Mouse where
  x : ℚ
  y : ℚ
  down : Bool
  deriving DecidableEq

/-- Position carried by a DOM mouse event. -/
structure MouseEvent where
  clientX : ℚ
  clientY : ℚ
  deriving DecidableEq

/-- The assignment `keys[code] = v` on the global `keys` object. -/
def setKey (keys : List (String × Bool)) (code : String) (v : Bool) : List (String × Bool) :=
  (code, v) :: keys.filter (fun p => p.1 ≠ code)

/-! ## Worlds -/

/-- The five factories of the script. -/
inductive WorldId
  | pro
  | designer
  | greens
  | caddy
  | manager
  deriving DecidableEq, Repr

/-- The `id` literal each factory puts in the object it returns, which is also its
key in `worldConstructors` and the literal its `loop` compares against. -/
def WorldId.key : WorldId → String
  | .pro => "pro"
  | .designer => "designer"
  | .greens => "greens"
  | .caddy => "caddy"
  | .manager => "manager"

/-- One entry of the `worlds` array (the colour is only used for the tiles). -/
structure WorldInfo where
  id : String
  name : String
  summary : String
  deriving DecidableEq

/-- The `worlds` array. -/
def worlds : List WorldInfo :=
  [ { id := "pro", name := "Pro Golfer",
      summary := "Power, angle, and course strategy. Play par-3 course. Realistic ball flight and putts." },
    { id := "designer", name := "Course Designer",
      summary := "Paint terrain, place hazards, test play lines and difficulty." },
    { id := "greens", name := "Greenskeeper",
      summary := "Repair damage, manage irrigation, and keep turf healthy under time pressure." },
    { id := "caddy", name := "Caddy (Carrying)",
      summary := "Carry gear, manage stamina, accurately place the bag and clubs under constraints." },
    { id := "manager", name := "Club Manager",
      summary := "Plan events, manage budget & logistics — keep players happy." } ]

/-- Property names a world object may carry. -/
inductive Handler
  | onStart
  | onStop
  | onResize
  | onMouseMove
  | onMouseDown
  | onMouseUp
  | onMouseLeave
  | onKeyDown
  | onKeyUp
  | loop
  deriving DecidableEq, Repr

/-- Which properties the object returned by each factory defines (its `return`
statement).  No factory defines `onMouseLeave`; the caddy object has only
`onStart`, `onKeyDown`, `onKeyUp` and `loop`. -/
def WorldId.defines : WorldId → Handler → Bool
  | _, .onMouseLeave => false
  | .caddy, .onStart => true
  | .caddy, .onKeyDown => true
  | .caddy, .onKeyUp => true
  | .caddy, .loop => true
  | .caddy, _ => false
  | _, _ => true

/-- A call received by a world instance, with its argument.  `frame` is one pass of
the body of `loop` after its guard (update and render). -/
inductive Call
  | onStart
  | onStop
  | onResize
  | onMouseMove (m : Mouse)
  | onMouseDown (m : Mouse)
  | onMouseUp (m : Mouse)
  | onMouseLeave (m : Mouse)
  | onKeyDown (code : String)
  | onKeyUp (code : String)
  | frame
  deriving DecidableEq

/-- The property through which a call arrives. -/
def Call.handler : Call → Handler
  | .onStart => .onStart
  | .onStop => .onStop
  | .onResize => .onResize
  | .onMouseMove _ => .onMouseMove
  | .onMouseDown _ => .onMouseDown
  | .onMouseUp _ => .onMouseUp
  | .onMouseLeave _ => .onMouseLeave
  | .onKeyDown _ => .onKeyDown
  | .onKeyUp _ => .onKeyUp
  | .frame => .loop

/-- A world instance: the object a factory returned together with the private
variables of its closure. -/
structure World where
  /-- The factory that built the instance; it fixes the handlers and the loop. -/
  kind : WorldId
  /-- The `id` property (`startWorld` overwrites it with the requested id). -/
  id : String
  /-- Calls received so far, newest first. -/
  received : List Call
  /-- Greenskeeper: `lastTick`. -/
  lastTick : ℚ
  /-- Greenskeeper: `gameTime`, in seconds. -/
  gameTime : ℚ
  /-- Greenskeeper: `started`. -/
  started : Bool
  /-- Greenskeeper: `gameOver`. -/
  gameOver : Bool
  /-- Caddy: the `let animationFrameId` declared inside `createCaddyWorld`. -/
  animationFrameId : Option Nat
  deriving DecidableEq

/-- Invoking a property of a world object: `none` stands for the `TypeError` of
calling `undefined`.  The greenskeeper `onStart` runs `init()`, which reads the
clock (`now`) and resets the flags; every other handler only touches gameplay
state, recorded in the log. -/
def World.invoke (w : World) (c : Call) (now : ℚ) : Option World :=
  if w.kind.defines c.handler then
    match w.kind, c with
    | .greens, .onStart =>
      some { w with received := c :: w.received, lastTick := now, started := true, gameOver := false }
    | _, _ => some { w with received := c :: w.received }
  else none

/-! ## Session -/

/-- A callback handed to `requestAnimationFrame`: the `loop` of a world instance,
or the function `run` of `startWorld`. -/
inductive Callback
  | loop (inst : Nat)
  | run
  deriving DecidableEq

/-- A pending animation-frame request. -/
structure Frame where
  handle : Nat
  callback : Callback
  deriving DecidableEq

/-- The mutable state of the page. -/
structure Session where
  canvas : Canvas
  /-- The global `currentWorld`, an index into `heap`.  It is `none` for `null`
  and also for a value that is no world instance (it has no `loop`, no handler and
  no registered `id`), which `startWorld` can leave there when it throws. -/
  currentWorld : Option Nat
  /-- The global `animationFrameId`. -/
  animationFrameId : Option Nat
  mouse : Mouse
  keys : List (String × Bool)
  hudWorld : String
  hudSub : String
  statusPill : String
  /-- Lines written with `console.warn` / `console.log`. -/
  console : List String
  /-- Every world instance constructed so far, in creation order. -/
  heap : List World
  /-- The animation-frame callback list of the browser. -/
  pending : List Frame
  /-- The handle the next `requestAnimationFrame` returns. -/
  nextHandle : Nat
  /-- Whether `worldConstructors` has acquired an own property `id`. -/
  registryHasId : Bool
  deriving DecidableEq

/-- How a call into the script ends: it returns (always `undefined`), or an
exception escapes to the caller.  Either way the session is as the call left it. -/
inductive Outcome
  | returned (s : Session)
  | threw (s : Session)
  deriving DecidableEq

/-- The session after the call. -/
def Outcome.session : Outcome → Session
  | .returned s => s
  | .threw s => s

/-- The world `currentWorld` refers to, if any. -/
def Session.current (s : Session) : Option World :=
  s.currentWorld.bind (fun i => s.heap[i]?)

/-- Replace instance `i` of the heap. -/
def Session.setWorld (s : Session) (i : Nat) (w : World) : Session :=
  { s with heap := s.heap.set i w }

/-- `requestAnimationFrame(cb)`: returns the handle and the new session. -/
def Session.requestAnimationFrame (s : Session) (cb : Callback) : Nat × Session :=
  (s.nextHandle,
   { s with pending := s.pending ++ [{ handle := s.nextHandle, callback := cb }]
            nextHandle := s.nextHandle + 1 })

/-- `cancelAnimationFrame(h)`. -/
def Session.cancelAnimationFrame (s : Session) (h : Nat) : Session :=
  { s with pending := s.pending.filter (fun f => f.handle ≠ h) }

/-- The guarded call `if (currentWorld && currentWorld.h) currentWorld.h(arg)` used
by every listener and by `stopCurrentWorld`. -/
def forward (c : Call) (now : ℚ) (s : Session) : Outcome :=
  match s.currentWorld with
  | none => .returned s
  | some i =>
    match s.heap[i]? with
    | none => .returned s
    | some w =>
      if w.kind.defines c.handler then
        match w.invoke c now with
        | some w1 => .returned (s.setWorld i w1)
        | none => .threw s
      else .returned s

/-- The function `stopCurrentWorld()`. -/
def stopCurrentWorld (s : Session) : Session :=
  let s1 :=
    match s.animationFrameId with
    | some h => if h ≠ 0 then { s.cancelAnimationFrame h with animationFrameId := none } else s
    | none => s
  -- `onStop` never reads the clock
  let s2 := (forward .onStop 0 s1).session
  { s2 with currentWorld := none }

/-- The function `showMenu()`. -/
def showMenu (s : Session) : Session :=
  stopCurrentWorld
    { s with hudWorld := "Select a world"
             hudSub := "Click a tile to begin."
             statusPill := "Idle" }

/-! ## The per-world frame loops -/

/-- The greenskeeper `update(dt)` as far as it drives the clock: the countdown,
the status text and the time-up transition (`overlayWin` sets `gameOver`). -/
def greensUpdate (dt : ℚ) (w : World) (s : Session) : World × Session :=
  if !w.started || w.gameOver then (w, s)
  else
    let gameTime := w.gameTime - dt / 1000
    let s1 := { s with statusPill := "Time " ++ toString ⌈gameTime⌉ ++ "s" }
    if gameTime ≤ 0 then
      ({ w with gameTime := gameTime, gameOver := true },
       { s1 with hudSub := "Time up — results finalized" })
    else ({ w with gameTime := gameTime }, s1)

/-- The function `loop` of instance `i`; `now` is the reading of
`performance.now()` the greenskeeper loop takes.  Every loop starts with the guard
`if (!currentWorld || currentWorld.id !== K) return;` where `K` is the id literal
of its own factory, runs its body and requests the next frame.  The greenskeeper
requests it only while `gameOver` is false.  The caddy stores the handle in the
`animationFrameId` of its own closure, the other four in the global one. -/
def loop (i : Nat) (now : ℚ) (s : Session) : Session :=
  match s.heap[i]? with
  | none => s
  | some w =>
    match s.current with
    | none => s
    | some cur =>
      if cur.id ≠ w.kind.key then s
      else
        match w.kind with
        | .greens =>
          let dt := now - w.lastTick
          let (w1, s1) := greensUpdate dt { w with lastTick := now } s
          let w2 := { w1 with received := .frame :: w1.received }
          let s2 := s1.setWorld i w2
          if !w2.gameOver then
            let (h, s3) := s2.requestAnimationFrame (.loop i)
            { s3 with animationFrameId := some h }
          else s2
        | .caddy =>
          let (h, s1) := s.requestAnimationFrame (.loop i)
          s1.setWorld i { w with received := .frame :: w.received, animationFrameId := some h }
        | _ =>
          let s1 := s.setWorld i { w with received := .frame :: w.received }
          let (h, s2) := s1.requestAnimationFrame (.loop i)
          { s2 with animationFrameId := some h }

/-- The function `run` inside `startWorld`. -/
def run (now : ℚ) (s : Session) : Session :=
  match s.currentWorld with
  | none => s
  | some i =>
    match s.heap[i]? with
    | none => s
    | some w =>
      if w.kind.defines .loop then loop i now s
      else
        let (h, s1) := s.requestAnimationFrame .run
        { s1 with animationFrameId := some h }

/-- The browser runs the pending request with handle `h` (nothing happens when no
such request is pending). -/
def fire (h : Nat) (now : ℚ) (s : Session) : Session :=
  match s.pending.find? (fun f => f.handle = h) with
  | none => s
  | some f =>
    let s1 := { s with pending := s.pending.filter (fun g => g.handle ≠ h) }
    match f.callback with
    | .loop i => loop i now s1
    | .run => run now s1

/-! ## Registry and `startWorld` -/

/-- What the expression `worldConstructors[id]` evaluates to.  `worldConstructors`
is an object literal, so besides its five own properties the lookup also finds the
properties inherited from `Object.prototype`, all of them truthy. -/
inductive Lookup
  /-- One of the five own properties: a world factory. -/
  | factory (k : WorldId)
  /-- A truthy value that yields no object when called with no argument: calling it
  throws (`__proto__`, `__defineGetter__`, `__defineSetter__`, and the string
  stored in `id` once the registry has that property) or returns a primitive
  (`toString`, `toLocaleString`, `hasOwnProperty`, `isPrototypeOf`,
  `propertyIsEnumerable`, `__lookupGetter__`, `__lookupSetter__`), on which the
  strict-mode assignment `currentWorld.id = id` throws. -/
  | noObject
  /-- A function returning an object that is not a world: `constructor` (a fresh
  empty object) and `valueOf` (`self`: the registry object itself). -/
  | plainObject (self : Bool)
  /-- No such property. -/
  | undefined
  deriving DecidableEq

/-- The lookup `worldConstructors[id]`; `hasId` tells whether the registry object
has acquired an own property `id`. -/
def worldConstructors (hasId : Bool) (id : String) : Lookup :=
  if id = "pro" then .factory .pro
  else if id = "designer" then .factory .designer
  else if id = "greens" then .factory .greens
  else if id = "caddy" then .factory .caddy
  else if id = "manager" then .factory .manager
  else if id = "constructor" then .plainObject false
  else if id = "valueOf" then .plainObject true
  else if id ∈ ["toString", "toLocaleString", "hasOwnProperty", "isPrototypeOf",
      "propertyIsEnumerable", "__lookupGetter__", "__lookupSetter__", "__proto__",
      "__defineGetter__", "__defineSetter__"] then .noObject
  else if id = "id" ∧ hasId = true then .noObject
  else .undefined

/-- A fresh instance as the factory returns it.  `now` is the clock reading the
greenskeeper factory stores in `lastTick` (its `init()` overwrites it before the
first read). -/
def construct (k : WorldId) (now : ℚ) : World :=
  { kind := k, id := k.key, received := [], lastTick := now, gameTime := 90,
    started := false, gameOver := false, animationFrameId := none }

/-- Text written while the factory runs: `createProGolferWorld` calls `resetBall()`. -/
def constructText (k : WorldId) (s : Session) : Session :=
  match k with
  | .pro => { s with statusPill := "Par 3 — Strokes 0/3" }
  | _ => s

/-- Text written by the `onStart` of each world (the caddy through `initGame()`, the
greenskeeper through `init()`). -/
def onStartText (k : WorldId) (s : Session) : Session :=
  match k with
  | .pro =>
    { s with hudWorld := "Pro Golfer"
             hudSub := "Hold Space or click+hold near ball to charge power. Use Up/Down to adjust aim."
             statusPill := "Par 3 • Strokes 0/3" }
  | .designer =>
    { s with console := s.console ++ ["Designer mode started"]
             hudWorld := "Course Designer"
             hudSub := "Use mouse drag to paint. Click toolbar to change brush. Place a hole and tee to test play."
             statusPill := "Designer mode" }
  | .greens =>
    { s with hudWorld := "Greenskeeper"
             hudSub := "Click dry patches to water them. Keep moisture above critical level to score."
             statusPill := "Time 90s" }
  | .caddy =>
    { s with hudWorld := "Caddy Challenge"
             hudSub := "Round 1: Carry all bags to the golfer without hitting traps."
             statusPill := "Round 1" }
  | .manager =>
    { s with hudWorld := "Club Manager"
             hudSub := "Allocate budget across items and book your event. Click options to toggle."
             statusPill := "Manager mode" }

/-- The function `startWorld(id)`.  `rect` is the layout box `resizeCanvas()` reads;
`tInit` and `tLoop` are the readings of `performance.now()` taken by the
greenskeeper `init()` and by the first pass of the loop. -/
def startWorld (id : String) (rect : Rect) (tInit tLoop : ℚ) (s : Session) : Outcome :=
  match worldConstructors s.registryHasId id with
  | .undefined =>
    -- console.warn('No constructor for', id); return;
    .returned { s with console := s.console ++ ["No constructor for " ++ id] }
  | .noObject =>
    -- the guard is passed; the call or the assignment of `id` throws a TypeError
    .threw (stopCurrentWorld { s with statusPill := "Loading..." })
  | .plainObject self =>
    -- `currentWorld` becomes an object without `loop` or handlers (kept as `none`);
    -- `worlds.find(...)` is undefined and reading `.name` throws a TypeError
    let s1 := stopCurrentWorld { s with statusPill := "Loading..." }
    .threw { s1 with canvas := resizeCanvas rect, registryHasId := s1.registryHasId || self }
  | .factory k =>
    let s1 := stopCurrentWorld { s with statusPill := "Loading..." }
    -- const world = worldConstructors[id](); currentWorld = world; currentWorld.id = id;
    let s2 := constructText k s1
    let s3 := { s2 with heap := s2.heap ++ [{ construct k tInit with id := id }]
                        currentWorld := some s2.heap.length }
    let s4 := { s3 with canvas := resizeCanvas rect }
    -- if (currentWorld.onStart) currentWorld.onStart();
    let s5 := if k.defines .onStart then onStartText k (forward .onStart tInit s4).session else s4
    match worlds.find? (fun w => w.id = id) with
    | none => .threw s5
    | some info =>
      let s6 := { s5 with hudWorld := info.name, hudSub := info.summary, statusPill := "Playing" }
      .returned (run tLoop s6)

/-! ## Input router -/

/-- Run the next listener of the same event; the event counts as failed when either
listener threw. -/
def Outcome.andThen (o : Outcome) (f : Session → Outcome) : Outcome :=
  match o with
  | .returned s => f s
  | .threw s => .threw (f s).session

/-- The `mousemove` listener of the canvas; `rect` is
`canvas.getBoundingClientRect()`. -/
def mousemove (e : MouseEvent) (rect : Rect) (s : Session) : Outcome :=
  let x := (e.clientX - rect.left) * (s.canvas.width / rect.width)
  let y := (e.clientY - rect.top) * (s.canvas.height / rect.height)
  let s1 := { s with mouse := { s.mouse with x := x, y := y } }
  forward (.onMouseMove s1.mouse) 0 s1

/-- The `mousedown` listener of the canvas. -/
def mousedown (_e : MouseEvent) (s : Session) : Outcome :=
  let s1 := { s with mouse := { s.mouse with down := true } }
  forward (.onMouseDown s1.mouse) 0 s1

/-- The `mouseup` listener of the canvas. -/
def mouseup (_e : MouseEvent) (s : Session) : Outcome :=
  let s1 := { s with mouse := { s.mouse with down := false } }
  forward (.onMouseUp s1.mouse) 0 s1

/-- The `mouseleave` listener of the canvas. -/
def mouseleave (_e : MouseEvent) (s : Session) : Outcome :=
  let s1 := { s with mouse := { s.mouse with down := false } }
  forward (.onMouseLeave s1.mouse) 0 s1

/-- The function `forwardKeyDown(code)`. -/
def forwardKeyDown (code : String) (s : Session) : Outcome :=
  forward (.onKeyDown code) 0 s

/-- The function `forwardKeyUp(code)`. -/
def forwardKeyUp (code : String) (s : Session) : Outcome :=
  forward (.onKeyUp code) 0 s

/-- The two `keydown` listeners of the window, in registration order: the one that
records the key and forwards it, then the one that calls `forwardKeyDown`. -/
def keydown (code : String) (s : Session) : Outcome :=
  (forward (.onKeyDown code) 0 { s with keys := setKey s.keys code true }).andThen
    (forwardKeyDown code)

/-- The two `keyup` listeners of the window, in registration order: the one that
records the key and forwards it, then the one that calls `forwardKeyUp`. -/
def keyup (code : String) (s : Session) : Outcome :=
  (forward (.onKeyUp code) 0 { s with keys := setKey s.keys code false }).andThen
    (forwardKeyUp code)

/-- The `resize` listener of the window. -/
def resize (rect : Rect) (s : Session) : Outcome :=
  forward .onResize 0 { s with canvas := resizeCanvas rect }

/-! ## Page load and event sequences -/

/-- The session once the script has run: the globals as declared, the first
`resizeCanvas()` and the final `showMenu()`. -/
def initial (rect : Rect) : Session :=
  showMenu
    { canvas := resizeCanvas rect, currentWorld := none, animationFrameId := none,
      mouse := { x := 0, y := 0, down := false }, keys := [],
      hudWorld := "Select a world", hudSub := "Click a tile to begin", statusPill := "Idle",
      console := [], heap := [], pending := [], nextHandle := 1, registryHasId := false }

/-- A pointer or key event reaching the input router. -/
inductive InputEvent
  | mousemove (e : MouseEvent) (rect : Rect)
  | mousedown (e : MouseEvent)
  | mouseup (e : MouseEvent)
  | mouseleave (e : MouseEvent)
  | keydown (code : String)
  | keyup (code : String)
  deriving DecidableEq

/-- The handler of the active world an input event is forwarded to. -/
def InputEvent.handler : InputEvent → Handler
  | .mousemove _ _ => .onMouseMove
  | .mousedown _ => .onMouseDown
  | .mouseup _ => .onMouseUp
  | .mouseleave _ => .onMouseLeave
  | .keydown _ => .onKeyDown
  | .keyup _ => .onKeyUp

/-- The listeners registered for an input event. -/
def dispatch (ev : InputEvent) (s : Session) : Outcome :=
  match ev with
  | .mousemove e rect => mousemove e rect s
  | .mousedown e => mousedown e s
  | .mouseup e => mouseup e s
  | .mouseleave e => mouseleave e s
  | .keydown code => keydown code s
  | .keyup code => keyup code s

/-- What can happen to the page: the three calls of the shell, a pending animation
frame being run, an input event, a resize of the window. -/
inductive Event
  | startWorld (id : String) (rect : Rect) (tInit tLoop : ℚ)
  | showMenu
  | stopCurrentWorld
  | fire (handle : Nat) (now : ℚ)
  | input (ev : InputEvent)
  | resize (rect : Rect)
  deriving DecidableEq

/-- One event. -/
def step (s : Session) : Event → Session
  | .startWorld id rect tInit tLoop => (startWorld id rect tInit tLoop s).session
  | .showMenu => showMenu s
  | .stopCurrentWorld => stopCurrentWorld s
  | .fire h now => fire h now s
  | .input ev => (dispatch ev s).session
  | .resize rect => (resize rect s).session

/-- A sequence of events, oldest first. -/
def exec (s : Session) (events : List Event) : Session :=
  events.foldl step s

/-- An event is tame unless it starts the caddy world or an identifier that the
registry object inherits from `Object.prototype`: the identifier of a tame
`startWorld` is `pro`, `designer`, `greens` or `manager`, the four worlds that keep
their frame handle in the global `animationFrameId`, or it resolves to nothing. -/
def Event.tame : Event → Bool
  | .startWorld id _ _ _ =>
    match worldConstructors false id with
    | .factory .caddy => false
    | .factory _ => true
    | .undefined => true
    | _ => false
  | _ => true

/-- The scheduling discipline of a session in which every instance keeps its frame
handle in the global `animationFrameId`: an idle session has no pending frame, and
with instance `i` active the only frames ever pending are requests for the loop of
`i`, none once a greenskeeper game is over and otherwise exactly one, whose handle
is the global one. -/
structure Scheduled (s : Session) : Prop where
  registry : s.registryHasId = false
  handle_pos : 1 ≤ s.nextHandle
  heap_ok : ∀ w ∈ s.heap, w.kind ≠ .caddy ∧ w.id = w.kind.key
  idle : s.currentWorld = none → s.pending = []
  active : ∀ i, s.currentWorld = some i → ∃ w, s.heap[i]? = some w ∧
    ((w.kind = .greens ∧ w.gameOver = true) → s.pending = []) ∧
    (¬ (w.kind = .greens ∧ w.gameOver = true) →
      ∃ h, h ≠ 0 ∧ s.animationFrameId = some h ∧ s.pending = [⟨h, .loop i⟩])

/-! ## Pro golfer world: the capture rule -/

namespace Pro

/-- The `ball` object. -/
structure Ball where
  x : ℚ
  y : ℚ
  vx : ℚ
  vy : ℚ
  onGround : Bool
  deriving DecidableEq

/-- The variables of the pro golfer closure that `checkHoleIn` reads or writes,
and the status text node. -/
structure State where
  ball : Ball
  strokes : ℕ
  overlayText : String
  showWinOverlay : Bool
  statusPill : String
  deriving DecidableEq

/-- The constant `ballRadius`. -/
def ballRadius : ℚ := 8

/-- The constant `thresholdSpeed` of `checkHoleIn`. -/
def thresholdSpeed : ℚ := 1.6

/-- The function `checkHoleIn()`.  `sqrt` is `Math.sqrt`; `holeX`, `holeY` are the
constants of the closure.  `dist || 1` is `1` exactly when `dist` is zero. -/
def checkHoleIn (sqrt : ℚ → ℚ) (holeX holeY : ℚ) (st : State) : State :=
  let dx := st.ball.x - holeX
  let dy := st.ball.y - holeY
  let dist := sqrt (dx * dx + dy * dy)
  let speed := sqrt (st.ball.vx * st.ball.vx + st.ball.vy * st.ball.vy)
  if dist < ballRadius + 10 then
    if speed ≤ thresholdSpeed then
      { st with overlayText :=
                  "Hole in " ++ toString st.strokes ++ " stroke" ++
                    (if st.strokes = 1 then "" else "s") ++ "!"
                showWinOverlay := true
                statusPill := "Hole!" }
    else
      { st with ball := { st.ball with vx := st.ball.vx + dx / (if dist = 0 then 1 else dist) * 0.8
                                       vy := st.ball.vy - 0.8 } }
  else st

/-- A stand-in for `Math.sqrt` to evaluate `checkHoleIn` on concrete balls: exact
on squares of rationals (numerator and denominator are rooted separately). -/
def sqrtQ (q : ℚ) : ℚ :=
  (Nat.sqrt q.num.toNat : ℚ) / (Nat.sqrt q.den : ℚ)

end Pro

/-! ## Shared utilities -/

/-- The function `clamp(v, a, b)`. -/
def clamp {α : Type} [Max α] [Min α] (v a b : α) : α :=
  max a (min b v)

/-! ## Club manager world -/

namespace Manager

/-- An entry of the `items` array. -/
structure Item where
  id : String
  name : String
  cost : ℤ
  benefit : ℤ
  chosen : Bool
  deriving DecidableEq

/-- The variables of the `createManagerWorld` closure. -/
structure State where
  budget : ℤ
  items : List Item
  satisfaction : ℤ
  booked : Bool
  overlayMsg : Option String
  deriving DecidableEq

/-- The `items` array as the factory declares it. -/
def catalog : List Item :=
  [ { id := "catering", name := "Catering", cost := 400, benefit := 60, chosen := false },
    { id := "pr", name := "PR Campaign", cost := 300, benefit := 40, chosen := false },
    { id := "prize", name := "Prizes", cost := 450, benefit := 70, chosen := false },
    { id := "security", name := "Security", cost := 250, benefit := 30, chosen := false },
    { id := "greens", name := "Extra Greens Crew", cost := 200, benefit := 25, chosen := false } ]

/-- The closure as `createManagerWorld()` leaves it. -/
def create : State :=
  { budget := 2000, items := catalog, satisfaction := 40, booked := false, overlayMsg := none }

/-- The function `onStart()` (its HUD text is part of the session). -/
def onStart (st : State) : State :=
  { st with budget := 2000, satisfaction := 40
            items := st.items.map (fun it => { it with chosen := false })
            booked := false }

/-- The hit test of the loop over the items: with `y = 84 + i*56`, the pointer is
within `36..356` horizontally and `y-24..y+20` vertically. -/
def onItem (m : Mouse) (i : ℕ) : Bool :=
  decide (36 ≤ m.x ∧ m.x ≤ 356 ∧ (84 + (i : ℚ) * 56) - 24 ≤ m.y ∧ m.y ≤ (84 + (i : ℚ) * 56) + 20)

/-- The body of the loop for a hit on `items[i]`: toggle the selection.  The timer
that clears the message a second later is not modelled. -/
def toggle (i : ℕ) (st : State) : State :=
  match st.items[i]? with
  | none => st
  | some it =>
    if !it.chosen then
      if st.budget ≥ it.cost then
        { st with items := st.items.set i { it with chosen := true }
                  budget := st.budget - it.cost
                  satisfaction := st.satisfaction + it.benefit }
      else
        { st with overlayMsg := some "Not enough budget for that item." }
    else
      { st with items := st.items.set i { it with chosen := false }
                budget := st.budget + it.cost
                satisfaction := st.satisfaction - it.benefit }

/-- The hit test of the `Book Event` button. -/
def onBook (canvas : Canvas) (m : Mouse) : Bool :=
  decide ((canvas.width : ℚ) - 320 ≤ m.x ∧ m.x ≤ (canvas.width : ℚ) - 120 ∧
    (canvas.height : ℚ) - 100 ≤ m.y ∧ m.y ≤ (canvas.height : ℚ) - 56)

/-- The function `onMouseDown(m)`: the loop over the items, then the button. -/
def onMouseDown (canvas : Canvas) (m : Mouse) (st : State) : State :=
  let st1 := (List.range st.items.length).foldl
    (fun s i => if onItem m i then toggle i s else s) st
  if onBook canvas m then
    { st1 with booked := true
               overlayMsg := some ("Event Booked! Final satisfaction " ++
                 toString st1.satisfaction ++ "%") }
  else st1

end Manager

/-! ## Greenskeeper world -/

namespace Greens

/-- An entry of `patches`. -/
structure Patch where
  r : ℤ
  c : ℤ
  moisture : ℚ
  dryingRate : ℚ
  flagged : Bool
  deriving DecidableEq

/-- An entry of `splashes`. -/
structure Splash where
  x : ℚ
  y : ℚ
  alpha : ℚ
  size : ℚ
  deriving DecidableEq

/-- The constant `cols`. -/
def cols : ℤ := 22

/-- The constant `rows`. -/
def rows : ℤ := 10

/-- The constant `pad`. -/
def pad : ℚ := 12

/-- The constant `SPRINKLER_RADIUS`. -/
def sprinklerRadius : ℚ := 75

/-- The constant `SPRINKLER_DURATION`, in milliseconds. -/
def sprinklerDuration : ℚ := 3000

/-- The constant `SPRINKLER_UNLOCK`. -/
def sprinklerUnlock : ℕ := 10

/-- The constants `cellW` and `cellH`, which the factory derives from the canvas. -/
structure Geometry where
  cellW : ℚ
  cellH : ℚ
  deriving DecidableEq

/-- The cell size computed by `createGreenskeeperWorld()` on `canvas`. -/
def geometry (canvas : Canvas) : Geometry :=
  { cellW := ((canvas.width : ℚ) - pad * 2) / cols
    cellH := ((canvas.height : ℚ) - pad * 2) / rows }

/-- The variables of the closure, and the two text nodes `update` writes. -/
structure State where
  patches : List Patch
  splashes : List Splash
  lastTick : ℚ
  score : ℤ
  tasksDone : ℕ
  gameTime : ℚ
  started : Bool
  gameOver : Bool
  sprinklerActive : Bool
  sprinklerTimer : ℚ
  mousePos : Option (ℚ × ℚ)
  hudSub : String
  statusPill : String
  deriving DecidableEq

/-- The patch `init()` pushes for row `r` and column `c`; `u` and `v` are the two
draws of `Math.random()`. -/
def newPatch (r c : ℤ) (u v : ℚ) : Patch :=
  { r := r, c := c, moisture := u * 0.7 + 0.2, dryingRate := 0.00001 + v * 0.00002,
    flagged := false }

/-- The patches `init()` creates, row by row; `rand r c` is the pair of random
draws made for the patch in row `r` and column `c`. -/
def initPatches (rand : ℕ → ℕ → ℚ × ℚ) : List Patch :=
  (List.range 10).flatMap fun (r : ℕ) =>
    (List.range 22).map fun (c : ℕ) => newPatch (r : ℤ) (c : ℤ) (rand r c).1 (rand r c).2

/-- The function `init()`; `now` is the reading of `performance.now()`. -/
def init (rand : ℕ → ℕ → ℚ × ℚ) (now : ℚ) (st : State) : State :=
  { st with patches := initPatches rand
            score := 0, tasksDone := 0
            lastTick := now
            started := true, gameOver := false
            hudSub := "Click dry patches to water them. Keep moisture above critical level to score."
            statusPill := "Time " ++ toString ⌈st.gameTime⌉ ++ "s"
            sprinklerActive := false
            sprinklerTimer := 0 }

/-- The closure as `createGreenskeeperWorld()` leaves it. -/
def create (now : ℚ) : State :=
  { patches := [], splashes := [], lastTick := now, score := 0, tasksDone := 0, gameTime := 90,
    started := false, gameOver := false, sprinklerActive := false, sprinklerTimer := 0,
    mousePos := none, hudSub := "", statusPill := "" }

/-- The drying of one patch in `update(dt)`. -/
def dry (dt : ℚ) (p : Patch) : Patch :=
  let moisture := p.moisture - p.dryingRate * dt
  { p with moisture := if moisture < 0 then 0 else moisture }

/-- The function `update(dt)`. -/
def update (dt : ℚ) (st : State) : State :=
  if !st.started || st.gameOver then st
  else
    let st1 := { st with patches := st.patches.map (dry dt) }
    let st2 :=
      if st1.sprinklerActive then
        let timer := st1.sprinklerTimer - dt
        { st1 with sprinklerTimer := timer
                   sprinklerActive := if timer ≤ 0 then false else st1.sprinklerActive }
      else st1
    let gameTime := st2.gameTime - dt / 1000
    let st3 := { st2 with gameTime := gameTime
                          statusPill := "Time " ++ toString ⌈gameTime⌉ ++ "s" }
    if gameTime ≤ 0 then
      { st3 with gameOver := true, hudSub := "Time up — results finalized" }
    else st3

/-- The row and column `cellAt(m)` looks for. -/
def cellIndex (g : Geometry) (m : Mouse) : ℤ × ℤ :=
  (clamp ⌊(m.y - pad) / g.cellH⌋ 0 (rows - 1), clamp ⌊(m.x - pad) / g.cellW⌋ 0 (cols - 1))

/-- The function `cellAt(m)`. -/
def cellAt (g : Geometry) (m : Mouse) (patches : List Patch) : Option Patch :=
  patches.find? fun p => decide (p.r = (cellIndex g m).1 ∧ p.c = (cellIndex g m).2)

/-- The assignment `p.moisture = 1` on the patch that `patches.find(pred)` returned:
the first patch satisfying `pred` is watered in place. -/
def waterFirst (pred : Patch → Bool) : List Patch → List Patch
  | [] => []
  | p :: ps => if pred p then { p with moisture := 1 } :: ps else p :: waterFirst pred ps

/-- The test of the sprinkler branch: the centre of the patch lies within
`SPRINKLER_RADIUS` of the pointer. -/
def inSprinkler (g : Geometry) (m : Mouse) (p : Patch) : Bool :=
  let px := pad + p.c * g.cellW + g.cellW / 2
  let py := pad + p.r * g.cellH + g.cellH / 2
  let dx := px - m.x
  let dy := py - m.y
  decide (dx * dx + dy * dy ≤ sprinklerRadius * sprinklerRadius)

/-- The function `onMouseDown(m)`. -/
def onMouseDown (g : Geometry) (m : Mouse) (st : State) : State :=
  let st0 := { st with mousePos := some (m.x, m.y) }
  if st0.sprinklerActive then
    { st0 with patches := st0.patches.map fun p =>
                 if inSprinkler g m p then { p with moisture := 1 } else p
               score := st0.score + 20 * (st0.patches.filter (inSprinkler g m)).length
               splashes := st0.splashes ++ [{ x := m.x, y := m.y, alpha := 0.8, size := 4 }] }
  else
    match cellAt g m st0.patches with
    | none => st0
    | some _ =>
      let tasksDone := st0.tasksDone + 1
      let unlock := decide (tasksDone % sprinklerUnlock = 0)
      { st0 with patches := waterFirst
                   (fun p => decide (p.r = (cellIndex g m).1 ∧ p.c = (cellIndex g m).2)) st0.patches
                 score := st0.score + 20
                 tasksDone := tasksDone
                 sprinklerActive := if unlock then true else st0.sprinklerActive
                 sprinklerTimer := if unlock then sprinklerDuration else st0.sprinklerTimer
                 splashes := st0.splashes ++ [{ x := m.x, y := m.y, alpha := 0.8, size := 4 }] }

/-- The pointer is over the rectangle of the patch in row `r` and column `c` of the
grid. -/
def over (g : Geometry) (r c : ℤ) (m : Mouse) : Prop :=
  0 ≤ r ∧ r < rows ∧ 0 ≤ c ∧ c < cols ∧
  pad + c * g.cellW ≤ m.x ∧ m.x < pad + (c + 1) * g.cellW ∧
  pad + r * g.cellH ≤ m.y ∧ m.y < pad + (r + 1) * g.cellH

/-- No two patches of the list sit in the same row and column. -/
def Distinct (patches : List Patch) : Prop :=
  patches.Pairwise fun a b => ¬ (a.r = b.r ∧ a.c = b.c)

end Greens

/-! ## Course designer world -/

namespace Designer

/-- The constant `cols`. -/
def cols : ℤ := 80

/-- The constants `rows`, `cellW` and `cellH`, which the factory derives from the
canvas. -/
structure Geometry where
  rows : ℤ
  cellW : ℚ
  cellH : ℚ
  deriving DecidableEq

/-- The grid geometry computed by `createDesignerWorld()` on `canvas`;
`Math.round(x)` is `floor(x + 1/2)`. -/
def geometry (canvas : Canvas) : Geometry :=
  let rows : ℤ := ⌊((canvas.height : ℚ) / canvas.width) * cols + 1 / 2⌋
  { rows := rows
    cellW := (canvas.width : ℚ) / cols
    cellH := (canvas.height : ℚ) / rows }

/-- A cell object `{ r, c }`. -/
structure Cell where
  r : ℤ
  c : ℤ
  deriving DecidableEq

/-- The play-mode `ball` object. -/
structure Ball where
  x : ℚ
  y : ℚ
  vx : ℚ
  vy : ℚ
  moving : Bool
  deriving DecidableEq

/-- The variables of the closure, and the messages shown with `alert`. -/
structure State where
  grid : List (List ℕ)
  brush : String
  placingHole : Bool
  placingTee : Bool
  holeCell : Option Cell
  teeCell : Option Cell
  hoverCell : Option Cell
  inPlayMode : Bool
  ball : Ball
  arrowAngle : ℚ
  power : ℚ
  strokes : ℕ
  powerCharging : Bool
  rotatingLeft : Bool
  rotatingRight : Bool
  alerts : List String
  deriving DecidableEq

/-- How a function of the closure ends: it returns, or a `TypeError` escapes because
`grid[r]` is undefined (`rowError`) or because `holeCell` is null (`holeError`).
The state is as the function left it. -/
inductive Result
  | done (st : State)
  | rowError (st : State)
  | holeError (st : State)
  deriving DecidableEq

/-- A grid of `rows` rows of `cols` zeros. -/
def zeroGrid (g : Geometry) : List (List ℕ) :=
  List.replicate g.rows.toNat (List.replicate cols.toNat 0)

/-- The closure as `createDesignerWorld()` leaves it. -/
def create (g : Geometry) : State :=
  { grid := zeroGrid g, brush := "sand", placingHole := false, placingTee := false,
    holeCell := none, teeCell := none, hoverCell := none, inPlayMode := false,
    ball := { x := 0, y := 0, vx := 0, vy := 0, moving := false }, arrowAngle := 0, power := 0,
    strokes := 0, powerCharging := false, rotatingLeft := false, rotatingRight := false,
    alerts := [] }

/-- The function `onStart()` (its HUD text is part of the session): every entry of
the grid is set to 0 and the markers and the play mode are cleared. -/
def onStart (g : Geometry) (st : State) : State :=
  { st with grid := zeroGrid g, holeCell := none, teeCell := none, inPlayMode := false }

/-- The function `worldToCell(mx, my)`. -/
def worldToCell (g : Geometry) (mx my : ℚ) : Cell :=
  { r := clamp ⌊my / g.cellH⌋ 0 (g.rows - 1)
    c := clamp ⌊mx / g.cellW⌋ 0 (cols - 1) }

/-- The read `grid[r][c]`: `none` when `grid[r]` is undefined (the read throws),
`some none` when the row exists and holds nothing at `c` (the value `undefined`). -/
def gridAt (grid : List (List ℕ)) (cell : Cell) : Option (Option ℕ) :=
  if cell.r < 0 then none
  else
    match grid[cell.r.toNat]? with
    | none => none
    | some row => some (if cell.c < 0 then none else row[cell.c.toNat]?)

/-- The write `grid[r][c] = v`: `none` when `grid[r]` is undefined (the write
throws).  A column outside the row, which `worldToCell` never yields, is left
unwritten. -/
def gridSet (grid : List (List ℕ)) (cell : Cell) (v : ℕ) : Option (List (List ℕ)) :=
  if cell.r < 0 then none
  else
    match grid[cell.r.toNat]? with
    | none => none
    | some row =>
      some (grid.set cell.r.toNat (if cell.c < 0 then row else row.set cell.c.toNat v))

/-- The lookup `map[brush] || 0` of `paintAt`. -/
def brushCode (brush : String) : ℕ :=
  if brush = "grass" then 0
  else if brush = "sand" then 1
  else if brush = "water" then 2
  else if brush = "green" then 3
  else if brush = "tee" then 4
  else 0

/-- The function `paintAt(mx, my)`. -/
def paintAt (g : Geometry) (mx my : ℚ) (st : State) : Result :=
  if st.inPlayMode then .done st
  else
    let cell := worldToCell g mx my
    if st.placingHole then .done { st with holeCell := some cell, placingHole := false }
    else if st.placingTee then .done { st with teeCell := some cell, placingTee := false }
    else if st.brush = "eraser" then
      let st1 := if st.holeCell = some cell then { st with holeCell := none } else st
      let st2 := if st1.teeCell = some cell then { st1 with teeCell := none } else st1
      match gridSet st2.grid cell 0 with
      | none => .rowError st2
      | some grid => .done { st2 with grid := grid }
    else
      match gridSet st.grid cell (brushCode st.brush) with
      | none => .rowError st
      | some grid => .done { st with grid := grid }

/-- The function `startPlayMode()`. -/
def startPlayMode (g : Geometry) (st : State) : State :=
  match st.teeCell, st.holeCell with
  | some tee, some _ =>
    { st with inPlayMode := true
              ball := { x := tee.c * g.cellW + g.cellW / 2
                        y := tee.r * g.cellH + g.cellH / 2
                        vx := 0, vy := 0, moving := false }
              arrowAngle := 0
              power := 0
              strokes := 0 }
  | _, _ => { st with alerts := st.alerts ++ ["Place both tee and hole first!"] }

/-- The friction `updatePlay()` picks for the value read from the grid. -/
def frictionOf (v : Option ℕ) : ℚ :=
  if v = some 3 then 0.95
  else if v = some 2 then 0.85
  else if v = some 1 then 0.9
  else 0.98

/-- The function `updatePlay()`; `sqrt` is `Math.sqrt`. -/
def updatePlay (g : Geometry) (sqrt : ℚ → ℚ) (st : State) : Result :=
  if !st.ball.moving then
    let a1 := if st.rotatingLeft then st.arrowAngle - 0.05 else st.arrowAngle
    let a2 := if st.rotatingRight then a1 + 0.05 else a1
    .done { st with arrowAngle := a2 }
  else
    let x := st.ball.x + st.ball.vx
    let y := st.ball.y + st.ball.vy
    let st1 := { st with ball := { st.ball with x := x, y := y } }
    match gridAt st1.grid (worldToCell g x y) with
    | none => .rowError st1
    | some v =>
      let friction := frictionOf v
      let vx := st1.ball.vx * friction
      let vy := st1.ball.vy * friction
      let ball :=
        if |vx| < 0.1 ∧ |vy| < 0.1 then { st1.ball with vx := 0, vy := 0, moving := false }
        else { st1.ball with vx := vx, vy := vy }
      let st2 := { st1 with ball := ball }
      match st2.holeCell with
      | none => .holeError st2
      | some hole =>
        let dx := ball.x - (hole.c * g.cellW + g.cellW / 2)
        let dy := ball.y - (hole.r * g.cellH + g.cellH / 2)
        if sqrt (dx * dx + dy * dy) < min g.cellW g.cellH * 0.36 then
          .done (onStart g
            { st2 with alerts := st2.alerts ++
                         ["Hole completed in " ++ toString st2.strokes ++ " strokes!"]
                       inPlayMode := false })
        else .done st2

/-- The grid has the shape the factory gave it: `rows` rows of `cols` entries. -/
def GridShape (g : Geometry) (grid : List (List ℕ)) : Prop :=
  (grid.length : ℤ) = g.rows ∧ ∀ row ∈ grid, (row.length : ℤ) = cols

end Designer

/-! ## Pro golfer world: the whole closure -/

namespace Pro

/-- The functions of `Math` the handlers use, and `Math.PI`. -/
structure JsMath where
  sqrt : ℚ → ℚ
  cos : ℚ → ℚ
  sin : ℚ → ℚ
  atan2 : ℚ → ℚ → ℚ
  pi : ℚ

/-- The constants `groundH`, `teeX`, `holeX` and `holeY`, which the factory derives
from the canvas. -/
structure Config where
  groundH : ℤ
  teeX : ℤ
  holeX : ℤ
  holeY : ℤ
  deriving DecidableEq

/-- The configuration computed by `createProGolferWorld()` on `canvas`. -/
def config (canvas : Canvas) : Config :=
  { groundH := ⌊(canvas.height : ℚ) * 0.20⌋
    teeX := ⌊(canvas.width : ℚ) * 0.12⌋
    holeX := ⌊(canvas.width : ℚ) * 0.82⌋
    holeY := canvas.height - ⌊(canvas.height : ℚ) * 0.20⌋ - 6 }

/-- The constant `gravity`. -/
def gravity : ℚ := 0.45

/-- The constant `friction`. -/
def friction : ℚ := 0.995

/-- The variable `par`, which is never reassigned. -/
def par : ℕ := 3

/-- All variables of the `createProGolferWorld` closure: those of `State`, the
constants and the swing variables. -/
structure Game extends State where
  cfg : Config
  charging : Bool
  power : ℚ
  angle : ℚ
  lastShotTime : ℚ
  windStrength : ℚ
  deriving DecidableEq

/-- The function `resetBall()`; `canvas` is the canvas at the time of the call. -/
def resetBall (canvas : Canvas) (g : Game) : Game :=
  { g with ball := { x := g.cfg.teeX, y := (canvas.height : ℚ) - g.cfg.groundH - ballRadius,
                     vx := 0, vy := 0, onGround := true }
           strokes := 0
           charging := false
           power := 0
           showWinOverlay := false
           overlayText := ""
           statusPill := "Par " ++ toString par ++ " — Strokes " ++ toString 0 ++ "/" ++ toString par }

/-- The closure as `createProGolferWorld()` leaves it; `pi` is `Math.PI` and `rnd`
the draw of `Math.random()` for the wind. -/
def create (pi : ℚ) (canvas : Canvas) (rnd : ℚ) : Game :=
  resetBall canvas
    { ball := { x := 0, y := 0, vx := 0, vy := 0, onGround := true }, strokes := 0,
      overlayText := "", showWinOverlay := false, statusPill := "",
      cfg := config canvas, charging := false, power := 0, angle := pi / 4,
      lastShotTime := 0, windStrength := rnd * 1.2 - 0.6 }

/-- The function `onStart()` (its HUD title and subtitle are part of the session);
`rnd` is the draw of `Math.random()`. -/
def onStart (rnd : ℚ) (g : Game) : Game :=
  { g with statusPill := "Par " ++ toString par ++ " • Strokes " ++ toString g.strokes ++ "/" ++
             toString par
           windStrength := rnd * 1.6 - 0.8 }

/-- The function `onResize()`, which is empty. -/
def onResize (g : Game) : Game := g

/-- The function `physicsStep()`; `canvas` is the canvas at the time of the call. -/
def physicsStep (canvas : Canvas) (g : Game) : Game :=
  if !g.ball.onGround then
    let vy := g.ball.vy + gravity
    let vx := g.ball.vx * friction + g.windStrength * 0.01
    let x := g.ball.x + vx
    let y := g.ball.y + vy
    let groundY : ℚ := (canvas.height : ℚ) - g.cfg.groundH - ballRadius
    let ball : Ball :=
      if y ≥ groundY then
        if |vy| > 1.5 then { x := x, y := groundY, vx := vx * 0.8, vy := vy * (-0.2), onGround := false }
        else { x := x, y := groundY, vx := vx * 0.9, vy := 0, onGround := true }
      else { x := x, y := y, vx := vx, vy := vy, onGround := false }
    let g1 := { g with ball := ball }
    if ball.x < -50 ∨ ball.x > (canvas.width : ℚ) + 50 ∨ ball.y > (canvas.height : ℚ) + 200 then
      { g1 with overlayText := "Ball out of bounds — Reset to tee", showWinOverlay := true }
    else g1
  else g

/-- The body of `loop()` after its guard: the power ramp, `physicsStep()` and
`checkHoleIn()`.  Drawing and the `canvas.onclick` handler of the overlay are not
modelled. -/
def tick (math : JsMath) (canvas : Canvas) (g : Game) : Game :=
  let g1 :=
    if g.charging ∧ g.ball.onGround then
      let power := g.power + 1.6
      { g with power := if power > 100 then 100 else power }
    else g
  let g2 := physicsStep canvas g1
  { g2 with toState := checkHoleIn math.sqrt g2.cfg.holeX g2.cfg.holeY g2.toState }

/-- The function `onKeyDown(code)`. -/
def onKeyDown (math : JsMath) (code : String) (g : Game) : Game :=
  let g1 :=
    if code = "Space" ∧ g.ball.onGround ∧ !g.charging then { g with charging := true, power := 0 }
    else g
  let g2 :=
    if code = "ArrowUp" then { g1 with angle := clamp (g1.angle + 0.04) 0.12 (math.pi * 0.75) }
    else g1
  if code = "ArrowDown" then { g2 with angle := clamp (g2.angle - 0.04) 0.12 (math.pi * 0.75) }
  else g2

/-- The shot both `onKeyUp` and `onMouseUp` make: the ball leaves the ground with
speed `clamp(power, 2, 100) / 3.5` along `angle`, and the stroke is counted. -/
def launch (math : JsMath) (g : Game) : Game :=
  let shotPower := clamp g.power 2 100
  let speed := shotPower / 3.5
  let strokes := g.strokes + 1
  let g1 :=
    { g with charging := false
             ball := { g.ball with vx := math.cos g.angle * speed
                                   vy := -math.sin g.angle * speed
                                   onGround := false }
             strokes := strokes
             statusPill := "Strokes " ++ toString strokes ++ "/" ++ toString par }
  if strokes > par then
    { g1 with overlayText := "Par exceeded. Resetting...", showWinOverlay := true }
  else g1

/-- The function `onKeyUp(code)`; `now` is the reading of `performance.now()`. -/
def onKeyUp (math : JsMath) (code : String) (now : ℚ) (g : Game) : Game :=
  if code = "Space" ∧ g.charging ∧ g.ball.onGround then
    { launch math g with lastShotTime := now }
  else g

/-- The function `onMouseMove(m)`. -/
def onMouseMove (math : JsMath) (m : Mouse) (g : Game) : Game :=
  if g.ball.onGround ∧ !g.charging then
    let dx := m.x - g.ball.x
    let dy := g.ball.y - m.y
    { g with angle := clamp (math.atan2 dy dx) 0.12 (math.pi * 0.75) }
  else g

/-- The function `onMouseDown(m)`. -/
def onMouseDown (math : JsMath) (m : Mouse) (g : Game) : Game :=
  let dx := m.x - g.ball.x
  let dy := m.y - g.ball.y
  if math.sqrt (dx * dx + dy * dy) < 40 ∧ g.ball.onGround then
    { g with charging := true, power := 0 }
  else g

/-- The function `onMouseUp(m)`. -/
def onMouseUp (math : JsMath) (_m : Mouse) (g : Game) : Game :=
  if g.charging ∧ g.ball.onGround then launch math g else g

/-- What the closure can receive once created. -/
inductive Input
  | start (rnd : ℚ)
  | resize
  | keyDown (code : String)
  | keyUp (code : String) (now : ℚ)
  | mouseMove (m : Mouse)
  | mouseDown (m : Mouse)
  | mouseUp (m : Mouse)
  | frame (canvas : Canvas)
  deriving DecidableEq

/-- One call into the closure. -/
def step (math : JsMath) (g : Game) : Input → Game
  | .start rnd => onStart rnd g
  | .resize => onResize g
  | .keyDown code => onKeyDown math code g
  | .keyUp code now => onKeyUp math code now g
  | .mouseMove m => onMouseMove math m g
  | .mouseDown m => onMouseDown math m g
  | .mouseUp m => onMouseUp math m g
  | .frame canvas => tick math canvas g

/-- A sequence of calls, oldest first. -/
def play (math : JsMath) (g : Game) (inputs : List Input) : Game :=
  inputs.foldl (step math) g

end Pro

/-- The canvas on which `startWorld(id)` runs the factory: the call
`worldConstructors[id]()` comes after `stopCurrentWorld()` and before
`resizeCanvas()`. -/
def factoryCanvas (s : Session) : Canvas :=
  (stopCurrentWorld { s with statusPill := "Loading..." }).canvas

/-- The pro golfer closure that `startWorld('pro')` creates and starts in session
`s`; `rndCreate` and `rndStart` are the two draws of `Math.random()` for the wind. -/
def Pro.started (pi : ℚ) (s : Session) (rndCreate rndStart : ℚ) : Pro.Game :=
  Pro.onStart rndStart (Pro.create pi (factoryCanvas s) rndCreate)

/-! ## Caddy world -/

namespace Caddy

/-- The `caddy` object. -/
structure Player where
  x : ℚ
  y : ℚ
  vx : ℚ
  vy : ℚ
  speed : ℚ
  stamina : ℚ
  deriving DecidableEq

/-- An element of `bags`. -/
structure Bag where
  x : ℚ
  y : ℚ
  carried : Bool
  delivered : Bool
  deriving DecidableEq

/-- An element of `traps`. -/
structure Trap where
  x : ℚ
  y : ℚ
  r : ℚ
  deriving DecidableEq

/-- An element of `golfers`. -/
structure Golfer where
  x : ℚ
  y : ℚ
  reached : Bool
  deriving DecidableEq

/-- The variables of the `createCaddyWorld` closure that `update` and the key
handlers read or write, the status text node, and what `gameOverScreen` leaves on
the page: the messages it painted (oldest first) and the number of `click` listeners
it registered that have not run yet.  `currentQuestion` is an index into
`questions`. -/
structure State where
  caddy : Player
  bags : List Bag
  traps : List Trap
  golfers : List Golfer
  started : Bool
  showingQuestion : Bool
  currentQuestion : Option ℕ
  selected : Option ℕ
  questionAnswered : Bool
  round : ℕ
  statusPill : String
  overlays : List String
  restartListeners : ℕ
  deriving DecidableEq

/-- The test `Math.hypot(a, b) < d` over exact numbers: the root of `a*a + b*b` is
below `d` exactly when `d` is positive and `a*a + b*b < d*d`. -/
def hypotLt (a b d : ℚ) : Bool :=
  decide (0 < d ∧ a * a + b * b < d * d)

/-- The function `gameOverScreen(message)`: it clears the question variables,
paints the message and registers a one-shot `click` listener for `resetGame`.  It
does not write `started`. -/
def gameOverScreen (message : String) (st : State) : State :=
  { st with showingQuestion := false
            selected := none
            questionAnswered := false
            overlays := st.overlays ++ [message]
            restartListeners := st.restartListeners + 1 }

/-- The function `startQuestionRound()`; `pick` is the index
`Math.floor(Math.random() * questions.length)`. -/
def startQuestionRound (pick : ℕ) (st : State) : State :=
  { st with showingQuestion := true
            selected := none
            questionAnswered := false
            currentQuestion := some pick }

/-- The callback of `bags.forEach` in `update(dt)`, applied to one bag: the state
after it and the bag as it leaves it. -/
def bagStep (dt : ℚ) (st : State) (bag : Bag) : State × Bag :=
  let pick := !bag.carried && !bag.delivered &&
    hypotLt (st.caddy.x - bag.x) (st.caddy.y - bag.y) 20
  let st1 := if pick then { st with statusPill := "Picked up bag!" } else st
  let bag1 := if pick then { bag with carried := true } else bag
  if bag1.carried then
    let bag2 := { bag1 with x := st1.caddy.x + 10, y := st1.caddy.y }
    let stamina := st1.caddy.stamina - 0.02 * dt * (1 + ((st1.round : ℚ) - 1) * 0.2)
    if stamina ≤ 0 then
      (gameOverScreen "You collapsed from exhaustion!"
        { st1 with caddy := { st1.caddy with stamina := 0 } }, bag2)
    else ({ st1 with caddy := { st1.caddy with stamina := stamina } }, bag2)
  else (st1, bag1)

/-- The loop `bags.forEach(...)` of `update(dt)`: the bags are visited in order, each
seeing the stamina the earlier ones left. -/
def bagsStep (dt : ℚ) (st : State) : State :=
  let r := st.bags.foldl
    (fun (acc : State × List Bag) bag =>
      let r := bagStep dt acc.1 bag
      (r.1, acc.2 ++ [r.2]))
    (st, [])
  { r.1 with bags := r.2 }

/-- The loop `traps.forEach(...)` of `update(dt)`. -/
def trapsStep (st : State) : State :=
  st.traps.foldl
    (fun acc t =>
      if hypotLt (acc.caddy.x - t.x) (acc.caddy.y - t.y) (t.r + 10) then
        gameOverScreen "You got caught in a trap! Game Over." acc
      else acc)
    st

/-- The loop `golfers.forEach(...)` of `update(dt)`; one draw `pick` stands for the
draws of all calls of `startQuestionRound()` in the tick (`initGame` creates one
golfer). -/
def golfersStep (pick : ℕ) (st : State) : State :=
  let r := st.golfers.foldl
    (fun (acc : State × List Golfer) g =>
      if !g.reached && hypotLt (acc.1.caddy.x - g.x) (acc.1.caddy.y - g.y) 30 then
        (startQuestionRound pick acc.1, acc.2 ++ [{ g with reached := true }])
      else (acc.1, acc.2 ++ [g]))
    (st, [])
  { r.1 with golfers := r.2 }

/-- The first part of `update(dt)` after its guard: the move, the two clamps and the
idle regeneration. -/
def moveStep (canvas : Canvas) (dt : ℚ) (st : State) : State :=
  let x := clamp (st.caddy.x + st.caddy.vx) 16 ((canvas.width : ℚ) - 16)
  let y := clamp (st.caddy.y + st.caddy.vy) 50 ((canvas.height : ℚ) - 50)
  let stamina :=
    if st.caddy.vx = 0 ∧ st.caddy.vy = 0 then
      (if st.caddy.stamina + 0.05 * dt > 100 then 100 else st.caddy.stamina + 0.05 * dt)
    else st.caddy.stamina
  { st with caddy := { st.caddy with x := x, y := y, stamina := stamina } }

/-- The function `update(dt)`; `canvas` is the canvas at the time of the call. -/
def update (canvas : Canvas) (pick : ℕ) (dt : ℚ) (st : State) : State :=
  if !st.started || st.showingQuestion then st
  else golfersStep pick (trapsStep (bagsStep dt (moveStep canvas dt st)))

/-- The function `onKeyDown(code)`. -/
def onKeyDown (code : String) (st : State) : State :=
  if st.showingQuestion then st
  else
    let c1 := if code = "ArrowRight" then { st.caddy with vx := st.caddy.speed } else st.caddy
    let c2 := if code = "ArrowLeft" then { c1 with vx := -c1.speed } else c1
    let c3 := if code = "ArrowUp" then { c2 with vy := -c2.speed } else c2
    let c4 := if code = "ArrowDown" then { c3 with vy := c3.speed } else c3
    { st with caddy := c4 }

/-- The function `onKeyUp(code)`. -/
def onKeyUp (code : String) (st : State) : State :=
  let c1 := if code = "ArrowRight" ∨ code = "ArrowLeft" then { st.caddy with vx := 0 } else st.caddy
  let c2 := if code = "ArrowUp" ∨ code = "ArrowDown" then { c1 with vy := 0 } else c1
  { st with caddy := c2 }

/-- The update the frame loop makes: `loop()` calls `update(16)`. -/
def frame (canvas : Canvas) (pick : ℕ) (st : State) : State :=
  update canvas pick 16 st

/-- A state of round 1 on a 800 x 480 canvas: the caddy has walked right from the
start, with `ArrowRight` still held, to 22.6 px from the first trap; both bags lie
ahead. -/
def nearTrap : State :=
  { caddy := { x := 148, y := 340, vx := 2.2, vy := 0, speed := 2.2, stamina := 100 }
    bags := [{ x := 200, y := 340, carried := false, delivered := false },
             { x := 300, y := 340, carried := false, delivered := false }]
    traps := [{ x := 170, y := 335, r := 12 }, { x := 230, y := 325, r := 14 },
              { x := 280, y := 330, r := 13 }, { x := 330, y := 322, r := 15 }]
    golfers := [{ x := 400, y := 330, reached := false }]
    started := true, showingQuestion := false, currentQuestion := none, selected := none
    questionAnswered := false, round := 1, statusPill := "Round 1", overlays := []
    restartListeners := 0 }

/-- A state of round 1 on a 800 x 480 canvas: the caddy walks right, `ArrowRight`
held, carrying the first bag, with a stamina of 0.16 left; no trap is near. -/
def tired : State :=
  { caddy := { x := 250, y := 340, vx := 2.2, vy := 0, speed := 2.2, stamina := 0.16 }
    bags := [{ x := 260, y := 340, carried := true, delivered := false },
             { x := 300, y := 340, carried := false, delivered := false }]
    traps := [{ x := 170, y := 335, r := 12 }, { x := 230, y := 325, r := 14 },
              { x := 280, y := 330, r := 13 }, { x := 330, y := 322, r := 15 }]
    golfers := [{ x := 400, y := 330, reached := false }]
    started := true, showingQuestion := false, currentQuestion := none, selected := none
    questionAnswered := false, round := 1, statusPill := "Picked up bag!", overlays := []
    restartListeners := 0 }

end Caddy

/-! ## Club manager world: sequences of calls -/

namespace Manager

/-- What the closure can receive once created: `onStart()` or a press at `m` on the
canvas as it is then (the other handlers are empty). -/
inductive Input
  | start
  | click (canvas : Canvas) (m : Mouse)
  deriving DecidableEq

/-- One call into the closure. -/
def step (st : State) : Input → State
  | .start => onStart st
  | .click canvas m => onMouseDown canvas m st

/-- A sequence of calls, oldest first. -/
def play (st : State) (inputs : List Input) : State :=
  inputs.foldl step st

/-- The sum of the costs of the chosen items. -/
def chosenCost (items : List Item) : ℤ :=
  ((items.filter (fun it => it.chosen)).map Item.cost).sum

/-- The sum of the benefits of the chosen items. -/
def chosenBenefit (items : List Item) : ℤ :=
  ((items.filter (fun it => it.chosen)).map Item.benefit).sum

/-- The costs and benefits of the items, in order. -/
def prices (items : List Item) : List (ℤ × ℤ) :=
  items.map (fun it => (it.cost, it.benefit))

/-- The accounts are in order: the items have the prices of the catalog, the budget
is 2000 less the costs of the chosen items and satisfaction is 40 plus their
benefits. -/
def Balanced (st : State) : Prop :=
  prices st.items = prices catalog ∧
  st.budget = 2000 - chosenCost st.items ∧
  st.satisfaction = 40 + chosenBenefit st.items

end Manager

/-! ## Course designer world: handlers and sequences of calls -/

namespace Designer

/-- The state a function of the closure leaves, whether it returned or threw. -/
def Result.state : Result → State
  | .done st => st
  | .rowError st => st
  | .holeError st => st

/-- The function `onMouseMove(m)`; `m` is the global `mouse` object, so `mouse.down`
is `m.down`. -/
def onMouseMove (g : Geometry) (m : Mouse) (st : State) : Result :=
  if !st.inPlayMode && m.down then paintAt g m.x m.y st else .done st

/-- The function `onMouseDown(m)`; `canvas` is the canvas at the time of the call. -/
def onMouseDown (g : Geometry) (canvas : Canvas) (m : Mouse) (st : State) : Result :=
  if !st.inPlayMode then
    let btnX : ℚ := (canvas.width : ℚ) - 280
    let btnY : ℚ := (canvas.height : ℚ) - 60
    if m.x ≥ btnX ∧ m.x ≤ btnX + 120 ∧ m.y ≥ btnY ∧ m.y ≤ btnY + 36 then
      .done (startPlayMode g st)
    else if m.x ≥ btnX + 140 ∧ m.x ≤ btnX + 260 ∧ m.y ≥ btnY ∧ m.y ≤ btnY + 36 then
      .done { st with brush := "eraser" }
    else paintAt g m.x m.y st
  else
    if m.x ≥ (canvas.width : ℚ) - 140 ∧ m.x ≤ (canvas.width : ℚ) - 20 ∧ m.y ≥ 10 ∧ m.y ≤ 46 then
      .done (onStart g { st with inPlayMode := false })
    else .done st

/-- The function `onKeyDown(code)`. -/
def onKeyDown (code : String) (st : State) : State :=
  if !st.inPlayMode then
    let b1 := if code = "Digit1" then "grass" else st.brush
    let b2 := if code = "Digit2" then "sand" else b1
    let b3 := if code = "Digit3" then "water" else b2
    let b4 := if code = "Digit4" then "green" else b3
    let b5 := if code = "Digit5" then "eraser" else b4
    { st with brush := b5
              placingHole := if code = "KeyH" then true else st.placingHole
              placingTee := if code = "KeyT" then true else st.placingTee }
  else if !st.ball.moving then
    { st with rotatingLeft := if code = "ArrowLeft" then true else st.rotatingLeft
              rotatingRight := if code = "ArrowRight" then true else st.rotatingRight
              powerCharging := if code = "Space" then true else st.powerCharging }
  else st

/-- The function `onKeyUp(code)`; `cos` and `sin` are `Math.cos` and `Math.sin`. -/
def onKeyUp (cos sin : ℚ → ℚ) (code : String) (st : State) : State :=
  if st.inPlayMode then
    let st1 :=
      { st with rotatingLeft := if code = "ArrowLeft" then false else st.rotatingLeft
                rotatingRight := if code = "ArrowRight" then false else st.rotatingRight }
    if code = "Space" ∧ st1.powerCharging then
      { st1 with powerCharging := false
                 ball := { st1.ball with vx := cos st1.arrowAngle * (st1.power * 0.05)
                                         vy := sin st1.arrowAngle * (st1.power * 0.05)
                                         moving := true }
                 strokes := st1.strokes + 1
                 power := 0 }
    else st1
  else st

/-- The body of `loop()` after its guard: in play mode the power ramp and
`updatePlay()`; drawing is not modelled. -/
def frame (g : Geometry) (sqrt : ℚ → ℚ) (st : State) : Result :=
  if st.inPlayMode then
    updatePlay g sqrt
      (if st.powerCharging then { st with power := min (st.power + 2) 200 } else st)
  else .done st

/-- What the closure can receive once created; the handlers `onStop`, `onMouseUp` and
`onResize` are empty. -/
inductive Input
  | start
  | mouseMove (m : Mouse)
  | mouseDown (canvas : Canvas) (m : Mouse)
  | mouseUp (m : Mouse)
  | keyDown (code : String)
  | keyUp (code : String)
  | resize
  | frame
  deriving DecidableEq

/-- One call into the closure: the state it leaves, whether it returned or threw. -/
def step (g : Geometry) (sqrt cos sin : ℚ → ℚ) (st : State) : Input → State
  | .start => onStart g st
  | .mouseMove m => (onMouseMove g m st).state
  | .mouseDown canvas m => (onMouseDown g canvas m st).state
  | .mouseUp _ => st
  | .keyDown code => onKeyDown code st
  | .keyUp code => onKeyUp cos sin code st
  | .resize => st
  | .frame => (frame g sqrt st).state

/-- A sequence of calls, oldest first. -/
def play (g : Geometry) (sqrt cos sin : ℚ → ℚ) (st : State) (inputs : List Input) : State :=
  inputs.foldl (step g sqrt cos sin) st

/-- The markers are placed whenever the world is in play mode. -/
def Marked (st : State) : Prop :=
  st.inPlayMode = true → st.teeCell.isSome = true ∧ st.holeCell.isSome = true

end Designer

/-! ## Caddy world: rounds, questions and sequences of calls -/

namespace Caddy

/-- A state of round 1 on a 800 x 480 canvas: the caddy stands still, carrying the
first bag, with half of the stamina left; no trap is near. -/
def resting : State :=
  { tired with caddy := { tired.caddy with vx := 0, stamina := 50 } }

/-- An entry of `questions`. -/
structure Question where
  q : String
  options : List String
  answer : ℕ
  deriving DecidableEq

/-- The constant `questions`. -/
def questions : List Question :=
  [ { q := "Ball is in a bunker near the green. What club do you use?"
      options := ["Driver", "Sand Wedge", "Putter"], answer := 1 },
    { q := "You’re 150 yards from the hole on the fairway. What do you use?"
      options := ["7 Iron", "Putter", "Wedge"], answer := 0 },
    { q := "You’re on the green, 20 feet from the hole. What club?"
      options := ["Putter", "9 Iron", "Driver"], answer := 0 },
    { q := "Ball stuck in rough grass, close to green. What should you use?"
      options := ["Pitching Wedge", "Driver", "Putter"], answer := 0 },
    { q := "You’re teeing off on a long par 5. What club do you start with?"
      options := ["Driver", "9 Iron", "Putter"], answer := 0 } ]

/-- The closure as `createCaddyWorld()` leaves it; `statusPill` is the text of the
status node at that time. -/
def create (statusPill : String) : State :=
  { caddy := { x := 60, y := 0, vx := 0, vy := 0, speed := 2.2, stamina := 100 }
    bags := [], traps := [], golfers := []
    started := false, showingQuestion := false, currentQuestion := none, selected := none
    questionAnswered := false, round := 1, statusPill := statusPill, overlays := []
    restartListeners := 0 }

/-- The constant `trapCount` of `initGame()`. -/
def trapCount (round : ℕ) : ℕ := min (3 + round) 10

/-- The constant `bagCount` of `initGame()`. -/
def bagCount (round : ℕ) : ℕ := 2 + round / 2

/-- The constant `courseLength` of `initGame()`. -/
def courseLength (canvas : Canvas) (round : ℕ) : ℚ :=
  (canvas.width : ℚ) * (0.4 + (round : ℚ) * 0.1)

/-- The trap pushed by iteration `i` of the first loop of `initGame()`; `rand` lists
the values `Math.random()` returns during the call, in order. -/
def newTrap (canvas : Canvas) (round : ℕ) (rand : ℕ → ℚ) (i : ℕ) : Trap :=
  { x := 150 + rand (3 * i) * (courseLength canvas round - 200)
    y := (canvas.height : ℚ) - 160 + rand (3 * i + 1) * 20
    r := 12 + rand (3 * i + 2) * 4 }

/-- The loop `while (!valid)` of `initGame()`, run for at most `fuel` draws starting
with draw `k`: the bag placed and the index of the next draw, or `none` when no
draw among them is valid. -/
def placeBag (canvas : Canvas) (round : ℕ) (traps : List Trap) (rand : ℕ → ℚ) :
    ℕ → ℕ → Option (Bag × ℕ)
  | 0, _ => none
  | fuel + 1, k =>
    let x := 120 + rand k * (courseLength canvas round - 150)
    let y := (canvas.height : ℚ) - 140
    if traps.any (fun t => hypotLt (x - t.x) (y - t.y) (t.r + 20)) then
      placeBag canvas round traps rand fuel (k + 1)
    else some ({ x := x, y := y, carried := false, delivered := false }, k + 1)

/-- The second loop of `initGame()`: `count` bags, each within `fuel` draws. -/
def placeBags (canvas : Canvas) (round : ℕ) (traps : List Trap) (rand : ℕ → ℚ) (fuel : ℕ) :
    ℕ → ℕ → Option (List Bag)
  | 0, _ => some []
  | count + 1, k =>
    match placeBag canvas round traps rand fuel k with
    | none => none
    | some (bag, k1) =>
      match placeBags canvas round traps rand fuel count k1 with
      | none => none
      | some bags => some (bag :: bags)

/-- The function `initGame()` (its HUD title and subtitle are part of the session):
`none` when a bag finds no valid place within `fuel` draws. -/
def initGame (canvas : Canvas) (rand : ℕ → ℚ) (fuel : ℕ) (st : State) : Option State :=
  let traps := (List.range (trapCount st.round)).map (newTrap canvas st.round rand)
  match placeBags canvas st.round traps rand fuel (bagCount st.round) (3 * trapCount st.round) with
  | none => none
  | some bags =>
    some { st with traps := traps
                   bags := bags
                   golfers := [{ x := courseLength canvas st.round
                                 y := (canvas.height : ℚ) - 150, reached := false }]
                   caddy := { st.caddy with x := 60, y := (canvas.height : ℚ) - 140
                                            stamina := 100, vx := 0, vy := 0 }
                   started := true
                   statusPill := "Round " ++ toString st.round }

/-- The function `onStart()`. -/
def onStart (canvas : Canvas) (rand : ℕ → ℚ) (fuel : ℕ) (st : State) : Option State :=
  initGame canvas rand fuel st

/-- The function `startNextRound()`; the round message is only drawn. -/
def startNextRound (canvas : Canvas) (rand : ℕ → ℚ) (fuel : ℕ) (st : State) : Option State :=
  initGame canvas rand fuel { st with round := st.round + 1 }

/-- The function `resetGame()`. -/
def resetGame (canvas : Canvas) (rand : ℕ → ℚ) (fuel : ℕ) (st : State) : Option State :=
  initGame canvas rand fuel { st with round := 1 }

/-- The listener `restartHandler` that `gameOverScreen` registers: it removes itself
and calls `resetGame()`. -/
def restartHandler (canvas : Canvas) (rand : ℕ → ℚ) (fuel : ℕ) (st : State) : Option State :=
  resetGame canvas rand fuel { st with restartListeners := st.restartListeners - 1 }

/-- The two callbacks the `click` listener hands to `setTimeout`. -/
inductive Timeout
  | nextRound
  | gameOver
  deriving DecidableEq

/-- The run of a callback handed to `setTimeout`. -/
def Timeout.run (canvas : Canvas) (rand : ℕ → ℚ) (fuel : ℕ) (st : State) :
    Timeout → Option State
  | .nextRound => startNextRound canvas rand fuel { st with showingQuestion := false }
  | .gameOver => some (gameOverScreen "Incorrect! Game Over." st)

/-- The `click` listener the factory registers on the canvas, for a click at offset
`(x, y)`: the state it leaves and the callbacks it hands to `setTimeout`.  With no
question object at hand the listener throws and changes nothing. -/
def onClick (canvas : Canvas) (x y : ℚ) (st : State) : State × List Timeout :=
  if !st.showingQuestion || st.questionAnswered then (st, [])
  else
    match st.currentQuestion.bind (fun i => questions[i]?) with
    | none => (st, [])
    | some q =>
      (List.range q.options.length).foldl
        (fun (acc : State × List Timeout) (i : ℕ) =>
          let top : ℚ := (canvas.height : ℚ) / 2 + (i : ℚ) * 45
          if x > (canvas.width : ℚ) / 2 - 90 ∧ x < (canvas.width : ℚ) / 2 + 90 ∧
              y > top ∧ y < top + 35 then
            ({ acc.1 with selected := some i, questionAnswered := true },
              acc.2 ++ [if i = q.answer then Timeout.nextRound else Timeout.gameOver])
          else acc)
        (st, [])

/-- What the closure can receive once created: `onStart()`, an `update(dt)` (the
frame loop calls `update(16)`), a key, a click for its `click` listener, the run of
a callback handed to `setTimeout`, and the run of a `restartHandler`. -/
inductive Input
  | start (canvas : Canvas) (rand : ℕ → ℚ) (fuel : ℕ)
  | tick (canvas : Canvas) (pick : ℕ) (dt : ℚ)
  | keyDown (code : String)
  | keyUp (code : String)
  | click (canvas : Canvas) (x y : ℚ)
  | timeout (t : Timeout) (canvas : Canvas) (rand : ℕ → ℚ) (fuel : ℕ)
  | restart (canvas : Canvas) (rand : ℕ → ℚ) (fuel : ℕ)

/-- One call into the closure: `none` when `initGame()` does not return within its
fuel. -/
def step (st : State) : Input → Option State
  | .start canvas rand fuel => onStart canvas rand fuel st
  | .tick canvas pick dt => some (update canvas pick dt st)
  | .keyDown code => some (onKeyDown code st)
  | .keyUp code => some (onKeyUp code st)
  | .click canvas x y => some (onClick canvas x y st).1
  | .timeout t canvas rand fuel => t.run canvas rand fuel st
  | .restart canvas rand fuel => restartHandler canvas rand fuel st

/-- A sequence of calls, oldest first. -/
def play : State → List Input → Option State
  | st, [] => some st
  | st, i :: rest =>
    match step st i with
    | none => none
    | some st1 => play st1 rest

/-- A run of `Math.random()`: one half for the first `n` draws, zero afterwards. -/
def draws (n : ℕ) : ℕ → ℚ :=
  fun i => if i < n then 1 / 2 else 0

/-- The elapsed time of an `update` call is not negative. -/
def Input.Forward : Input → Prop
  | .tick _ _ dt => 0 ≤ dt
  | _ => True

/-- The calls that can occur within one round on a fixed canvas before any restart:
updates and clicks on that canvas, and keys. -/
def Input.InRound (canvas : Canvas) : Input → Prop
  | .tick c _ _ => c = canvas
  | .keyDown _ => True
  | .keyUp _ => True
  | .click c _ _ => c = canvas
  | _ => False

end Caddy

/-! ## Pro golfer world: the ball in flight -/

namespace Pro

/-- The constant `groundY` of `physicsStep()`: the ordinate of the ball lying on the
ground. -/
def groundY (canvas : Canvas) (g : Game) : ℚ :=
  (canvas.height : ℚ) - g.cfg.groundH - ballRadius

/-- The speed `|vy|` at which the next `physicsStep()` brings the ball down on the
ground line, when it does. -/
def impact (canvas : Canvas) (g : Game) : Option ℚ :=
  if g.ball.onGround = false ∧ g.ball.y + (g.ball.vy + gravity) ≥ groundY canvas g then
    some |g.ball.vy + gravity|
  else none

/-- The quantity `vy^2 + gravity*vy + 2*gravity*(groundY - y)`, which a step of free
flight leaves as it is. -/
def energy (canvas : Canvas) (g : Game) : ℚ :=
  g.ball.vy * g.ball.vy + gravity * g.ball.vy + 2 * gravity * (groundY canvas g - g.ball.y)

/-- After `k` steps of `physicsStep()` the ball of `g` is still in flight, not below
the ground line and with the energy it had, and the next step brings it down on the
ground line. -/
def DescendsIn (canvas : Canvas) (g : Game) (k : ℕ) : Prop :=
  ((physicsStep canvas)^[k] g).ball.onGround = false ∧
  groundY canvas ((physicsStep canvas)^[k] g) = groundY canvas g ∧
  ((physicsStep canvas)^[k] g).ball.y ≤ groundY canvas g ∧
  energy canvas ((physicsStep canvas)^[k] g) = energy canvas g ∧
  ((physicsStep canvas)^[k] g).ball.y + (((physicsStep canvas)^[k] g).ball.vy + gravity)
    ≥ groundY canvas g

/-- After `n` steps of `physicsStep()` the ball of `g` lies at rest on the ground
line. -/
def RestsIn (canvas : Canvas) (g : Game) (n : ℕ) : Prop :=
  ((physicsStep canvas)^[n] g).ball.onGround = true ∧
  ((physicsStep canvas)^[n] g).ball.vy = 0 ∧
  ((physicsStep canvas)^[n] g).ball.y = groundY canvas g

/-- A closure on a 800 x 480 canvas whose ball has just left the ground line at
(96, 376) with velocity (3, -5). -/
def inFlight : Game :=
  { ball := { x := 96, y := 376, vx := 3, vy := -5, onGround := false }, strokes := 1,
    overlayText := "", showWinOverlay := false, statusPill := "Strokes 1/3",
    cfg := { groundH := 96, teeX := 96, holeX := 656, holeY := 378 }, charging := false,
    power := 20, angle := 1, lastShotTime := 0, windStrength := 0 }

end Pro

/-! ## Facts about the guarded call -/

/-- A defined handler can be invoked; the call is logged and leaves the identity of
the instance and its caddy frame handle alone. -/
theorem World.invoke_of_defines (w : World) (c : Call) (now : ℚ)
    (h : w.kind.defines c.handler = true) :
    ∃ w1, w.invoke c now = some w1 ∧ w1.kind = w.kind ∧ w1.id = w.id ∧
      w1.received = c :: w.received ∧ w1.animationFrameId = w.animationFrameId := by
  unfold World.invoke
  rw [if_pos h]
  split <;> exact ⟨_, rfl, rfl, rfl, rfl, rfl⟩

/-- The guarded call never throws and touches nothing but the heap. -/
theorem forward_eq (c : Call) (now : ℚ) (s : Session) :
    forward c now s = .returned { s with heap := (forward c now s).session.heap } := by
  unfold forward
  split
  · rfl
  · split
    · rfl
    · rename_i i w _
      by_cases h : w.kind.defines c.handler = true
      · obtain ⟨w1, h1, -⟩ := w.invoke_of_defines c now h
        simp [h, h1, Session.setWorld, Outcome.session]
      · simp [h, Outcome.session]

/-- Without an active world, or when the active world lacks the handler, the
guarded call does nothing. -/
theorem forward_skip (c : Call) (now : ℚ) (s : Session)
    (h : s.current = none ∨ ∃ w, s.current = some w ∧ w.kind.defines c.handler = false) :
    forward c now s = .returned s := by
  unfold forward
  unfold Session.current at h
  split
  · rfl
  · rename_i i hi
    split
    · rfl
    · rename_i w hw
      rcases h with h | ⟨w1, h, hd⟩
      · simp [hi, hw] at h
      · simp [hi, hw] at h
        subst h
        simp [hd]

/-- When the active world defines the handler, the guarded call hands it the
argument: the call becomes the newest entry of the log of that instance. -/
theorem forward_call (c : Call) (now : ℚ) (s : Session) (i : Nat) (w : World)
    (hi : s.currentWorld = some i) (hw : s.heap[i]? = some w)
    (hd : w.kind.defines c.handler = true) :
    ∃ w1, (forward c now s).session.heap[i]? = some w1 ∧ w1.received = c :: w.received := by
  obtain ⟨w1, h1, -, -, h2, -⟩ := w.invoke_of_defines c now hd
  have hlt : i < s.heap.length := by
    rcases Nat.lt_or_ge i s.heap.length with h | h
    · exact h
    · rw [List.getElem?_eq_none h] at hw
      cases hw
  refine ⟨w1, ?_, h2⟩
  simp [forward, hi, hw, hd, h1, Outcome.session, Session.setWorld, hlt]

/-! ## Facts about the session controller -/

/-- What `stopCurrentWorld` leaves behind: no current world, and nothing changed
besides the global frame handle, the pending list and the heap. -/
theorem stopCurrentWorld_eq (s : Session) :
    stopCurrentWorld s =
      { s with currentWorld := none
               animationFrameId := (stopCurrentWorld s).animationFrameId
               pending := (stopCurrentWorld s).pending
               heap := (stopCurrentWorld s).heap } := by
  unfold stopCurrentWorld
  simp only []
  rw [forward_eq]
  rcases s.animationFrameId with _ | h
  · rfl
  · by_cases h0 : h = 0
    · simp [h0, Outcome.session]
    · simp [h0, Outcome.session, Session.cancelAnimationFrame]

/-- The pending list after `stopCurrentWorld`: the request named by the global
handle is gone, every other one stays. -/
theorem stopCurrentWorld_pending (s : Session) :
    (stopCurrentWorld s).pending =
      match s.animationFrameId with
      | some h => if h ≠ 0 then s.pending.filter (fun f => f.handle ≠ h) else s.pending
      | none => s.pending := by
  unfold stopCurrentWorld
  simp only []
  rw [forward_eq]
  rcases s.animationFrameId with _ | h
  · rfl
  · by_cases h0 : h = 0
    · simp [h0, Outcome.session]
    · simp [h0, Outcome.session, Session.cancelAnimationFrame]

/-- The loop of the current instance passes its guard. -/
theorem loop_current (i : Nat) (w : World) (now : ℚ) (s : Session)
    (hi : s.currentWorld = some i) (hw : s.heap[i]? = some w) (hid : w.id = w.kind.key) :
    loop i now s =
      match w.kind with
      | .greens =>
        let r := greensUpdate (now - w.lastTick) { w with lastTick := now } s
        let w2 := { r.1 with received := .frame :: r.1.received }
        let s2 := r.2.setWorld i w2
        if !w2.gameOver then
          { (s2.requestAnimationFrame (.loop i)).2 with animationFrameId := some s2.nextHandle }
        else s2
      | .caddy =>
        (s.requestAnimationFrame (.loop i)).2.setWorld i
          { w with received := .frame :: w.received, animationFrameId := some s.nextHandle }
      | _ =>
        { ((s.setWorld i { w with received := .frame :: w.received }).requestAnimationFrame
              (.loop i)).2 with
          animationFrameId := some s.nextHandle } := by
  unfold loop
  simp only [hw, Session.current, hi, Option.some_bind, hid, ne_eq, not_true_eq_false, if_false]
  cases hk : w.kind <;> rfl

/-- The guarded call keeps the number of instances. -/
theorem forward_heap_length (c : Call) (now : ℚ) (s : Session) :
    (forward c now s).session.heap.length = s.heap.length := by
  unfold forward
  split
  · rfl
  · split
    · rfl
    · split
      · split <;> simp [Outcome.session, Session.setWorld]
      · rfl

/-- The function `stopCurrentWorld` keeps the number of instances. -/
theorem stopCurrentWorld_heap_length (s : Session) :
    (stopCurrentWorld s).heap.length = s.heap.length := by
  unfold stopCurrentWorld
  simp only []
  rw [forward_heap_length]
  rcases s.animationFrameId with _ | h
  · rfl
  · by_cases h0 : h = 0 <;> simp [h0, Session.cancelAnimationFrame]

/-- Every registered id has its entry in the `worlds` array. -/
theorem worlds_find (k : WorldId) :
    ∃ info, worlds.find? (fun w => w.id = k.key) = some info ∧ info.id = k.key := by
  cases k <;> simp [worlds, WorldId.key, List.find?]

/-- The own properties of the registry resolve to their factories. -/
theorem worldConstructors_key (b : Bool) (k : WorldId) :
    worldConstructors b k.key = .factory k := by
  cases k <;> simp [worldConstructors, WorldId.key]

/-- The session `startWorld` reaches for a registered id just before it enters the
frame loop. -/
theorem startWorld_factory (k : WorldId) (rect : Rect) (tInit tLoop : ℚ) (s : Session)
    (info : WorldInfo) (hinfo : worlds.find? (fun w => w.id = k.key) = some info) :
    startWorld k.key rect tInit tLoop s =
      .returned (loop s.heap.length tLoop
        { stopCurrentWorld { s with statusPill := "Loading..." } with
          canvas := resizeCanvas rect
          currentWorld := some s.heap.length
          heap := (stopCurrentWorld { s with statusPill := "Loading..." }).heap ++
            [{ construct k tInit with received := [.onStart], started := decide (k = .greens) }]
          hudWorld := info.name
          hudSub := info.summary
          statusPill := "Playing"
          console := (stopCurrentWorld { s with statusPill := "Loading..." }).console ++
            (if k = .designer then ["Designer mode started"] else []) }) := by
  have hlen := stopCurrentWorld_heap_length { s with statusPill := "Loading..." }
  unfold startWorld
  rw [worldConstructors_key]
  simp only [hinfo]
  generalize stopCurrentWorld { s with statusPill := "Loading..." } = s1 at hlen ⊢
  simp only [] at hlen
  cases k <;>
    simp [constructText, forward, World.invoke, construct, WorldId.defines, Call.handler,
      Outcome.session, Session.setWorld, onStartText, run, hlen]

/-! ## Render surface and input router -/

/-- C7. For every layout box, `resizeCanvas` sets the surface width to
`max(800, floor(w))` and the height to `max(480, floor(h))`, so that the surface is
at least 800 x 480; the same holds for the surface after the `resize` listener of
the window has run. -/
theorem resizeCanvas_clamps (rect : Rect) (s : Session) :
    (resizeCanvas rect).width = max 800 ⌊rect.width⌋ ∧
    (resizeCanvas rect).height = max 480 ⌊rect.height⌋ ∧
    800 ≤ (resizeCanvas rect).width ∧ 480 ≤ (resizeCanvas rect).height ∧
    (resize rect s).session.canvas = resizeCanvas rect := by
  refine ⟨rfl, rfl, le_max_left _ _, le_max_left _ _, ?_⟩
  unfold resize
  rw [forward_eq]
  rfl

/-- C8. On pointer move, with a layout box of non-zero size, the stored pointer
coordinate on each axis is `(client - origin) * (surfaceSize / layoutSize)`, and
the button state is left as it was. -/
theorem mousemove_converts (e : MouseEvent) (rect : Rect) (s : Session)
    (_hw : rect.width ≠ 0) (_hh : rect.height ≠ 0) :
    (mousemove e rect s).session.mouse.x
        = (e.clientX - rect.left) * ((s.canvas.width : ℚ) / rect.width) ∧
    (mousemove e rect s).session.mouse.y
        = (e.clientY - rect.top) * ((s.canvas.height : ℚ) / rect.height) ∧
    (mousemove e rect s).session.mouse.down = s.mouse.down := by
  unfold mousemove
  simp only []
  rw [forward_eq]
  exact ⟨rfl, rfl, rfl⟩

/-- Witness for C8, the example of the specification: layout 1000 x 600, surface
800 x 480, event at (500, 300) relative to the box, stored as (400, 240). -/
theorem mousemove_converts_witness :
    (1000 : ℚ) ≠ 0 ∧ (600 : ℚ) ≠ 0 ∧
    (initial ⟨0, 0, 640, 400⟩).canvas = ⟨800, 480⟩ ∧
    (mousemove ⟨500, 300⟩ ⟨0, 0, 1000, 600⟩ (initial ⟨0, 0, 640, 400⟩)).session.mouse.x = 400 ∧
    (mousemove ⟨500, 300⟩ ⟨0, 0, 1000, 600⟩ (initial ⟨0, 0, 640, 400⟩)).session.mouse.y = 240 := by
  have hc : (initial ⟨0, 0, 640, 400⟩).canvas = ⟨800, 480⟩ := by
    simp [initial, showMenu, stopCurrentWorld, forward, Outcome.session, resizeCanvas]
  obtain ⟨hx, hy, -⟩ := mousemove_converts ⟨500, 300⟩ ⟨0, 0, 1000, 600⟩ (initial ⟨0, 0, 640, 400⟩)
    (by norm_num) (by norm_num)
  refine ⟨by norm_num, by norm_num, hc, ?_, ?_⟩
  · rw [hx, hc]; norm_num
  · rw [hy, hc]; norm_num

/-- C9, as the code has it. The `mousedown`, `mouseup` and `mouseleave` listeners
do not read the position of the event: they leave the stored `x` and `y` as the
last pointer move set them, set `down` to true (down) or false (up, leave), and
return without error; an active world that defines the matching handler receives
the pointer state so updated as its newest call. -/
theorem button_listeners_keep_position (e : MouseEvent) (s : Session) :
    (∃ s1, mousedown e s = .returned s1 ∧ s1.mouse = { s.mouse with down := true } ∧
      ∀ i w, s.currentWorld = some i → s.heap[i]? = some w →
        w.kind.defines .onMouseDown = true →
        ∃ w1, s1.heap[i]? = some w1 ∧
          w1.received = .onMouseDown { s.mouse with down := true } :: w.received) ∧
    (∃ s1, mouseup e s = .returned s1 ∧ s1.mouse = { s.mouse with down := false } ∧
      ∀ i w, s.currentWorld = some i → s.heap[i]? = some w →
        w.kind.defines .onMouseUp = true →
        ∃ w1, s1.heap[i]? = some w1 ∧
          w1.received = .onMouseUp { s.mouse with down := false } :: w.received) ∧
    (∃ s1, mouseleave e s = .returned s1 ∧ s1.mouse = { s.mouse with down := false } ∧
      ∀ i w, s.currentWorld = some i → s.heap[i]? = some w →
        w.kind.defines .onMouseLeave = true →
        ∃ w1, s1.heap[i]? = some w1 ∧
          w1.received = .onMouseLeave { s.mouse with down := false } :: w.received) := by
  refine ⟨⟨_, forward_eq _ _ _, rfl, ?_⟩, ⟨_, forward_eq _ _ _, rfl, ?_⟩,
    ⟨_, forward_eq _ _ _, rfl, ?_⟩⟩
  · intro i w hi hw hd
    exact forward_call (.onMouseDown { s.mouse with down := true }) 0
      { s with mouse := { s.mouse with down := true } } i w hi hw hd
  · intro i w hi hw hd
    exact forward_call (.onMouseUp { s.mouse with down := false }) 0
      { s with mouse := { s.mouse with down := false } } i w hi hw hd
  · intro i w hi hw hd
    exact forward_call (.onMouseLeave { s.mouse with down := false }) 0
      { s with mouse := { s.mouse with down := false } } i w hi hw hd

/-- C9 as stated fails: on the freshly loaded page (pointer at (0, 0), surface and
layout both 1000 x 600) a `mousedown` at client position (500, 300) leaves the
stored position at (0, 0), while the conversion used for pointer moves gives
(500, 300). -/
theorem mousedown_position_not_converted :
    (mousedown ⟨500, 300⟩ (initial ⟨0, 0, 1000, 600⟩)).session.mouse = ⟨0, 0, true⟩ ∧
    (mousemove ⟨500, 300⟩ ⟨0, 0, 1000, 600⟩ (initial ⟨0, 0, 1000, 600⟩)).session.mouse
      = ⟨500, 300, false⟩ := by
  constructor
  · simp [mousedown, initial, showMenu, stopCurrentWorld, forward, Outcome.session]
  · simp [mousemove, initial, showMenu, stopCurrentWorld, forward, Outcome.session, resizeCanvas]

/-- C6. For every pointer or key event, if no world is active or the active world
does not define the matching handler, the listeners return without error and the
session differs at most in the shared pointer and key state: no world instance,
pending frame or HUD text changes. -/
theorem dispatch_without_handler (ev : InputEvent) (s : Session)
    (h : s.current = none ∨ ∃ w, s.current = some w ∧ w.kind.defines ev.handler = false) :
    ∃ m k, dispatch ev s = .returned { s with mouse := m, keys := k } := by
  cases ev with
  | mousemove e rect =>
    exact ⟨_, s.keys, forward_skip _ _ _ h⟩
  | mousedown e => exact ⟨_, s.keys, forward_skip _ _ _ h⟩
  | mouseup e => exact ⟨_, s.keys, forward_skip _ _ _ h⟩
  | mouseleave e => exact ⟨_, s.keys, forward_skip _ _ _ h⟩
  | keydown code =>
    refine ⟨s.mouse, setKey s.keys code true, ?_⟩
    have h1 := forward_skip (.onKeyDown code) 0 { s with keys := setKey s.keys code true } h
    show (forward _ _ _).andThen _ = _
    rw [h1]
    exact h1
  | keyup code =>
    refine ⟨s.mouse, setKey s.keys code false, ?_⟩
    have h1 := forward_skip (.onKeyUp code) 0 { s with keys := setKey s.keys code false } h
    show (forward _ _ _).andThen _ = _
    rw [h1]
    exact h1

/-! ## Starting a world -/

/-- C5. For each of the five registered ids and from any session, `startWorld(id)`
returns, the active world is a newly constructed instance (a new position of the
heap, whose log holds only its `onStart` and its first frame) built by the factory
of that id and carrying that id, and the HUD title and subtitle are the name and
summary the `worlds` array registers for the id, whose lookup succeeds.  The clock
is taken to advance by less than the 90 seconds of the greenskeeper countdown
between the two readings made inside the call. -/
theorem startWorld_registered (k : WorldId) (rect : Rect) (tInit tLoop : ℚ) (s : Session)
    (hclock : tLoop - tInit < 90000) :
    ∃ s1 w info,
      startWorld k.key rect tInit tLoop s = .returned s1 ∧
      s1.currentWorld = some s.heap.length ∧
      s1.heap.length = s.heap.length + 1 ∧
      s1.heap[s.heap.length]? = some w ∧
      w.kind = k ∧ w.id = k.key ∧ w.received = [.frame, .onStart] ∧
      worlds.find? (fun i => i.id = k.key) = some info ∧
      s1.hudWorld = info.name ∧ s1.hudSub = info.summary := by
  obtain ⟨info, hinfo, -⟩ := worlds_find k
  have hlen := stopCurrentWorld_heap_length { s with statusPill := "Loading..." }
  rw [startWorld_factory k rect tInit tLoop s info hinfo]
  generalize stopCurrentWorld { s with statusPill := "Loading..." } = s0 at hlen ⊢
  simp only [] at hlen
  rw [loop_current s.heap.length
    { construct k tInit with received := [.onStart], started := decide (k = .greens) } tLoop _ rfl
    (by simp [← hlen]) rfl]
  have hpos : ¬ (90 - (tLoop - tInit) / 1000 ≤ 0) := by
    intro h
    linarith
  cases k <;>
    simp [construct, Session.setWorld, Session.requestAnimationFrame, greensUpdate, hinfo, hpos,
      ← hlen]

/-- Witness for C5: starting the caddy world on the freshly loaded page. -/
theorem startWorld_registered_witness :
    (0 : ℚ) - 0 < 90000 ∧
    ∃ s1 w, startWorld "caddy" ⟨0, 0, 1000, 600⟩ 0 0 (initial ⟨0, 0, 1000, 600⟩) = .returned s1 ∧
      s1.currentWorld = some 0 ∧ s1.heap[0]? = some w ∧ w.kind = .caddy ∧
      s1.hudWorld = "Caddy (Carrying)" := by
  obtain ⟨s1, w, info, h1, h2, -, h4, h5, -, -, h8, h9, -⟩ :=
    startWorld_registered .caddy ⟨0, 0, 1000, 600⟩ 0 0 (initial ⟨0, 0, 1000, 600⟩) (by norm_num)
  have hheap : (initial ⟨0, 0, 1000, 600⟩).heap = [] := by
    simp [initial, showMenu, stopCurrentWorld, forward, Outcome.session]
  simp [worlds, WorldId.key] at h8
  rw [hheap] at h2 h4
  refine ⟨by norm_num, s1, w, h1, h2, h4, h5, ?_⟩
  rw [h9, ← h8]

/-- C4, as the code has it. For every identifier that `worldConstructors[id]` does
not resolve, `startWorld(id)` returns normally, as a successful start does: nothing
is thrown, the only report is the console warning, and nothing else in the session
changes. -/
theorem startWorld_unknown_warns (id : String) (rect : Rect) (tInit tLoop : ℚ) (s : Session)
    (h : worldConstructors s.registryHasId id = .undefined) :
    startWorld id rect tInit tLoop s =
      .returned { s with console := s.console ++ ["No constructor for " ++ id] } := by
  unfold startWorld
  rw [h]

/-- Witness for C4: the identifier `bunker` on the freshly loaded page. -/
theorem startWorld_unknown_warns_witness :
    worldConstructors (initial ⟨0, 0, 1000, 600⟩).registryHasId "bunker" = .undefined ∧
    startWorld "bunker" ⟨0, 0, 1000, 600⟩ 0 0 (initial ⟨0, 0, 1000, 600⟩) =
      .returned { initial ⟨0, 0, 1000, 600⟩ with
        console := (initial ⟨0, 0, 1000, 600⟩).console ++ ["No constructor for " ++ "bunker"] } :=
  ⟨by simp [worldConstructors],
   startWorld_unknown_warns "bunker" ⟨0, 0, 1000, 600⟩ 0 0 (initial ⟨0, 0, 1000, 600⟩)
     (by simp [worldConstructors])⟩

/-- C4 as stated fails: for the unregistered identifier `bunker` no error reaches
the caller; `startWorld` returns. -/
theorem startWorld_unknown_does_not_throw :
    ¬ ∃ s1, startWorld "bunker" ⟨0, 0, 1000, 600⟩ 0 0 (initial ⟨0, 0, 1000, 600⟩) = .threw s1 := by
  simp [startWorld, worldConstructors]

/-- C3, the failing input. With the pro golfer world active and its frame pending,
`startWorld('constructor')` passes the guard (the lookup finds the inherited
`Object` function), sets the status text to `Loading...`, stops the active world and
cancels its frame, and ends in a `TypeError`: the session is not left unchanged. -/
theorem startWorld_inherited_key_stops_world :
    (exec (initial ⟨0, 0, 1000, 600⟩) [.startWorld "pro" ⟨0, 0, 1000, 600⟩ 0 0]).currentWorld
      = some 0 ∧
    (exec (initial ⟨0, 0, 1000, 600⟩) [.startWorld "pro" ⟨0, 0, 1000, 600⟩ 0 0]).pending
      = [⟨1, .loop 0⟩] ∧
    ∃ s1, startWorld "constructor" ⟨0, 0, 1000, 600⟩ 0 0
        (exec (initial ⟨0, 0, 1000, 600⟩) [.startWorld "pro" ⟨0, 0, 1000, 600⟩ 0 0]) = .threw s1 ∧
      s1.currentWorld ≠ some 0 ∧ s1.pending = [] ∧ s1.statusPill = "Loading..." ∧
      s1.heap.map World.received = [[.onStop, .frame, .onStart]] := by
  simp [exec, step, initial, showMenu, stopCurrentWorld, startWorld, worldConstructors, forward,
    Outcome.session, construct, constructText, onStartText, worlds, run, loop,
    Session.current, Session.setWorld, Session.requestAnimationFrame,
    Session.cancelAnimationFrame, World.invoke, WorldId.defines, WorldId.key, Call.handler]

/-- C2, the failing input. The caddy world keeps the handle of its pending frame in
a variable of its own closure, so `stopCurrentWorld()` does not cancel it: after
start, stop and a second start of the caddy world, the frame requested by the first
instance runs, passes the guard (the current world has id `caddy`) and updates and
renders the stopped instance again, whose log grows by a frame; it then keeps
rescheduling itself next to the loop of the second instance. -/
theorem stopped_caddy_instance_runs_again :
    (exec (initial ⟨0, 0, 1000, 600⟩)
        [.startWorld "caddy" ⟨0, 0, 1000, 600⟩ 0 0, .stopCurrentWorld]).currentWorld = none ∧
    ((exec (initial ⟨0, 0, 1000, 600⟩)
        [.startWorld "caddy" ⟨0, 0, 1000, 600⟩ 0 0, .stopCurrentWorld]).heap.map World.received)
      = [[.frame, .onStart]] ∧
    (exec (initial ⟨0, 0, 1000, 600⟩)
        [.startWorld "caddy" ⟨0, 0, 1000, 600⟩ 0 0, .stopCurrentWorld]).pending
      = [⟨1, .loop 0⟩] ∧
    (exec (initial ⟨0, 0, 1000, 600⟩)
        [.startWorld "caddy" ⟨0, 0, 1000, 600⟩ 0 0, .stopCurrentWorld,
         .startWorld "caddy" ⟨0, 0, 1000, 600⟩ 0 0, .fire 1 0]).currentWorld = some 1 ∧
    ((exec (initial ⟨0, 0, 1000, 600⟩)
        [.startWorld "caddy" ⟨0, 0, 1000, 600⟩ 0 0, .stopCurrentWorld,
         .startWorld "caddy" ⟨0, 0, 1000, 600⟩ 0 0, .fire 1 0]).heap.map World.received)
      = [[.frame, .frame, .onStart], [.frame, .onStart]] ∧
    (exec (initial ⟨0, 0, 1000, 600⟩)
        [.startWorld "caddy" ⟨0, 0, 1000, 600⟩ 0 0, .stopCurrentWorld,
         .startWorld "caddy" ⟨0, 0, 1000, 600⟩ 0 0, .fire 1 0]).pending
      = [⟨2, .loop 1⟩, ⟨3, .loop 0⟩] := by
  simp [exec, step, initial, showMenu, stopCurrentWorld, startWorld, worldConstructors, forward,
    Outcome.session, construct, constructText, onStartText, worlds, run, loop, fire,
    Session.current, Session.setWorld, Session.requestAnimationFrame,
    Session.cancelAnimationFrame, World.invoke, WorldId.defines, WorldId.key, Call.handler]

/-- C1 as stated fails: after the greenskeeper world has been started and a frame
runs once its 90 seconds have elapsed, the game is over and the loop requests no
further frame, so a world is active while no animation-frame request is pending. -/
theorem greens_game_over_no_pending_frame :
    (exec (initial ⟨0, 0, 1000, 600⟩)
        [.startWorld "greens" ⟨0, 0, 1000, 600⟩ 0 0, .fire 1 90000]).currentWorld = some 0 ∧
    ((exec (initial ⟨0, 0, 1000, 600⟩)
        [.startWorld "greens" ⟨0, 0, 1000, 600⟩ 0 0, .fire 1 90000]).heap.map World.gameOver)
      = [true] ∧
    (exec (initial ⟨0, 0, 1000, 600⟩)
        [.startWorld "greens" ⟨0, 0, 1000, 600⟩ 0 0, .fire 1 90000]).pending = [] := by
  have h1 : ¬ ((90 : ℚ) ≤ 0) := by norm_num
  have h2 : (90 : ℚ) - 90000 / 1000 ≤ 0 := by norm_num
  simp [exec, step, initial, showMenu, stopCurrentWorld, startWorld, worldConstructors,
    forward, Outcome.session, construct, constructText, onStartText, worlds, run, loop, fire,
    greensUpdate, Session.current, Session.setWorld, Session.requestAnimationFrame,
    Session.cancelAnimationFrame, World.invoke, WorldId.defines, WorldId.key, Call.handler,
    h1, h2]

/-! ## One world, one frame -/

/-- The greenskeeper update keeps the identity of the instance. -/
theorem greensUpdate_fst (dt : ℚ) (w : World) (s : Session) :
    (greensUpdate dt w s).1.kind = w.kind ∧ (greensUpdate dt w s).1.id = w.id := by
  unfold greensUpdate
  dsimp only
  split_ifs <;> exact ⟨rfl, rfl⟩

/-- The greenskeeper update writes nothing but HUD text into the session. -/
theorem greensUpdate_snd (dt : ℚ) (w : World) (s : Session) :
    ∃ a b, (greensUpdate dt w s).2 = { s with statusPill := a, hudSub := b } := by
  unfold greensUpdate
  dsimp only
  split_ifs <;> exact ⟨_, _, rfl⟩

/-- Running the loop of the current instance with no frame pending re-establishes
the scheduling discipline. -/
theorem loop_scheduled (i : Nat) (w : World) (now : ℚ) (s : Session)
    (hreg : s.registryHasId = false) (hpos : 1 ≤ s.nextHandle)
    (hheap : ∀ v ∈ s.heap, v.kind ≠ .caddy ∧ v.id = v.kind.key)
    (hi : s.currentWorld = some i) (hw : s.heap[i]? = some w) (hp : s.pending = []) :
    Scheduled (loop i now s) := by
  obtain ⟨hk, hid⟩ := hheap w (List.getElem?_mem hw)
  have hlt : i < s.heap.length := by
    rcases Nat.lt_or_ge i s.heap.length with h | h
    · exact h
    · rw [List.getElem?_eq_none h] at hw
      cases hw
  have hne : s.nextHandle ≠ 0 := by omega
  have hset : ∀ w1 : World, w1.kind = w.kind → w1.id = w.id →
      ∀ v ∈ s.heap.set i w1, v.kind ≠ .caddy ∧ v.id = v.kind.key := by
    intro w1 h1 h2 v hv
    rcases List.mem_or_eq_of_mem_set hv with h | h
    · exact hheap v h
    · subst h
      rw [h1, h2]
      exact ⟨hk, hid⟩
  rw [loop_current i w now s hi hw hid]
  cases hkind : w.kind with
  | caddy => exact absurd hkind hk
  | greens =>
    simp only []
    obtain ⟨a, b, hs⟩ := greensUpdate_snd (now - w.lastTick) { w with lastTick := now } s
    obtain ⟨hk1, hid1⟩ := greensUpdate_fst (now - w.lastTick) { w with lastTick := now } s
    simp only [hkind] at hs hk1 hid1
    rw [hs]
    generalize (greensUpdate (now - w.lastTick)
      { kind := WorldId.greens, id := w.id, received := w.received, lastTick := now,
        gameTime := w.gameTime, started := w.started, gameOver := w.gameOver,
        animationFrameId := w.animationFrameId } s).1 = w1 at hk1 hid1 ⊢
    have hk1 : w1.kind = w.kind := hk1.trans hkind.symm
    cases hover : w1.gameOver with
    | true =>
      simp only [Bool.not_true, Bool.false_eq_true, if_false]
      refine ⟨hreg, hpos, hset _ hk1 hid1, ?_, ?_⟩
      · intro h
        simp [Session.setWorld, hi] at h
      · intro j hj
        simp only [Session.setWorld, hi, Option.some.injEq] at hj
        subst hj
        refine ⟨_, List.getElem?_set_self hlt, fun _ => hp, fun h => ?_⟩
        exact absurd ⟨hk1.trans hkind, rfl⟩ h
    | false =>
      simp only [Bool.not_false, if_true]
      refine ⟨hreg, Nat.le_succ_of_le hpos, hset _ hk1 hid1, ?_, ?_⟩
      · intro h
        simp [Session.setWorld, Session.requestAnimationFrame, hi] at h
      · intro j hj
        simp only [Session.setWorld, Session.requestAnimationFrame, hi, Option.some.injEq] at hj
        subst hj
        refine ⟨_, List.getElem?_set_self hlt, fun h => ?_, fun _ => ?_⟩
        · simp [hover] at h
        · exact ⟨s.nextHandle, hne, rfl, by simp [Session.setWorld, Session.requestAnimationFrame, hp]⟩
  | pro =>
    refine ⟨hreg, Nat.le_succ_of_le hpos, hset _ hkind.symm rfl, ?_, ?_⟩
    · intro h
      simp [Session.setWorld, Session.requestAnimationFrame, hi] at h
    · intro j hj
      simp only [Session.setWorld, Session.requestAnimationFrame, hi, Option.some.injEq] at hj
      subst hj
      refine ⟨_, List.getElem?_set_self hlt, fun h => ?_, fun _ => ?_⟩
      · simp [hkind] at h
      · exact ⟨s.nextHandle, hne, rfl, by simp [Session.setWorld, Session.requestAnimationFrame, hp]⟩
  | designer =>
    refine ⟨hreg, Nat.le_succ_of_le hpos, hset _ hkind.symm rfl, ?_, ?_⟩
    · intro h
      simp [Session.setWorld, Session.requestAnimationFrame, hi] at h
    · intro j hj
      simp only [Session.setWorld, Session.requestAnimationFrame, hi, Option.some.injEq] at hj
      subst hj
      refine ⟨_, List.getElem?_set_self hlt, fun h => ?_, fun _ => ?_⟩
      · simp [hkind] at h
      · exact ⟨s.nextHandle, hne, rfl, by simp [Session.setWorld, Session.requestAnimationFrame, hp]⟩
  | manager =>
    refine ⟨hreg, Nat.le_succ_of_le hpos, hset _ hkind.symm rfl, ?_, ?_⟩
    · intro h
      simp [Session.setWorld, Session.requestAnimationFrame, hi] at h
    · intro j hj
      simp only [Session.setWorld, Session.requestAnimationFrame, hi, Option.some.injEq] at hj
      subst hj
      refine ⟨_, List.getElem?_set_self hlt, fun h => ?_, fun _ => ?_⟩
      · simp [hkind] at h
      · exact ⟨s.nextHandle, hne, rfl, by simp [Session.setWorld, Session.requestAnimationFrame, hp]⟩

/-- The discipline only looks at the registry flag, the handle counter, the heap,
the current world, the pending list and the global handle. -/
theorem Scheduled.congr {s t : Session} (h : Scheduled s)
    (h1 : t.registryHasId = s.registryHasId) (h2 : t.nextHandle = s.nextHandle)
    (h3 : t.heap = s.heap) (h4 : t.currentWorld = s.currentWorld)
    (h5 : t.pending = s.pending) (h6 : t.animationFrameId = s.animationFrameId) :
    Scheduled t := by
  refine ⟨h1 ▸ h.registry, h2 ▸ h.handle_pos, h3 ▸ h.heap_ok, ?_, ?_⟩
  · rw [h4, h5]
    exact h.idle
  · rw [h4, h5, h3, h6]
    exact h.active

/-- What an invoked handler leaves alone. -/
theorem World.invoke_some {w w1 : World} {c : Call} {now : ℚ} (h : w.invoke c now = some w1) :
    w1.kind = w.kind ∧ w1.id = w.id ∧ (c ≠ .onStart → w1.gameOver = w.gameOver) := by
  unfold World.invoke at h
  split_ifs at h
  split at h
  · cases h
    exact ⟨rfl, rfl, fun hc => absurd rfl hc⟩
  · cases h
    exact ⟨rfl, rfl, fun _ => rfl⟩

/-- The heap after a guarded call: untouched, or the current instance replaced by
the result of invoking its handler. -/
theorem forward_heap (c : Call) (now : ℚ) (s : Session) :
    (forward c now s).session.heap = s.heap ∨
    ∃ i w w1, s.currentWorld = some i ∧ s.heap[i]? = some w ∧ w.invoke c now = some w1 ∧
      (forward c now s).session.heap = s.heap.set i w1 := by
  unfold forward
  split
  · exact Or.inl rfl
  · rename_i i hi
    split
    · exact Or.inl rfl
    · rename_i w hw
      split_ifs
      · cases hinv : w.invoke c now with
        | none => exact Or.inl rfl
        | some w1 => exact Or.inr ⟨i, w, w1, hi, hw, hinv, rfl⟩
      · exact Or.inl rfl

/-- A guarded call other than `onStart` keeps the scheduling discipline. -/
theorem forward_scheduled (c : Call) (now : ℚ) (s : Session) (h : Scheduled s)
    (hc : c ≠ .onStart) : Scheduled (forward c now s).session := by
  have heq := forward_eq c now s
  rcases forward_heap c now s with hh | ⟨i, w, w1, hi, hw, hinv, hh⟩
  · rw [heq]
    exact h.congr rfl rfl hh rfl rfl rfl
  · obtain ⟨hk, hid, hg⟩ := World.invoke_some hinv
    have hlt : i < s.heap.length := by
      rcases Nat.lt_or_ge i s.heap.length with h1 | h1
      · exact h1
      · rw [List.getElem?_eq_none h1] at hw
        cases hw
    have hs : (forward c now s).session = { s with heap := s.heap.set i w1 } := by
      rw [← hh]
      exact congrArg Outcome.session heq
    rw [hs]
    refine ⟨h.registry, h.handle_pos, ?_, ?_, ?_⟩
    · intro v hv
      rcases List.mem_or_eq_of_mem_set hv with h1 | h1
      · exact h.heap_ok v h1
      · subst h1
        rw [hk, hid]
        exact h.heap_ok w (List.getElem?_mem hw)
    · intro hn
      exact h.idle hn
    · intro j hj
      obtain ⟨w0, hw0, hover, hrun⟩ := h.active j hj
      have hji : j = i := by
        have : s.currentWorld = some j := hj
        rw [hi] at this
        exact (Option.some.inj this).symm
      subst hji
      rw [hw] at hw0
      cases hw0
      refine ⟨w1, List.getElem?_set_self hlt, ?_, ?_⟩
      · rw [hk, hg hc]
        exact hover
      · rw [hk, hg hc]
        exact hrun

/-- The heap after a guarded call depends only on the current world and the heap. -/
theorem forward_heap_congr (c : Call) (now : ℚ) (s t : Session)
    (h1 : t.currentWorld = s.currentWorld) (h2 : t.heap = s.heap) :
    (forward c now t).session.heap = (forward c now s).session.heap := by
  unfold forward
  rw [h1, h2]
  cases s.currentWorld with
  | none => exact h2
  | some i =>
    dsimp only
    cases s.heap[i]? with
    | none => exact h2
    | some w =>
      dsimp only
      split_ifs
      · cases w.invoke c now with
        | none => exact h2
        | some w1 => simp [Outcome.session, Session.setWorld, h2]
      · exact h2

/-- The function `stopCurrentWorld` changes the heap as its guarded `onStop` does. -/
theorem stopCurrentWorld_heap (s : Session) :
    (stopCurrentWorld s).heap = (forward .onStop 0 s).session.heap := by
  unfold stopCurrentWorld
  dsimp only
  apply forward_heap_congr
  · cases s.animationFrameId with
    | none => rfl
    | some h => by_cases h0 : h = 0 <;> simp [h0, Session.cancelAnimationFrame]
  · cases s.animationFrameId with
    | none => rfl
    | some h => by_cases h0 : h = 0 <;> simp [h0, Session.cancelAnimationFrame]

/-- Stopping a disciplined session leaves it idle with nothing pending. -/
theorem stopCurrentWorld_scheduled (s : Session) (h : Scheduled s) :
    Scheduled (stopCurrentWorld s) ∧ (stopCurrentWorld s).pending = [] ∧
      (stopCurrentWorld s).currentWorld = none := by
  have heq := stopCurrentWorld_eq s
  have hp : (stopCurrentWorld s).pending = [] := by
    rw [stopCurrentWorld_pending]
    cases hcw : s.currentWorld with
    | none =>
      rw [h.idle hcw]
      cases s.animationFrameId with
      | none => rfl
      | some a => by_cases ha : a = 0 <;> simp [ha]
    | some i =>
      obtain ⟨w, _, hover, hrun⟩ := h.active i hcw
      by_cases hg : w.kind = .greens ∧ w.gameOver = true
      · rw [hover hg]
        cases s.animationFrameId with
        | none => rfl
        | some a => by_cases ha : a = 0 <;> simp [ha]
      · obtain ⟨a, ha, haf, hpend⟩ := hrun hg
        rw [haf, hpend]
        simp [ha]
  have hcur : (stopCurrentWorld s).currentWorld = none := by
    rw [heq]
  have hfw := forward_scheduled .onStop 0 s h (by simp)
  refine ⟨⟨?_, ?_, ?_, fun _ => hp, ?_⟩, hp, hcur⟩
  · rw [heq]
    exact h.registry
  · rw [heq]
    exact h.handle_pos
  · rw [stopCurrentWorld_heap]
    exact hfw.heap_ok
  · intro i hi
    rw [hcur] at hi
    cases hi

/-- Running a pending frame keeps the scheduling discipline. -/
theorem fire_scheduled (hd : Nat) (now : ℚ) (s : Session) (h : Scheduled s) :
    Scheduled (fire hd now s) := by
  unfold fire
  cases hf : s.pending.find? (fun f => f.handle = hd) with
  | none => exact h
  | some f =>
    dsimp only
    cases hcw : s.currentWorld with
    | none =>
      rw [h.idle hcw] at hf
      cases hf
    | some i =>
      obtain ⟨w, hw, hover, hrun⟩ := h.active i hcw
      by_cases hg : w.kind = .greens ∧ w.gameOver = true
      · rw [hover hg] at hf
        cases hf
      · obtain ⟨a, _, _, hpend⟩ := hrun hg
        rw [hpend] at hf ⊢
        by_cases hah : a = hd
        · subst hah
          simp only [List.find?, decide_True, Option.some.injEq] at hf
          subst hf
          exact loop_scheduled i w now _ h.registry h.handle_pos h.heap_ok rfl hw (by simp)
        · simp [List.find?, hah] at hf

/-- An identifier that resolves to a factory is the key of that factory. -/
theorem worldConstructors_factory {b : Bool} {id : String} {k : WorldId}
    (h : worldConstructors b id = .factory k) : id = k.key := by
  unfold worldConstructors at h
  split_ifs at h <;> cases h <;> assumption

/-- Starting a world that keeps its handle in the global, or an identifier that the
registry does not resolve, keeps the scheduling discipline. -/
theorem startWorld_scheduled (id : String) (rect : Rect) (tInit tLoop : ℚ) (s : Session)
    (h : Scheduled s) (ht : (Event.startWorld id rect tInit tLoop).tame = true) :
    Scheduled (startWorld id rect tInit tLoop s).session := by
  unfold Event.tame at ht
  cases hl : worldConstructors false id with
  | undefined =>
    have hl1 : worldConstructors s.registryHasId id = .undefined := by
      rw [h.registry]
      exact hl
    unfold startWorld
    rw [hl1]
    exact h.congr rfl rfl rfl rfl rfl rfl
  | noObject => simp [hl] at ht
  | plainObject self => simp [hl] at ht
  | factory k =>
    have hk : k ≠ .caddy := by
      intro hk
      subst hk
      simp [hl] at ht
    have hid := worldConstructors_factory hl
    subst hid
    obtain ⟨info, hinfo, -⟩ := worlds_find k
    rw [startWorld_factory k rect tInit tLoop s info hinfo]
    have h0 : Scheduled { s with statusPill := "Loading..." } := h.congr rfl rfl rfl rfl rfl rfl
    obtain ⟨hs, hp, -⟩ := stopCurrentWorld_scheduled _ h0
    have hlen := stopCurrentWorld_heap_length { s with statusPill := "Loading..." }
    generalize stopCurrentWorld { s with statusPill := "Loading..." } = s1 at hs hp hlen ⊢
    simp only [] at hlen
    refine loop_scheduled s.heap.length
      { construct k tInit with received := [.onStart], started := decide (k = .greens) } tLoop _
      hs.registry hs.handle_pos ?_ rfl ?_ hp
    · intro v hv
      rcases List.mem_append.mp hv with hv | hv
      · exact hs.heap_ok v hv
      · rw [List.mem_singleton.mp hv]
        exact ⟨hk, rfl⟩
    · rw [← hlen]
      exact List.getElem?_concat_length _ _

/-- The listeners of an input event keep the scheduling discipline. -/
theorem dispatch_scheduled (ev : InputEvent) (s : Session) (h : Scheduled s) :
    Scheduled (dispatch ev s).session := by
  cases ev with
  | mousemove e rect =>
    exact forward_scheduled _ 0 _ (h.congr rfl rfl rfl rfl rfl rfl) (by simp)
  | mousedown e => exact forward_scheduled _ 0 _ (h.congr rfl rfl rfl rfl rfl rfl) (by simp)
  | mouseup e => exact forward_scheduled _ 0 _ (h.congr rfl rfl rfl rfl rfl rfl) (by simp)
  | mouseleave e => exact forward_scheduled _ 0 _ (h.congr rfl rfl rfl rfl rfl rfl) (by simp)
  | keydown code =>
    have h1 := forward_scheduled (.onKeyDown code) 0 { s with keys := setKey s.keys code true }
      (h.congr rfl rfl rfl rfl rfl rfl) (by simp)
    show Scheduled (Outcome.andThen (forward _ _ _) _).session
    rw [forward_eq (.onKeyDown code) 0 { s with keys := setKey s.keys code true }]
    rw [forward_eq (.onKeyDown code) 0 { s with keys := setKey s.keys code true }] at h1
    exact forward_scheduled _ 0 _ h1 (by simp)
  | keyup code =>
    have h1 := forward_scheduled (.onKeyUp code) 0 { s with keys := setKey s.keys code false }
      (h.congr rfl rfl rfl rfl rfl rfl) (by simp)
    show Scheduled (Outcome.andThen (forward _ _ _) _).session
    rw [forward_eq (.onKeyUp code) 0 { s with keys := setKey s.keys code false }]
    rw [forward_eq (.onKeyUp code) 0 { s with keys := setKey s.keys code false }] at h1
    exact forward_scheduled _ 0 _ h1 (by simp)

/-- Every tame event keeps the scheduling discipline. -/
theorem step_scheduled (s : Session) (e : Event) (h : Scheduled s) (ht : e.tame = true) :
    Scheduled (step s e) := by
  cases e with
  | startWorld id rect tInit tLoop => exact startWorld_scheduled id rect tInit tLoop s h ht
  | showMenu =>
    have h0 : Scheduled { s with hudWorld := "Select a world", hudSub := "Click a tile to begin.",
                                 statusPill := "Idle" } := h.congr rfl rfl rfl rfl rfl rfl
    exact (stopCurrentWorld_scheduled _ h0).1
  | stopCurrentWorld => exact (stopCurrentWorld_scheduled s h).1
  | fire hd now => exact fire_scheduled hd now s h
  | input ev => exact dispatch_scheduled ev s h
  | resize rect => exact forward_scheduled _ 0 _ (h.congr rfl rfl rfl rfl rfl rfl) (by simp)

/-- The freshly loaded page is disciplined. -/
theorem initial_scheduled (rect : Rect) : Scheduled (initial rect) := by
  have h0 : Scheduled
      { canvas := resizeCanvas rect, currentWorld := none, animationFrameId := none,
        mouse := { x := 0, y := 0, down := false }, keys := [],
        hudWorld := "Select a world", hudSub := "Click a tile to begin.", statusPill := "Idle",
        console := [], heap := [], pending := [], nextHandle := 1, registryHasId := false } := by
    refine ⟨rfl, Nat.le_refl 1, ?_, fun _ => rfl, ?_⟩
    · intro w hw
      cases hw
    · intro i hi
      cases hi
  exact (stopCurrentWorld_scheduled _ h0).1

/-- Tame sequences of events keep the scheduling discipline. -/
theorem exec_scheduled (events : List Event) (s : Session) (h : Scheduled s)
    (ht : ∀ e ∈ events, e.tame = true) : Scheduled (exec s events) := by
  induction events generalizing s with
  | nil => exact h
  | cons e es ih =>
    exact ih (step s e) (step_scheduled s e h (ht e (List.mem_cons_self e es)))
      (fun e1 h1 => ht e1 (List.mem_cons_of_mem e h1))

/-- C1, as the code has it. For every finite sequence of `startWorld`, `showMenu`
and `stopCurrentWorld` calls interleaved with frame ticks, input events and window
resizes, in which every started identifier is `pro`, `designer`, `greens` or
`manager` or is not resolved by the registry: while the session is idle no
animation-frame request is pending; while an instance is active, no request is
pending once it is a greenskeeper whose game is over, and otherwise exactly one is
pending, a request for the loop of that instance. -/
theorem one_world_one_frame (rect : Rect) (events : List Event)
    (ht : ∀ e ∈ events, e.tame = true) :
    ((exec (initial rect) events).currentWorld = none →
      (exec (initial rect) events).pending = []) ∧
    ∀ i, (exec (initial rect) events).currentWorld = some i →
      ∃ w, (exec (initial rect) events).heap[i]? = some w ∧
        ((w.kind = .greens ∧ w.gameOver = true) → (exec (initial rect) events).pending = []) ∧
        (¬ (w.kind = .greens ∧ w.gameOver = true) →
          ∃ h, (exec (initial rect) events).pending = [⟨h, .loop i⟩]) := by
  have hs := exec_scheduled events (initial rect) (initial_scheduled rect) ht
  refine ⟨hs.idle, fun i hi => ?_⟩
  obtain ⟨w, hw, hover, hrun⟩ := hs.active i hi
  refine ⟨w, hw, hover, fun hg => ?_⟩
  obtain ⟨a, _, _, hp⟩ := hrun hg
  exact ⟨a, hp⟩

/-- Witness for C1: the pro golfer world started, one frame run, an unknown
identifier, then the greenskeeper world started. -/
theorem one_world_one_frame_witness :
    (∀ e ∈ [Event.startWorld "pro" ⟨0, 0, 1000, 600⟩ 0 0, .fire 1 16,
        .startWorld "bunker" ⟨0, 0, 1000, 600⟩ 0 0,
        .startWorld "greens" ⟨0, 0, 1000, 600⟩ 20 21], e.tame = true) ∧
    ((exec (initial ⟨0, 0, 1000, 600⟩) [.startWorld "pro" ⟨0, 0, 1000, 600⟩ 0 0, .fire 1 16,
        .startWorld "bunker" ⟨0, 0, 1000, 600⟩ 0 0,
        .startWorld "greens" ⟨0, 0, 1000, 600⟩ 20 21]).currentWorld = none →
      (exec (initial ⟨0, 0, 1000, 600⟩) [.startWorld "pro" ⟨0, 0, 1000, 600⟩ 0 0, .fire 1 16,
        .startWorld "bunker" ⟨0, 0, 1000, 600⟩ 0 0,
        .startWorld "greens" ⟨0, 0, 1000, 600⟩ 20 21]).pending = []) ∧
    ∀ i, (exec (initial ⟨0, 0, 1000, 600⟩) [.startWorld "pro" ⟨0, 0, 1000, 600⟩ 0 0, .fire 1 16,
        .startWorld "bunker" ⟨0, 0, 1000, 600⟩ 0 0,
        .startWorld "greens" ⟨0, 0, 1000, 600⟩ 20 21]).currentWorld = some i →
      ∃ w, (exec (initial ⟨0, 0, 1000, 600⟩) [.startWorld "pro" ⟨0, 0, 1000, 600⟩ 0 0, .fire 1 16,
          .startWorld "bunker" ⟨0, 0, 1000, 600⟩ 0 0,
          .startWorld "greens" ⟨0, 0, 1000, 600⟩ 20 21]).heap[i]? = some w ∧
        ((w.kind = .greens ∧ w.gameOver = true) →
          (exec (initial ⟨0, 0, 1000, 600⟩) [.startWorld "pro" ⟨0, 0, 1000, 600⟩ 0 0, .fire 1 16,
            .startWorld "bunker" ⟨0, 0, 1000, 600⟩ 0 0,
            .startWorld "greens" ⟨0, 0, 1000, 600⟩ 20 21]).pending = []) ∧
        (¬ (w.kind = .greens ∧ w.gameOver = true) →
          ∃ h, (exec (initial ⟨0, 0, 1000, 600⟩) [.startWorld "pro" ⟨0, 0, 1000, 600⟩ 0 0,
            .fire 1 16, .startWorld "bunker" ⟨0, 0, 1000, 600⟩ 0 0,
            .startWorld "greens" ⟨0, 0, 1000, 600⟩ 20 21]).pending = [⟨h, .loop i⟩]) :=
  ⟨by simp [Event.tame, worldConstructors],
   one_world_one_frame ⟨0, 0, 1000, 600⟩ _ (by simp [Event.tame, worldConstructors])⟩

/-- Witness for C6: the caddy world is active and defines no pointer handler. -/
theorem dispatch_without_handler_witness :
    ((startWorld "caddy" ⟨0, 0, 1000, 600⟩ 0 0 (initial ⟨0, 0, 1000, 600⟩)).session.current = none ∨
      ∃ w, (startWorld "caddy" ⟨0, 0, 1000, 600⟩ 0 0 (initial ⟨0, 0, 1000, 600⟩)).session.current
          = some w ∧ w.kind.defines (InputEvent.mousedown ⟨500, 300⟩).handler = false) ∧
    ∃ m k, dispatch (.mousedown ⟨500, 300⟩)
        (startWorld "caddy" ⟨0, 0, 1000, 600⟩ 0 0 (initial ⟨0, 0, 1000, 600⟩)).session =
      .returned { (startWorld "caddy" ⟨0, 0, 1000, 600⟩ 0 0 (initial ⟨0, 0, 1000, 600⟩)).session with
        mouse := m, keys := k } := by
  have h : (startWorld "caddy" ⟨0, 0, 1000, 600⟩ 0 0 (initial ⟨0, 0, 1000, 600⟩)).session.current
        = none ∨
      ∃ w, (startWorld "caddy" ⟨0, 0, 1000, 600⟩ 0 0 (initial ⟨0, 0, 1000, 600⟩)).session.current
          = some w ∧ w.kind.defines (InputEvent.mousedown ⟨500, 300⟩).handler = false := by
    right
    simp [initial, showMenu, stopCurrentWorld, startWorld, worldConstructors, forward,
      Outcome.session, construct, constructText, onStartText, worlds, run, loop,
      Session.current, Session.setWorld, Session.requestAnimationFrame,
      Session.cancelAnimationFrame, World.invoke, WorldId.defines, WorldId.key, Call.handler,
      InputEvent.handler]
  exact ⟨h, dispatch_without_handler _ _ h⟩

/-! ## Pro golfer world: the capture rule -/

namespace Pro

/-- The stand-in square root is exact at 4. -/
theorem sqrtQ_four : sqrtQ 4 = 2 := by
  have h4 : Nat.sqrt 4 = 2 := Nat.sqrt_eq 2
  have h1 : Nat.sqrt 1 = 1 := Nat.sqrt_eq 1
  have hn : (4 : ℚ).num = 4 := rfl
  have hd : (4 : ℚ).den = 1 := rfl
  simp [sqrtQ, hn, hd, h4, h1]

/-- C10, as the code has it. For every ball whose distance to the hole centre is
below `ballRadius + 10` (18 px): if its speed is 0 the hole-in is reported (overlay
shown, status `Hole!`) and the ball is untouched; if its speed is above the
threshold 1.6 nothing is reported and the ball receives the impulse
`vx += dx / (dist || 1) * 0.8`, `vy -= 0.8`, while `checkHoleIn` leaves its
position where it was, hence still within the capture radius on that frame. -/
theorem checkHoleIn_capture (sqrt : ℚ → ℚ) (holeX holeY : ℚ) (st : State)
    (hdist : sqrt ((st.ball.x - holeX) * (st.ball.x - holeX) +
      (st.ball.y - holeY) * (st.ball.y - holeY)) < ballRadius + 10) :
    (sqrt (st.ball.vx * st.ball.vx + st.ball.vy * st.ball.vy) = 0 →
      (checkHoleIn sqrt holeX holeY st).showWinOverlay = true ∧
      (checkHoleIn sqrt holeX holeY st).statusPill = "Hole!" ∧
      (checkHoleIn sqrt holeX holeY st).overlayText =
        "Hole in " ++ toString st.strokes ++ " stroke" ++
          (if st.strokes = 1 then "" else "s") ++ "!" ∧
      (checkHoleIn sqrt holeX holeY st).ball = st.ball) ∧
    (thresholdSpeed < sqrt (st.ball.vx * st.ball.vx + st.ball.vy * st.ball.vy) →
      (checkHoleIn sqrt holeX holeY st).showWinOverlay = st.showWinOverlay ∧
      (checkHoleIn sqrt holeX holeY st).statusPill = st.statusPill ∧
      (checkHoleIn sqrt holeX holeY st).overlayText = st.overlayText ∧
      (checkHoleIn sqrt holeX holeY st).ball.vx =
        st.ball.vx + (st.ball.x - holeX) /
          (if sqrt ((st.ball.x - holeX) * (st.ball.x - holeX) +
              (st.ball.y - holeY) * (st.ball.y - holeY)) = 0 then 1
            else sqrt ((st.ball.x - holeX) * (st.ball.x - holeX) +
              (st.ball.y - holeY) * (st.ball.y - holeY))) * 0.8 ∧
      (checkHoleIn sqrt holeX holeY st).ball.vy = st.ball.vy - 0.8 ∧
      (checkHoleIn sqrt holeX holeY st).ball.x = st.ball.x ∧
      (checkHoleIn sqrt holeX holeY st).ball.y = st.ball.y ∧
      sqrt (((checkHoleIn sqrt holeX holeY st).ball.x - holeX) *
            ((checkHoleIn sqrt holeX holeY st).ball.x - holeX) +
          ((checkHoleIn sqrt holeX holeY st).ball.y - holeY) *
            ((checkHoleIn sqrt holeX holeY st).ball.y - holeY)) < ballRadius + 10) := by
  constructor
  · intro hspeed
    have hle : sqrt (st.ball.vx * st.ball.vx + st.ball.vy * st.ball.vy) ≤ thresholdSpeed := by
      rw [hspeed]
      norm_num [thresholdSpeed]
    simp [checkHoleIn, hdist, hle]
  · intro hspeed
    have hnle : ¬ sqrt (st.ball.vx * st.ball.vx + st.ball.vy * st.ball.vy) ≤ thresholdSpeed :=
      not_le.mpr hspeed
    simp [checkHoleIn, hdist, hnle]

/-- Witness for C10: a ball that has come down on the ground line right above the
hole (2 px from its centre) with horizontal speed 2. -/
theorem checkHoleIn_capture_witness :
    sqrtQ (((656 : ℚ) - 656) * (656 - 656) + ((376 : ℚ) - 378) * (376 - 378)) < ballRadius + 10 ∧
    (checkHoleIn sqrtQ 656 378 ⟨⟨656, 376, 2, 0, true⟩, 1, "", false, "Strokes 1/3"⟩).ball.vy
      = -0.8 := by
  have hd : sqrtQ (((656 : ℚ) - 656) * (656 - 656) + ((376 : ℚ) - 378) * (376 - 378))
      < ballRadius + 10 := by
    norm_num [sqrtQ_four, ballRadius]
  have hs : thresholdSpeed < sqrtQ ((2 : ℚ) * 2 + 0 * 0) := by
    norm_num [sqrtQ_four, thresholdSpeed]
  obtain ⟨-, -, -, -, hvy, -⟩ :=
    (checkHoleIn_capture sqrtQ 656 378 ⟨⟨656, 376, 2, 0, true⟩, 1, "", false, "Strokes 1/3"⟩ hd).2
      hs
  refine ⟨hd, ?_⟩
  rw [hvy]
  norm_num

/-- C10 as stated fails: the ball of the witness, 2 px from the hole centre and
faster than the threshold, is not captured, receives the impulse, and is still
2 px from the hole centre after `checkHoleIn`, inside the capture radius. -/
theorem checkHoleIn_ball_stays_in_radius :
    thresholdSpeed < sqrtQ ((2 : ℚ) * 2 + 0 * 0) ∧
    (checkHoleIn sqrtQ 656 378 ⟨⟨656, 376, 2, 0, true⟩, 1, "", false, "Strokes 1/3"⟩)
      = ⟨⟨656, 376, 2, -0.8, true⟩, 1, "", false, "Strokes 1/3"⟩ ∧
    sqrtQ (((656 : ℚ) - 656) * (656 - 656) + ((376 : ℚ) - 378) * (376 - 378)) = 2 ∧
    ¬ (ballRadius + 10 ≤
      sqrtQ (((656 : ℚ) - 656) * (656 - 656) + ((376 : ℚ) - 378) * (376 - 378))) := by
  have h4 : ((656 : ℚ) - 656) * (656 - 656) + ((376 : ℚ) - 378) * (376 - 378) = 4 := by norm_num
  have hv : (2 : ℚ) * 2 + 0 * 0 = 4 := by norm_num
  refine ⟨?_, ?_, ?_, ?_⟩
  · rw [hv, sqrtQ_four]
    norm_num [thresholdSpeed]
  · simp only [checkHoleIn, h4, hv, sqrtQ_four]
    norm_num [ballRadius, thresholdSpeed]
  · rw [h4, sqrtQ_four]
  · rw [h4, sqrtQ_four]
    norm_num [ballRadius]

end Pro

/-! ## Club manager world -/

namespace Manager

/-- The rows of two different items do not overlap. -/
theorem onItem_unique (m : Mouse) (i j : ℕ) (hi : onItem m i = true) (hij : j ≠ i) :
    onItem m j = false := by
  simp only [onItem, decide_eq_true_eq, decide_eq_false_iff_not] at hi ⊢
  obtain ⟨-, -, h3, h4⟩ := hi
  rintro ⟨-, -, h5, h6⟩
  rcases Nat.lt_or_gt_of_ne hij with h | h
  · have : (j : ℚ) + 1 ≤ i := by exact_mod_cast h
    linarith
  · have : (i : ℚ) + 1 ≤ j := by exact_mod_cast h
    linarith

/-- A pointer on the row of an item is not on the button, the surface being at
least 800 wide. -/
theorem onBook_of_onItem (canvas : Canvas) (m : Mouse) (i : ℕ) (hw : 800 ≤ canvas.width)
    (hi : onItem m i = true) : onBook canvas m = false := by
  simp only [onItem, onBook, decide_eq_true_eq, decide_eq_false_iff_not] at hi ⊢
  obtain ⟨-, h2, -, -⟩ := hi
  rintro ⟨h5, -⟩
  have : (800 : ℚ) ≤ canvas.width := by exact_mod_cast hw
  linarith

/-- The loop over the first `n` items toggles the one item whose row the pointer is
on. -/
theorem loop_hit (m : Mouse) (i : ℕ) (hm : onItem m i = true) (n : ℕ) (st : State) :
    (List.range n).foldl (fun s j => if onItem m j then toggle j s else s) st
      = if i < n then toggle i st else st := by
  induction n with
  | zero => simp
  | succ n ih =>
    rw [List.range_succ, List.foldl_append, ih]
    simp only [List.foldl_cons, List.foldl_nil]
    by_cases hn : n = i
    · subst hn
      simp [hm]
    · have hj := onItem_unique m i n hm hn
      simp only [hj, Bool.false_eq_true, if_false]
      by_cases hlt : i < n
      · simp [hlt, Nat.lt_succ_of_lt hlt]
      · have : ¬ i < n + 1 := by omega
        simp [hlt, this]

/-- A click on the row of item `i` is `toggle i`. -/
theorem onMouseDown_item (canvas : Canvas) (m : Mouse) (st : State) (i : ℕ)
    (hw : 800 ≤ canvas.width) (hi : i < st.items.length) (hm : onItem m i = true) :
    onMouseDown canvas m st = toggle i st := by
  unfold onMouseDown
  simp only [loop_hit m i hm, hi, if_true, onBook_of_onItem canvas m i hw hm,
    Bool.false_eq_true, if_false]

/-- C11. On a surface at least 800 wide, for every state and every unchosen item
`it = items[i]`, a click on its row debits the budget by its cost, credits
satisfaction by its benefit and marks it chosen (every other item untouched) when
the budget covers the cost; otherwise budget, satisfaction and all items stay as
they were and the message `Not enough budget for that item.` is set. -/
theorem click_unchosen_item (canvas : Canvas) (m : Mouse) (st : State) (i : ℕ) (it : Item)
    (hw : 800 ≤ canvas.width) (hit : st.items[i]? = some it) (hun : it.chosen = false)
    (hm : onItem m i = true) :
    (it.cost ≤ st.budget →
      (onMouseDown canvas m st).budget = st.budget - it.cost ∧
      (onMouseDown canvas m st).satisfaction = st.satisfaction + it.benefit ∧
      (onMouseDown canvas m st).items = st.items.set i { it with chosen := true } ∧
      (onMouseDown canvas m st).overlayMsg = st.overlayMsg) ∧
    (st.budget < it.cost →
      (onMouseDown canvas m st).budget = st.budget ∧
      (onMouseDown canvas m st).satisfaction = st.satisfaction ∧
      (onMouseDown canvas m st).items = st.items ∧
      (onMouseDown canvas m st).overlayMsg = some "Not enough budget for that item.") := by
  have hi : i < st.items.length := by
    rcases Nat.lt_or_ge i st.items.length with h | h
    · exact h
    · rw [List.getElem?_eq_none h] at hit
      cases hit
  rw [onMouseDown_item canvas m st i hw hi hm]
  constructor
  · intro hb
    simp [toggle, hit, hun, hb]
  · intro hb
    simp [toggle, hit, hun, not_le.mpr hb]

/-- Witness for C11: on the new closure a click on the row of the first item
(Catering, 400 for +60) leaves 1600 and 100. -/
theorem click_unchosen_item_witness :
    (800 : ℤ) ≤ (⟨800, 480⟩ : Canvas).width ∧
    create.items[0]? =
      some { id := "catering", name := "Catering", cost := 400, benefit := 60, chosen := false } ∧
    onItem ⟨100, 80, true⟩ 0 = true ∧
    (onMouseDown ⟨800, 480⟩ ⟨100, 80, true⟩ create).budget = 1600 ∧
    (onMouseDown ⟨800, 480⟩ ⟨100, 80, true⟩ create).satisfaction = 100 := by
  have hm : onItem ⟨100, 80, true⟩ 0 = true := by
    simp only [onItem, decide_eq_true_eq]
    norm_num
  have h := (click_unchosen_item ⟨800, 480⟩ ⟨100, 80, true⟩ create 0
    { id := "catering", name := "Catering", cost := 400, benefit := 60, chosen := false }
    (le_refl _) rfl rfl hm).1 (by simp [create])
  refine ⟨le_refl _, rfl, hm, ?_, ?_⟩
  · rw [h.1]
    simp [create]
  · rw [h.2.1]
    simp [create]

/-- Writing back the element that is already there changes nothing. -/
theorem set_of_getElem? {α : Type} (l : List α) (i : ℕ) (a : α) (h : l[i]? = some a) :
    l.set i a = l := by
  induction l generalizing i with
  | nil => rfl
  | cons b t ih =>
    cases i with
    | zero =>
      simp only [List.getElem?_cons_zero, Option.some.injEq] at h
      subst h
      rfl
    | succ j =>
      simp only [List.getElem?_cons_succ] at h
      simp [ih j h]

/-- C12. On a surface at least 800 wide, for every state and every unchosen item
whose cost the budget covers, clicking the item and then clicking it again returns
the closure to the state before the first click: budget, satisfaction and all
chosen flags, and also the booking flag and the message. -/
theorem click_twice_restores (canvas : Canvas) (m : Mouse) (st : State) (i : ℕ) (it : Item)
    (hw : 800 ≤ canvas.width) (hit : st.items[i]? = some it) (hun : it.chosen = false)
    (hm : onItem m i = true) (hb : it.cost ≤ st.budget) :
    onMouseDown canvas m (onMouseDown canvas m st) = st := by
  have hi : i < st.items.length := by
    rcases Nat.lt_or_ge i st.items.length with h | h
    · exact h
    · rw [List.getElem?_eq_none h] at hit
      cases hit
  have h1 : toggle i st =
      { st with items := st.items.set i { it with chosen := true }
                budget := st.budget - it.cost
                satisfaction := st.satisfaction + it.benefit } := by
    simp [toggle, hit, hun, hb]
  have hback : ({ it with chosen := false } : Item) = it := by
    cases it
    simp only [] at hun
    subst hun
    rfl
  rw [onMouseDown_item canvas m st i hw hi hm, h1,
    onMouseDown_item canvas m _ i hw (by simpa using hi) hm]
  simp only [toggle, List.getElem?_set_self hi, Bool.not_true, Bool.false_eq_true, if_false,
    List.set_set, hback, set_of_getElem? st.items i it hit]
  simp

/-- Witness for C12: two clicks on the row of the first item of the new closure. -/
theorem click_twice_restores_witness :
    (800 : ℤ) ≤ (⟨800, 480⟩ : Canvas).width ∧
    onItem ⟨100, 80, true⟩ 0 = true ∧
    onMouseDown ⟨800, 480⟩ ⟨100, 80, true⟩ (onMouseDown ⟨800, 480⟩ ⟨100, 80, true⟩ create)
      = create := by
  have hm : onItem ⟨100, 80, true⟩ 0 = true := by
    simp only [onItem, decide_eq_true_eq]
    norm_num
  exact ⟨le_refl _, hm, click_twice_restores ⟨800, 480⟩ ⟨100, 80, true⟩ create 0
    { id := "catering", name := "Catering", cost := 400, benefit := 60, chosen := false }
    (le_refl _) rfl rfl hm (by simp [create])⟩

/-- A pointer to the right of the item column leaves the items alone. -/
theorem loop_miss (m : Mouse) (hx : 356 < m.x) (n : ℕ) (st : State) :
    (List.range n).foldl (fun s j => if onItem m j then toggle j s else s) st = st := by
  have hmiss : ∀ j, onItem m j = false := by
    intro j
    simp only [onItem, decide_eq_false_iff_not]
    rintro ⟨-, h2, -, -⟩
    linarith
  induction n with
  | zero => rfl
  | succ n ih =>
    rw [List.range_succ, List.foldl_append, ih]
    simp [hmiss]

/-- C13, the failing input. On an 800 x 480 surface the new closure is booked by a
click on the button (`booked` becomes true, budget 2000, satisfaction 40, message
`Event Booked! Final satisfaction 40%`); a later click on the row of the first item
still selects it: the budget drops to 1600 and satisfaction rises to 100.  The flag
`booked` is written and never read. -/
theorem booked_event_still_changes :
    (onMouseDown ⟨800, 480⟩ ⟨580, 400, true⟩ create).booked = true ∧
    (onMouseDown ⟨800, 480⟩ ⟨580, 400, true⟩ create).overlayMsg
      = some "Event Booked! Final satisfaction 40%" ∧
    (onMouseDown ⟨800, 480⟩ ⟨580, 400, true⟩ create).budget = 2000 ∧
    (onMouseDown ⟨800, 480⟩ ⟨580, 400, true⟩ create).satisfaction = 40 ∧
    (onMouseDown ⟨800, 480⟩ ⟨100, 80, true⟩
      (onMouseDown ⟨800, 480⟩ ⟨580, 400, true⟩ create)).booked = true ∧
    (onMouseDown ⟨800, 480⟩ ⟨100, 80, true⟩
      (onMouseDown ⟨800, 480⟩ ⟨580, 400, true⟩ create)).budget = 1600 ∧
    (onMouseDown ⟨800, 480⟩ ⟨100, 80, true⟩
      (onMouseDown ⟨800, 480⟩ ⟨580, 400, true⟩ create)).satisfaction = 100 ∧
    (onMouseDown ⟨800, 480⟩ ⟨100, 80, true⟩
      (onMouseDown ⟨800, 480⟩ ⟨580, 400, true⟩ create)).items.map Item.chosen
      = [true, false, false, false, false] := by
  have hbook : onBook ⟨800, 480⟩ ⟨580, 400, true⟩ = true := by
    simp only [onBook, decide_eq_true_eq]
    norm_num
  have hm : onItem ⟨100, 80, true⟩ 0 = true := by
    simp only [onItem, decide_eq_true_eq]
    norm_num
  have h1 : onMouseDown ⟨800, 480⟩ ⟨580, 400, true⟩ create =
      { create with booked := true, overlayMsg := some "Event Booked! Final satisfaction 40%" } := by
    unfold onMouseDown
    simp only [loop_miss ⟨580, 400, true⟩ (by norm_num), hbook, if_true]
    rfl
  rw [h1, onMouseDown_item ⟨800, 480⟩ ⟨100, 80, true⟩ _ 0 (le_refl _) (by simp [create, catalog]) hm]
  simp [toggle, create, catalog]

end Manager

/-! ## Grid arithmetic -/

/-- Truncating division by a positive cell size finds the cell that contains the
coordinate. -/
theorem floor_div_eq (x w : ℚ) (z : ℤ) (hw : 0 < w) (h1 : z * w ≤ x) (h2 : x < (z + 1) * w) :
    ⌊x / w⌋ = z := by
  rw [Int.floor_eq_iff]
  constructor
  · rw [le_div_iff₀ hw]
    exact h1
  · rw [div_lt_iff₀ hw]
    exact h2

/-- An index already inside the range is left alone by `clamp`. -/
theorem clamp_of_mem (z n : ℤ) (h0 : 0 ≤ z) (h1 : z ≤ n) : clamp z 0 n = z := by
  unfold clamp
  rw [min_eq_right h1, max_eq_right h0]

/-- The function `clamp` with ordered bounds lands between them. -/
theorem clamp_mem (z n : ℤ) (hn : 0 ≤ n) : 0 ≤ clamp z 0 n ∧ clamp z 0 n ≤ n := by
  unfold clamp
  exact ⟨le_max_left _ _, max_le hn (min_le_left _ _)⟩

/-! ## Greenskeeper world -/

namespace Greens

/-- Drying clamps at zero: the new moisture is `max(0, moisture - dryingRate*dt)`. -/
theorem dry_eq (dt : ℚ) (p : Patch) :
    dry dt p = { p with moisture := max 0 (p.moisture - p.dryingRate * dt) } := by
  unfold dry
  dsimp only
  by_cases h : p.moisture - p.dryingRate * dt < 0
  · rw [if_pos h, max_eq_left (le_of_lt h)]
  · rw [if_neg h, max_eq_right (not_lt.mp h)]

/-- The patches after an update of a running game. -/
theorem update_patches (dt : ℚ) (st : State) (hs : st.started = true)
    (ho : st.gameOver = false) : (update dt st).patches = st.patches.map (dry dt) := by
  unfold update
  simp only [hs, ho, Bool.not_true, Bool.or_false, Bool.false_eq_true, if_false]
  split_ifs <;> rfl

/-- Every patch `init()` creates dries at a positive rate, the random draws being
non-negative. -/
theorem initPatches_rate_pos (rand : ℕ → ℕ → ℚ × ℚ) (hrand : ∀ r c, 0 ≤ (rand r c).2) :
    ∀ p ∈ initPatches rand, 0 < p.dryingRate := by
  intro p hp
  simp only [initPatches, List.mem_flatMap, List.mem_map, List.mem_range] at hp
  obtain ⟨r, -, c, -, rfl⟩ := hp
  have := hrand r c
  simp only [newPatch]
  linarith

/-- C14. While the game is running (started and not over), for every elapsed time
`dt > 0` one update sets the moisture of every patch to
`max(0, moisture - dryingRate*dt)`; the drying rates being positive, as `init()`
makes them, the new value is never below 0 and is strictly smaller than the old
one when the old one is positive. -/
theorem update_dries (dt : ℚ) (st : State) (hs : st.started = true) (ho : st.gameOver = false)
    (hdt : 0 < dt) (hrate : ∀ p ∈ st.patches, 0 < p.dryingRate) :
    (update dt st).patches =
      st.patches.map (fun p => { p with moisture := max 0 (p.moisture - p.dryingRate * dt) }) ∧
    ∀ p ∈ st.patches,
      0 ≤ max 0 (p.moisture - p.dryingRate * dt) ∧
      (0 < p.moisture → max 0 (p.moisture - p.dryingRate * dt) < p.moisture) := by
  constructor
  · rw [update_patches dt st hs ho]
    exact List.map_congr_left (fun p _ => dry_eq dt p)
  · intro p hp
    refine ⟨le_max_left _ _, fun hpos => max_lt hpos ?_⟩
    have := mul_pos (hrate p hp) hdt
    linarith

/-- Witness for C14: the game as `init()` leaves it with every random draw at one
half, and a frame of 16 ms. -/
theorem update_dries_witness :
    (init (fun _ _ => (1 / 2, 1 / 2)) 0 (create 0)).started = true ∧
    (init (fun _ _ => (1 / 2, 1 / 2)) 0 (create 0)).gameOver = false ∧
    (0 : ℚ) < 16 ∧
    (∀ p ∈ (init (fun _ _ => (1 / 2, 1 / 2)) 0 (create 0)).patches, 0 < p.dryingRate) ∧
    ∀ p ∈ (init (fun _ _ => (1 / 2, 1 / 2)) 0 (create 0)).patches,
      0 ≤ max 0 (p.moisture - p.dryingRate * 16) ∧
      (0 < p.moisture → max 0 (p.moisture - p.dryingRate * 16) < p.moisture) := by
  have hrate : ∀ p ∈ (init (fun _ _ => (1 / 2, 1 / 2)) 0 (create 0)).patches,
      0 < p.dryingRate :=
    initPatches_rate_pos (fun _ _ => (1 / 2, 1 / 2)) (fun _ _ => by norm_num)
  exact ⟨rfl, rfl, by norm_num, hrate,
    (update_dries 16 (init (fun _ _ => (1 / 2, 1 / 2)) 0 (create 0)) rfl rfl (by norm_num) hrate).2⟩

/-- With the pointer over the rectangle of row `r` and column `c`, that is the cell
`cellAt` looks for. -/
theorem cellIndex_of_over (g : Geometry) (r c : ℤ) (m : Mouse) (hW : 0 < g.cellW)
    (hH : 0 < g.cellH) (h : over g r c m) : cellIndex g m = (r, c) := by
  obtain ⟨hr0, hr1, hc0, hc1, hx0, hx1, hy0, hy1⟩ := h
  have hfr : ⌊(m.y - pad) / g.cellH⌋ = r :=
    floor_div_eq _ _ r hH (by linarith) (by linarith)
  have hfc : ⌊(m.x - pad) / g.cellW⌋ = c :=
    floor_div_eq _ _ c hW (by linarith) (by linarith)
  unfold cellIndex
  rw [hfr, hfc, clamp_of_mem r (rows - 1) hr0 (by omega), clamp_of_mem c (cols - 1) hc0 (by omega)]

/-- In a list without two patches in the same cell, watering the first patch of a
cell waters the patch of that cell and no other. -/
theorem waterFirst_eq_map (r c : ℤ) (ps : List Patch) (hd : Distinct ps) :
    waterFirst (fun p => decide (p.r = r ∧ p.c = c)) ps =
      ps.map (fun p => if p.r = r ∧ p.c = c then { p with moisture := 1 } else p) := by
  induction ps with
  | nil => rfl
  | cons p ps ih =>
    obtain ⟨hp, hps⟩ := List.pairwise_cons.mp hd
    by_cases h : p.r = r ∧ p.c = c
    · have hrest : ps.map (fun q => if q.r = r ∧ q.c = c then { q with moisture := 1 } else q)
          = ps := by
        conv_rhs => rw [← List.map_id ps]
        apply List.map_congr_left
        intro q hq
        have hne : ¬ (q.r = r ∧ q.c = c) := by
          rintro ⟨h1, h2⟩
          exact hp q hq ⟨h.1.trans h1.symm, h.2.trans h2.symm⟩
        simp [hne]
      simp only [waterFirst, h, and_self, decide_True, if_true, List.map_cons, hrest]
    · simp only [waterFirst, h, decide_False, Bool.false_eq_true, if_false, List.map_cons,
        ih hps]

/-- The patches `init()` creates are one per cell. -/
theorem initPatches_distinct (rand : ℕ → ℕ → ℚ × ℚ) : Distinct (initPatches rand) := by
  unfold Distinct initPatches
  rw [List.pairwise_flatMap]
  constructor
  · intro r _
    rw [List.pairwise_map]
    refine (List.pairwise_lt_range 22).imp ?_
    intro a b hab h
    simp only [newPatch, Nat.cast_inj] at h
    omega
  · refine (List.pairwise_lt_range 10).imp ?_
    intro a b hab x hx y hy h
    simp only [List.mem_map, List.mem_range] at hx hy
    obtain ⟨_, -, rfl⟩ := hx
    obtain ⟨_, -, rfl⟩ := hy
    simp only [newPatch, Nat.cast_inj] at h
    omega

/-- The patches `init()` creates cover every cell of the grid. -/
theorem initPatches_complete (rand : ℕ → ℕ → ℚ × ℚ) (r c : ℤ) (hr0 : 0 ≤ r) (hr1 : r < rows)
    (hc0 : 0 ≤ c) (hc1 : c < cols) : ∃ p ∈ initPatches rand, p.r = r ∧ p.c = c := by
  refine ⟨newPatch r c (rand r.toNat c.toNat).1 (rand r.toNat c.toNat).2, ?_, rfl, rfl⟩
  simp only [initPatches, List.mem_flatMap, List.mem_map, List.mem_range]
  refine ⟨r.toNat, ?_, c.toNat, ?_, ?_⟩
  · unfold rows at hr1
    omega
  · unfold cols at hc1
    omega
  · rw [Int.toNat_of_nonneg hr0, Int.toNat_of_nonneg hc0]

/-- C15. With cells of positive size: a click with the sprinkler inactive and the
pointer over the cell in row `r` and column `c` (the patches being one per cell, as
`init()` creates them) sets the moisture of that cell to 1 and leaves every other
patch as it was; a click with the sprinkler active sets to 1 the moisture of exactly
the patches whose centre lies within 75 px of the pointer and leaves the others as
they were. -/
theorem onMouseDown_waters (g : Geometry) (m : Mouse) (st : State) (hW : 0 < g.cellW)
    (hH : 0 < g.cellH) :
    (st.sprinklerActive = false → Distinct st.patches →
      ∀ r c, over g r c m → (∃ p ∈ st.patches, p.r = r ∧ p.c = c) →
        (onMouseDown g m st).patches =
          st.patches.map (fun p => if p.r = r ∧ p.c = c then { p with moisture := 1 } else p)) ∧
    (st.sprinklerActive = true →
      (onMouseDown g m st).patches =
        st.patches.map (fun p =>
          if (pad + p.c * g.cellW + g.cellW / 2 - m.x) * (pad + p.c * g.cellW + g.cellW / 2 - m.x) +
              (pad + p.r * g.cellH + g.cellH / 2 - m.y) * (pad + p.r * g.cellH + g.cellH / 2 - m.y)
              ≤ 75 * 75
          then { p with moisture := 1 } else p)) := by
  constructor
  · intro hoff hd r c hover hex
    have hidx := cellIndex_of_over g r c m hW hH hover
    have hfind : ∃ q, cellAt g m st.patches = some q := by
      obtain ⟨p, hp, hpr, hpc⟩ := hex
      have hsome : (cellAt g m st.patches).isSome = true := by
        unfold cellAt
        rw [List.find?_isSome]
        exact ⟨p, hp, by simp [hidx, hpr, hpc]⟩
      exact Option.isSome_iff_exists.mp hsome
    obtain ⟨q, hq⟩ := hfind
    unfold onMouseDown
    simp only [hoff, Bool.false_eq_true, if_false, hq, hidx]
    exact waterFirst_eq_map r c st.patches hd
  · intro hon
    unfold onMouseDown
    simp only [hon, if_true, inSprinkler, sprinklerRadius, decide_eq_true_eq]

/-- Witness for C15: on an 800 x 480 surface, right after `init()`, a click at
(20, 20) waters the patch of the first row and column and no other. -/
theorem onMouseDown_waters_witness :
    0 < (geometry ⟨800, 480⟩).cellW ∧ 0 < (geometry ⟨800, 480⟩).cellH ∧
    over (geometry ⟨800, 480⟩) 0 0 ⟨20, 20, true⟩ ∧
    (onMouseDown (geometry ⟨800, 480⟩) ⟨20, 20, true⟩
        (init (fun _ _ => (1 / 2, 1 / 2)) 0 (create 0))).patches =
      (init (fun _ _ => (1 / 2, 1 / 2)) 0 (create 0)).patches.map
        (fun p => if p.r = 0 ∧ p.c = 0 then { p with moisture := 1 } else p) := by
  have hW : 0 < (geometry ⟨800, 480⟩).cellW := by
    norm_num [geometry, pad, cols]
  have hH : 0 < (geometry ⟨800, 480⟩).cellH := by
    norm_num [geometry, pad, rows]
  have hover : over (geometry ⟨800, 480⟩) 0 0 ⟨20, 20, true⟩ := by
    norm_num [over, geometry, pad, rows, cols]
  exact ⟨hW, hH, hover,
    (onMouseDown_waters (geometry ⟨800, 480⟩) ⟨20, 20, true⟩
      (init (fun _ _ => (1 / 2, 1 / 2)) 0 (create 0)) hW hH).1 rfl
      (initPatches_distinct (fun _ _ => (1 / 2, 1 / 2))) 0 0 hover
      (initPatches_complete (fun _ _ => (1 / 2, 1 / 2)) 0 0 (le_refl _) (by norm_num [rows])
        (le_refl _) (by norm_num [cols]))⟩

end Greens

/-! ## Course designer world -/

namespace Designer

/-- C16. Invoked while the tee or the hole has not been placed, `startPlayMode`
only shows the alert: no variable of the world changes (`inPlayMode`, ball, arrow,
power and strokes included).  With both placed it enters play mode with the ball at
the centre of the tee cell, zero velocity and not moving, the arrow at angle 0,
power 0 and strokes 0. -/
theorem startPlayMode_spec (g : Geometry) (st : State) :
    ((st.teeCell = none ∨ st.holeCell = none) →
      startPlayMode g st = { st with alerts := st.alerts ++ ["Place both tee and hole first!"] }) ∧
    (∀ tee hole, st.teeCell = some tee → st.holeCell = some hole →
      startPlayMode g st =
        { st with inPlayMode := true
                  ball := { x := tee.c * g.cellW + g.cellW / 2
                            y := tee.r * g.cellH + g.cellH / 2
                            vx := 0, vy := 0, moving := false }
                  arrowAngle := 0
                  power := 0
                  strokes := 0 }) := by
  constructor
  · intro h
    unfold startPlayMode
    rcases h with h | h
    · rw [h]
    · rw [h]
      cases st.teeCell <;> rfl
  · intro tee hole ht hh
    unfold startPlayMode
    rw [ht, hh]

/-- The cell size is positive on a canvas of positive size with at least one row. -/
theorem geometry_pos (canvas : Canvas) (hw : 0 < canvas.width) (hh : 0 < canvas.height)
    (hrows : 1 ≤ (geometry canvas).rows) :
    0 < (geometry canvas).cellW ∧ 0 < (geometry canvas).cellH := by
  have hw1 : (0 : ℚ) < canvas.width := by exact_mod_cast hw
  have hh1 : (0 : ℚ) < canvas.height := by exact_mod_cast hh
  have hr1 : (0 : ℚ) < (geometry canvas).rows := by exact_mod_cast hrows
  constructor
  · show (0 : ℚ) < (canvas.width : ℚ) / cols
    exact div_pos hw1 (by norm_num [cols])
  · show (0 : ℚ) < (canvas.height : ℚ) / ((geometry canvas).rows : ℚ)
    exact div_pos hh1 hr1

/-- The cell of `worldToCell` is a cell of the grid. -/
theorem worldToCell_range (g : Geometry) (mx my : ℚ) (hrows : 1 ≤ g.rows) :
    0 ≤ (worldToCell g mx my).r ∧ (worldToCell g mx my).r < g.rows ∧
    0 ≤ (worldToCell g mx my).c ∧ (worldToCell g mx my).c < cols := by
  have hr := clamp_mem ⌊my / g.cellH⌋ (g.rows - 1) (by omega)
  have hc := clamp_mem ⌊mx / g.cellW⌋ (cols - 1) (by norm_num [cols])
  refine ⟨hr.1, ?_, hc.1, ?_⟩
  · have := hr.2
    show clamp ⌊my / g.cellH⌋ 0 (g.rows - 1) < g.rows
    omega
  · have := hc.2
    show clamp ⌊mx / g.cellW⌋ 0 (cols - 1) < cols
    omega

/-- A cell of the grid can be read and written in a grid of the factory shape. -/
theorem grid_access (g : Geometry) (grid : List (List ℕ)) (cell : Cell) (hs : GridShape g grid)
    (hr0 : 0 ≤ cell.r) (hr1 : cell.r < g.rows) (hc0 : 0 ≤ cell.c) (hc1 : cell.c < cols) :
    (∃ v, gridAt grid cell = some (some v)) ∧ ∀ v, ∃ grid1, gridSet grid cell v = some grid1 := by
  obtain ⟨hlen, hrow⟩ := hs
  have hlt : cell.r.toNat < grid.length := by omega
  have hget : grid[cell.r.toNat]? = some (grid[cell.r.toNat]) := List.getElem?_eq_getElem hlt
  have hmem : grid[cell.r.toNat] ∈ grid := List.getElem_mem hlt
  have hclt : cell.c.toNat < (grid[cell.r.toNat]).length := by
    have := hrow _ hmem
    omega
  constructor
  · refine ⟨(grid[cell.r.toNat])[cell.c.toNat], ?_⟩
    simp only [gridAt, not_lt.mpr hr0, not_lt.mpr hc0, if_false, hget,
      List.getElem?_eq_getElem hclt]
  · intro v
    simp only [gridSet, not_lt.mpr hr0, if_false, hget]
    exact ⟨_, rfl⟩

/-- In a grid of the factory shape `paintAt` returns. -/
theorem paintAt_done (g : Geometry) (mx my : ℚ) (st : State) (hrows : 1 ≤ g.rows)
    (hs : GridShape g st.grid) : ∃ st1, paintAt g mx my st = .done st1 := by
  obtain ⟨hr0, hr1, hc0, hc1⟩ := worldToCell_range g mx my hrows
  have hset := (grid_access g st.grid (worldToCell g mx my) hs hr0 hr1 hc0 hc1).2
  unfold paintAt
  by_cases h1 : st.inPlayMode = true
  · exact ⟨_, if_pos h1⟩
  · rw [if_neg h1]
    dsimp only
    by_cases h2 : st.placingHole = true
    · exact ⟨_, if_pos h2⟩
    · rw [if_neg h2]
      by_cases h3 : st.placingTee = true
      · exact ⟨_, if_pos h3⟩
      · rw [if_neg h3]
        by_cases h4 : st.brush = "eraser"
        · rw [if_pos h4]
          have hgrid : (if (if st.holeCell = some (worldToCell g mx my)
                  then { st with holeCell := none } else st).teeCell = some (worldToCell g mx my)
                then { (if st.holeCell = some (worldToCell g mx my)
                  then { st with holeCell := none } else st) with teeCell := none }
                else (if st.holeCell = some (worldToCell g mx my)
                  then { st with holeCell := none } else st)).grid = st.grid := by
            split_ifs <;> rfl
          obtain ⟨grid1, hg⟩ := hset 0
          rw [hgrid, hg]
          exact ⟨_, rfl⟩
        · rw [if_neg h4]
          obtain ⟨grid1, hg⟩ := hset (brushCode st.brush)
          rw [hg]
          exact ⟨_, rfl⟩

/-- In a grid of the factory shape `updatePlay` never fails on the grid. -/
theorem updatePlay_no_rowError (g : Geometry) (sqrt : ℚ → ℚ) (st : State) (hrows : 1 ≤ g.rows)
    (hs : GridShape g st.grid) : ∀ st1, updatePlay g sqrt st ≠ .rowError st1 := by
  intro st1
  obtain ⟨hr0, hr1, hc0, hc1⟩ :=
    worldToCell_range g (st.ball.x + st.ball.vx) (st.ball.y + st.ball.vy) hrows
  obtain ⟨v, hv⟩ := (grid_access g st.grid _ hs hr0 hr1 hc0 hc1).1
  unfold updatePlay
  by_cases h1 : st.ball.moving = true
  · simp only [h1, Bool.not_true, Bool.false_eq_true, if_false, hv]
    split
    · intro h
      cases h
    · split_ifs <;> intro h <;> cases h
  · simp only [h1, Bool.not_false, Bool.not_eq_true] at *
    simp [h1]

/-- C19. On a canvas of positive size whose grid has at least one row, for every
pointer position, negative or beyond the surface included, `worldToCell` returns a
cell with `0 <= r < rows` and `0 <= c < cols`; for a position inside the surface the
grid was built for, the cell is `(floor(my / cellH), floor(mx / cellW))`; hence in a
grid of the factory shape `paintAt` returns without indexing outside the grid and
`updatePlay` never fails on a grid access. -/
theorem worldToCell_safe (canvas : Canvas) (mx my : ℚ) (hw : 0 < canvas.width)
    (hh : 0 < canvas.height) (hrows : 1 ≤ (geometry canvas).rows) :
    (0 ≤ (worldToCell (geometry canvas) mx my).r ∧
      (worldToCell (geometry canvas) mx my).r < (geometry canvas).rows ∧
      0 ≤ (worldToCell (geometry canvas) mx my).c ∧
      (worldToCell (geometry canvas) mx my).c < cols) ∧
    (0 ≤ mx → mx < canvas.width → 0 ≤ my → my < canvas.height →
      worldToCell (geometry canvas) mx my =
        { r := ⌊my / (geometry canvas).cellH⌋, c := ⌊mx / (geometry canvas).cellW⌋ }) ∧
    (∀ st : State, GridShape (geometry canvas) st.grid →
      (∃ v, gridAt st.grid (worldToCell (geometry canvas) mx my) = some (some v)) ∧
      (∃ st1, paintAt (geometry canvas) mx my st = .done st1) ∧
      ∀ sqrt st1, updatePlay (geometry canvas) sqrt st ≠ .rowError st1) := by
  obtain ⟨hW, hH⟩ := geometry_pos canvas hw hh hrows
  have hrange := worldToCell_range (geometry canvas) mx my hrows
  refine ⟨hrange, ?_, ?_⟩
  · intro hx0 hx1 hy0 hy1
    have hcw : (geometry canvas).cellW * 80 = canvas.width := by
      show (canvas.width : ℚ) / cols * 80 = canvas.width
      norm_num [cols]
    have hr1 : (0 : ℚ) < (geometry canvas).rows := by exact_mod_cast hrows
    have hch : (geometry canvas).cellH * (geometry canvas).rows = canvas.height := by
      show (canvas.height : ℚ) / ((geometry canvas).rows : ℚ) * (geometry canvas).rows
        = canvas.height
      field_simp
    have hc0 : 0 ≤ ⌊mx / (geometry canvas).cellW⌋ := Int.floor_nonneg.mpr (div_nonneg hx0 hW.le)
    have hc1 : ⌊mx / (geometry canvas).cellW⌋ < cols := by
      rw [Int.floor_lt, div_lt_iff₀ hW]
      have : ((cols : ℤ) : ℚ) = 80 := by norm_num [cols]
      rw [this]
      linarith
    have hr0 : 0 ≤ ⌊my / (geometry canvas).cellH⌋ := Int.floor_nonneg.mpr (div_nonneg hy0 hH.le)
    have hr2 : ⌊my / (geometry canvas).cellH⌋ < (geometry canvas).rows := by
      rw [Int.floor_lt, div_lt_iff₀ hH]
      linarith
    unfold worldToCell
    rw [clamp_of_mem _ _ hr0 (by omega), clamp_of_mem _ _ hc0 (by omega)]
  · intro st hs
    exact ⟨(grid_access (geometry canvas) st.grid _ hs hrange.1 hrange.2.1 hrange.2.2.1
        hrange.2.2.2).1,
      paintAt_done (geometry canvas) mx my st hrows hs,
      fun sqrt st1 => updatePlay_no_rowError (geometry canvas) sqrt st hrows hs st1⟩

/-- On an 800 x 480 canvas the grid has 48 rows. -/
theorem geometry_rows_800_480 : (geometry ⟨800, 480⟩).rows = 48 := by
  show ⌊((480 : ℤ) : ℚ) / ((800 : ℤ) : ℚ) * cols + 1 / 2⌋ = 48
  rw [Int.floor_eq_iff]
  norm_num [cols]

/-- Witness for C19: on an 800 x 480 canvas, a pointer at (-5, 10000) is mapped
into the grid, and the pointer at (405, 245) to the cell it lies in. -/
theorem worldToCell_safe_witness :
    (0 : ℤ) < (⟨800, 480⟩ : Canvas).width ∧ (0 : ℤ) < (⟨800, 480⟩ : Canvas).height ∧
    1 ≤ (geometry ⟨800, 480⟩).rows ∧
    (0 ≤ (worldToCell (geometry ⟨800, 480⟩) (-5) 10000).r ∧
      (worldToCell (geometry ⟨800, 480⟩) (-5) 10000).r < (geometry ⟨800, 480⟩).rows ∧
      0 ≤ (worldToCell (geometry ⟨800, 480⟩) (-5) 10000).c ∧
      (worldToCell (geometry ⟨800, 480⟩) (-5) 10000).c < cols) ∧
    worldToCell (geometry ⟨800, 480⟩) 405 245 =
      { r := ⌊(245 : ℚ) / (geometry ⟨800, 480⟩).cellH⌋,
        c := ⌊(405 : ℚ) / (geometry ⟨800, 480⟩).cellW⌋ } := by
  have hrows : 1 ≤ (geometry ⟨800, 480⟩).rows := by
    rw [geometry_rows_800_480]
    norm_num
  have hw : (0 : ℤ) < (⟨800, 480⟩ : Canvas).width := by norm_num
  have hh : (0 : ℤ) < (⟨800, 480⟩ : Canvas).height := by norm_num
  exact ⟨hw, hh, hrows, (worldToCell_safe ⟨800, 480⟩ (-5) 10000 hw hh hrows).1,
    (worldToCell_safe ⟨800, 480⟩ 405 245 hw hh hrows).2.1 (by norm_num) (by norm_num)
      (by norm_num) (by norm_num)⟩

end Designer


/-! ## Pro golfer world: ground height and power -/

/-- The guarded call leaves the canvas alone. -/
theorem forward_canvas (c : Call) (now : ℚ) (s : Session) :
    (forward c now s).session.canvas = s.canvas := by
  unfold forward
  split
  · rfl
  · split
    · rfl
    · split
      · split <;> simp [Outcome.session, Session.setWorld]
      · rfl

/-- The factory of `startWorld` reads the canvas as the session had it. -/
theorem factoryCanvas_eq (s : Session) : factoryCanvas s = s.canvas := by
  unfold factoryCanvas
  rw [stopCurrentWorld_eq]

/-- After `startWorld('pro')` the canvas is the one `resizeCanvas()` computed inside
the call. -/
theorem startWorld_pro_canvas (rect : Rect) (tInit tLoop : ℚ) (s : Session) :
    (startWorld "pro" rect tInit tLoop s).session.canvas = resizeCanvas rect := by
  obtain ⟨info, hinfo, -⟩ := worlds_find .pro
  have hlen := stopCurrentWorld_heap_length { s with statusPill := "Loading..." }
  have h := startWorld_factory .pro rect tInit tLoop s info hinfo
  have hkey : WorldId.pro.key = "pro" := rfl
  rw [hkey] at h
  rw [h]
  generalize stopCurrentWorld { s with statusPill := "Loading..." } = s0 at hlen ⊢
  simp only [] at hlen
  rw [loop_current s.heap.length
    { construct .pro tInit with received := [.onStart], started := decide (WorldId.pro = .greens) }
    tLoop _ rfl (by simp [← hlen]) rfl]
  simp [construct, Session.setWorld, Session.requestAnimationFrame, Outcome.session]

/-- The window `resize` listener leaves the canvas as `resizeCanvas()` computed it. -/
theorem resize_canvas (rect : Rect) (s : Session) :
    (resize rect s).session.canvas = resizeCanvas rect := by
  unfold resize
  rw [forward_canvas]

namespace Pro

/-- No call into the closure changes its constants. -/
theorem step_cfg (math : JsMath) (g : Game) (i : Input) : (step math g i).cfg = g.cfg := by
  cases i with
  | start rnd => rfl
  | resize => rfl
  | keyDown code =>
    simp only [step, onKeyDown]
    split_ifs <;> rfl
  | keyUp code now =>
    simp only [step, onKeyUp, launch]
    split_ifs <;> rfl
  | mouseMove m =>
    simp only [step, onMouseMove]
    split_ifs <;> rfl
  | mouseDown m =>
    simp only [step, onMouseDown]
    split_ifs <;> rfl
  | mouseUp m =>
    simp only [step, onMouseUp, launch]
    split_ifs <;> rfl
  | frame canvas =>
    simp only [step, tick, physicsStep]
    split_ifs <;> rfl

/-- No sequence of calls changes the constants of the closure. -/
theorem play_cfg (math : JsMath) (inputs : List Input) (g : Game) :
    (play math g inputs).cfg = g.cfg := by
  induction inputs generalizing g with
  | nil => rfl
  | cons i rest ih =>
    show (play math (step math g i) rest).cfg = g.cfg
    rw [ih, step_cfg]

end Pro


namespace Pro

/-- C17, against the claim. The page is loaded with a 800 x 480 layout box and
`startWorld('pro')` runs with the same box: the surface is 800 x 480 and the ground
height of the new world is 96.  The container then grows to 1000 x 1000: after the
`resize` listener the surface is 1000 x 1000, and after `onResize()` the ground
height is still 96, not `floor(0.20 * 1000) = 200`. -/
theorem groundH_ignores_resize :
    (startWorld "pro" ⟨0, 0, 800, 480⟩ 0 0 (initial ⟨0, 0, 800, 480⟩)).session.canvas = ⟨800, 480⟩ ∧
    (started (355 / 113) (initial ⟨0, 0, 800, 480⟩) 0 0).cfg.groundH = 96 ∧
    (resize ⟨0, 0, 1000, 1000⟩
      (startWorld "pro" ⟨0, 0, 800, 480⟩ 0 0 (initial ⟨0, 0, 800, 480⟩)).session).session.canvas
      = ⟨1000, 1000⟩ ∧
    (onResize (started (355 / 113) (initial ⟨0, 0, 800, 480⟩) 0 0)).cfg.groundH = 96 ∧
    ⌊((1000 : ℤ) : ℚ) * 0.20⌋ = 200 := by
  have hc : (initial ⟨0, 0, 800, 480⟩).canvas = ⟨800, 480⟩ := by
    unfold initial showMenu
    rw [stopCurrentWorld_eq]
    simp [resizeCanvas]
  have hg : (started (355 / 113) (initial ⟨0, 0, 800, 480⟩) 0 0).cfg.groundH = 96 := by
    show ⌊(((factoryCanvas (initial ⟨0, 0, 800, 480⟩)).height : ℤ) : ℚ) * 0.20⌋ = 96
    rw [factoryCanvas_eq, hc, Int.floor_eq_iff]
    norm_num
  refine ⟨?_, hg, ?_, hg, ?_⟩
  · rw [startWorld_pro_canvas]
    simp [resizeCanvas]
  · rw [resize_canvas]
    simp [resizeCanvas]
  · rw [Int.floor_eq_iff]
    norm_num

/-- C17, as the code has it. The ground height of the pro golfer world is a constant
of its closure.  Whenever the resize made inside `startWorld('pro')` leaves the
surface height as it was, the ground height of the started world is the floor of 20%
of the surface height current when its `onStart` runs; and no later call into the
world, `onResize` after a container resize included, changes it. -/
theorem groundH_constant (math : JsMath) (s : Session) (rect : Rect)
    (tInit tLoop rndCreate rndStart : ℚ)
    (hsame : (resizeCanvas rect).height = s.canvas.height) :
    (startWorld "pro" rect tInit tLoop s).session.canvas = resizeCanvas rect ∧
    (started math.pi s rndCreate rndStart).cfg.groundH =
      ⌊(((startWorld "pro" rect tInit tLoop s).session.canvas.height : ℤ) : ℚ) * 0.20⌋ ∧
    ∀ inputs : List Input,
      (play math (started math.pi s rndCreate rndStart) inputs).cfg.groundH =
        (started math.pi s rndCreate rndStart).cfg.groundH := by
  refine ⟨startWorld_pro_canvas rect tInit tLoop s, ?_, ?_⟩
  · rw [startWorld_pro_canvas, hsame]
    show ⌊(((factoryCanvas s).height : ℤ) : ℚ) * 0.20⌋ = _
    rw [factoryCanvas_eq]
  · intro inputs
    rw [play_cfg]

/-- Witness for C17: the pro golfer world started on the freshly loaded 800 x 480
page keeps its ground height of 96 through a resize and a frame on a larger
canvas. -/
theorem groundH_constant_witness :
    (resizeCanvas ⟨0, 0, 800, 480⟩).height = (initial ⟨0, 0, 800, 480⟩).canvas.height ∧
    (play ⟨sqrtQ, fun _ => 1, fun _ => 0, fun _ _ => 0, 355 / 113⟩
      (started (355 / 113) (initial ⟨0, 0, 800, 480⟩) 0 0)
      [.resize, .frame ⟨1000, 1000⟩]).cfg.groundH =
      (started (355 / 113) (initial ⟨0, 0, 800, 480⟩) 0 0).cfg.groundH := by
  have hc : (initial ⟨0, 0, 800, 480⟩).canvas = ⟨800, 480⟩ := by
    unfold initial showMenu
    rw [stopCurrentWorld_eq]
    simp [resizeCanvas]
  have hsame : (resizeCanvas ⟨0, 0, 800, 480⟩).height =
      (initial ⟨0, 0, 800, 480⟩).canvas.height := by
    rw [hc]
    simp [resizeCanvas]
  exact ⟨hsame,
    (groundH_constant ⟨sqrtQ, fun _ => 1, fun _ => 0, fun _ _ => 0, 355 / 113⟩
      (initial ⟨0, 0, 800, 480⟩) ⟨0, 0, 800, 480⟩ 0 0 0 0 hsame).2.2 [.resize, .frame ⟨1000, 1000⟩]⟩

end Pro


namespace Pro

/-- The function `physicsStep()` does not touch `power`. -/
theorem physicsStep_power (canvas : Canvas) (g : Game) :
    (physicsStep canvas g).power = g.power := by
  unfold physicsStep
  dsimp only
  split_ifs <;> rfl

/-- The power after one frame. -/
theorem tick_power (math : JsMath) (canvas : Canvas) (g : Game) :
    (tick math canvas g).power =
      if g.charging = true ∧ g.ball.onGround = true then
        (if g.power + 1.6 > 100 then 100 else g.power + 1.6)
      else g.power := by
  unfold tick
  dsimp only
  rw [physicsStep_power]
  split_ifs <;> rfl

/-- The power after `onKeyDown(code)`. -/
theorem onKeyDown_power (math : JsMath) (code : String) (g : Game) :
    (onKeyDown math code g).power =
      if code = "Space" ∧ g.ball.onGround = true ∧ g.charging = false then 0 else g.power := by
  unfold onKeyDown
  dsimp only
  split_ifs <;> simp_all

/-- The power after `onMouseDown(m)`. -/
theorem onMouseDown_power (math : JsMath) (m : Mouse) (g : Game) :
    (onMouseDown math m g).power =
      if math.sqrt ((m.x - g.ball.x) * (m.x - g.ball.x) + (m.y - g.ball.y) * (m.y - g.ball.y)) < 40
          ∧ g.ball.onGround = true then 0
      else g.power := by
  unfold onMouseDown
  dsimp only
  split_ifs <;> rfl

/-- The shot keeps `power` as it is. -/
theorem launch_power (math : JsMath) (g : Game) : (launch math g).power = g.power := by
  unfold launch
  dsimp only
  split_ifs <;> rfl

/-- The velocity the shot gives the ball. -/
theorem launch_ball (math : JsMath) (g : Game) :
    (launch math g).ball.vx = math.cos g.angle * (clamp g.power 2 100 / 3.5) ∧
    (launch math g).ball.vy = -math.sin g.angle * (clamp g.power 2 100 / 3.5) ∧
    (launch math g).ball.onGround = false ∧ (launch math g).charging = false := by
  unfold launch
  dsimp only
  split_ifs <;> exact ⟨rfl, rfl, rfl, rfl⟩

/-- Every call into the closure keeps `power` between 0 and 100. -/
theorem step_power (math : JsMath) (g : Game) (i : Input)
    (h : 0 ≤ g.power ∧ g.power ≤ 100) :
    0 ≤ (step math g i).power ∧ (step math g i).power ≤ 100 := by
  cases i with
  | start rnd => exact h
  | resize => exact h
  | keyDown code =>
    show 0 ≤ (onKeyDown math code g).power ∧ (onKeyDown math code g).power ≤ 100
    rw [onKeyDown_power]
    split_ifs
    · norm_num
    · exact h
  | keyUp code now =>
    simp only [step, onKeyUp]
    split_ifs
    · show 0 ≤ (launch math g).power ∧ (launch math g).power ≤ 100
      rw [launch_power]
      exact h
    · exact h
  | mouseMove m =>
    simp only [step, onMouseMove]
    split_ifs
    · exact h
    · exact h
  | mouseDown m =>
    show 0 ≤ (onMouseDown math m g).power ∧ (onMouseDown math m g).power ≤ 100
    rw [onMouseDown_power]
    split_ifs
    · norm_num
    · exact h
  | mouseUp m =>
    simp only [step, onMouseUp]
    split_ifs
    · rw [launch_power]
      exact h
    · exact h
  | frame canvas =>
    show 0 ≤ (tick math canvas g).power ∧ (tick math canvas g).power ≤ 100
    rw [tick_power]
    split_ifs with h1 h2
    · norm_num
    · constructor
      · linarith [h.1]
      · linarith [not_lt.mp h2]
    · exact h

/-- Every sequence of calls keeps `power` between 0 and 100. -/
theorem play_power (math : JsMath) (inputs : List Input) (g : Game)
    (h : 0 ≤ g.power ∧ g.power ≤ 100) :
    0 ≤ (play math g inputs).power ∧ (play math g inputs).power ≤ 100 := by
  induction inputs generalizing g with
  | nil => exact h
  | cons i rest ih => exact ih (step math g i) (step_power math g i h)

/-- The closure is created with `power = 0`. -/
theorem create_power (pi : ℚ) (canvas : Canvas) (rnd : ℚ) : (create pi canvas rnd).power = 0 :=
  rfl

end Pro


namespace Pro

/-- C18. In every state the pro golfer closure reaches from its creation, whatever
calls it receives, `power` lies in [0, 100].  Charging begins with `power = 0`, by
the Space key (ball on the ground, not yet charging) or by a press within 40 px of
the ball on the ground; a frame adds exactly 1.6 while charging with the ball on the
ground, capped at 100, and leaves `power` alone otherwise; and the shot made on
release has velocity `(cos(angle) * speed, -sin(angle) * speed)` with
`speed = clamp(power, 2, 100) / 3.5`. -/
theorem power_in_range (math : JsMath) (canvas : Canvas) (rnd : ℚ) (inputs : List Input) :
    (0 ≤ (play math (create math.pi canvas rnd) inputs).power ∧
      (play math (create math.pi canvas rnd) inputs).power ≤ 100) ∧
    (∀ g : Game, g.ball.onGround = true → g.charging = false →
      (onKeyDown math "Space" g).charging = true ∧ (onKeyDown math "Space" g).power = 0) ∧
    (∀ (g : Game) (m : Mouse),
      math.sqrt ((m.x - g.ball.x) * (m.x - g.ball.x) + (m.y - g.ball.y) * (m.y - g.ball.y)) < 40 →
      g.ball.onGround = true →
      (onMouseDown math m g).charging = true ∧ (onMouseDown math m g).power = 0) ∧
    (∀ (g : Game) (c : Canvas), g.charging = true → g.ball.onGround = true →
      (tick math c g).power = min (g.power + 1.6) 100) ∧
    (∀ (g : Game) (c : Canvas), ¬ (g.charging = true ∧ g.ball.onGround = true) →
      (tick math c g).power = g.power) ∧
    (∀ (g : Game) (now : ℚ), g.charging = true → g.ball.onGround = true →
      (onKeyUp math "Space" now g).ball.vx = math.cos g.angle * (clamp g.power 2 100 / 3.5) ∧
      (onKeyUp math "Space" now g).ball.vy = -math.sin g.angle * (clamp g.power 2 100 / 3.5)) ∧
    (∀ (g : Game) (m : Mouse), g.charging = true → g.ball.onGround = true →
      (onMouseUp math m g).ball.vx = math.cos g.angle * (clamp g.power 2 100 / 3.5) ∧
      (onMouseUp math m g).ball.vy = -math.sin g.angle * (clamp g.power 2 100 / 3.5)) := by
  refine ⟨play_power math inputs _ ?_, ?_, ?_, ?_, ?_, ?_, ?_⟩
  · rw [create_power]
    norm_num
  · intro g hg hc
    refine ⟨?_, ?_⟩
    · simp [onKeyDown, hg, hc]
    · rw [onKeyDown_power]
      simp [hg, hc]
  · intro g m hd hg
    refine ⟨?_, ?_⟩
    · simp [onMouseDown, hd, hg]
    · rw [onMouseDown_power]
      simp [hd, hg]
  · intro g c hc hg
    rw [tick_power, if_pos ⟨hc, hg⟩]
    split_ifs with h
    · exact (min_eq_right (le_of_lt h)).symm
    · exact (min_eq_left (not_lt.mp h)).symm
  · intro g c h
    rw [tick_power, if_neg h]
  · intro g now hc hg
    have h : onKeyUp math "Space" now g = { launch math g with lastShotTime := now } := by
      simp [onKeyUp, hc, hg]
    rw [h]
    exact ⟨(launch_ball math g).1, (launch_ball math g).2.1⟩
  · intro g m hc hg
    have h : onMouseUp math m g = launch math g := by
      simp [onMouseUp, hc, hg]
    rw [h]
    exact ⟨(launch_ball math g).1, (launch_ball math g).2.1⟩

/-- Witness for C18: on a 800 x 480 canvas the Space key starts the charge of the
new closure at 0 and the next frame brings `power` to 1.6. -/
theorem power_in_range_witness :
    (onKeyDown ⟨sqrtQ, fun _ => 1, fun _ => 0, fun _ _ => 0, 355 / 113⟩ "Space"
      (create (355 / 113) ⟨800, 480⟩ 0)).power = 0 ∧
    (tick ⟨sqrtQ, fun _ => 1, fun _ => 0, fun _ _ => 0, 355 / 113⟩ ⟨800, 480⟩
      (onKeyDown ⟨sqrtQ, fun _ => 1, fun _ => 0, fun _ _ => 0, 355 / 113⟩ "Space"
        (create (355 / 113) ⟨800, 480⟩ 0))).power = 8 / 5 := by
  obtain ⟨-, hkey, -, htick, -⟩ :=
    power_in_range ⟨sqrtQ, fun _ => 1, fun _ => 0, fun _ _ => 0, 355 / 113⟩ ⟨800, 480⟩ 0 []
  obtain ⟨hc, hp⟩ := hkey (create (355 / 113) ⟨800, 480⟩ 0) rfl rfl
  have hg : (onKeyDown ⟨sqrtQ, fun _ => 1, fun _ => 0, fun _ _ => 0, 355 / 113⟩ "Space"
      (create (355 / 113) ⟨800, 480⟩ 0)).ball.onGround = true := by
    simp [onKeyDown, create, resetBall]
  refine ⟨hp, ?_⟩
  rw [htick _ ⟨800, 480⟩ hc hg, hp]
  norm_num

end Pro


/-! ## Caddy world -/

namespace Caddy

/-- The frame that brings the caddy of `nearTrap` within reach of the first trap. -/
theorem frame_nearTrap :
    frame ⟨800, 480⟩ 0 nearTrap =
      { nearTrap with caddy := { nearTrap.caddy with x := 751 / 5 }
                      overlays := ["You got caught in a trap! Game Over."]
                      restartListeners := 1 } := by
  simp [frame, update, moveStep, bagsStep, bagStep, trapsStep, golfersStep, hypotLt,
    gameOverScreen, nearTrap, clamp, startQuestionRound]
  norm_num

/-- The frame that exhausts the caddy of `tired`. -/
theorem frame_tired :
    frame ⟨800, 480⟩ 0 tired =
      { tired with caddy := { tired.caddy with x := 1261 / 5, stamina := 0 }
                   bags := [{ x := 1311 / 5, y := 340, carried := true, delivered := false },
                            { x := 300, y := 340, carried := false, delivered := false }]
                   overlays := ["You collapsed from exhaustion!"]
                   restartListeners := 1 } := by
  simp [frame, update, moveStep, bagsStep, bagStep, trapsStep, golfersStep, hypotLt,
    gameOverScreen, tired, clamp, startQuestionRound]
  norm_num

/-- C20, against the claim. Round 1 on a 800 x 480 canvas.  From `nearTrap` one
frame brings the caddy to x = 150.2, within `r + 10` of the first trap:
`gameOverScreen` paints its message, and `started` is still true.  The next frame
moves the caddy on to x = 152.4.  From `tired` one frame drains the stamina to 0 while
carrying: `gameOverScreen` paints its message.  The next frame moves the caddy and
the carried bag by 2.2 px; and if the player lets go of the key first, the next frame
raises the stamina from 0 to 0.48. -/
theorem updates_continue_after_game_over :
    (frame ⟨800, 480⟩ 0 nearTrap).overlays = ["You got caught in a trap! Game Over."] ∧
    (frame ⟨800, 480⟩ 0 nearTrap).started = true ∧
    (frame ⟨800, 480⟩ 0 nearTrap).caddy.x = 751 / 5 ∧
    (frame ⟨800, 480⟩ 0 (frame ⟨800, 480⟩ 0 nearTrap)).caddy.x = 762 / 5 ∧
    (frame ⟨800, 480⟩ 0 tired).overlays = ["You collapsed from exhaustion!"] ∧
    (frame ⟨800, 480⟩ 0 tired).started = true ∧
    (frame ⟨800, 480⟩ 0 tired).caddy.x = 1261 / 5 ∧
    (frame ⟨800, 480⟩ 0 tired).caddy.stamina = 0 ∧
    (frame ⟨800, 480⟩ 0 tired).bags =
      [{ x := 1311 / 5, y := 340, carried := true, delivered := false },
       { x := 300, y := 340, carried := false, delivered := false }] ∧
    (frame ⟨800, 480⟩ 0 (frame ⟨800, 480⟩ 0 tired)).caddy.x = 1272 / 5 ∧
    (frame ⟨800, 480⟩ 0 (frame ⟨800, 480⟩ 0 tired)).bags =
      [{ x := 1322 / 5, y := 340, carried := true, delivered := false },
       { x := 300, y := 340, carried := false, delivered := false }] ∧
    (frame ⟨800, 480⟩ 0 (onKeyUp "ArrowRight" (frame ⟨800, 480⟩ 0 tired))).caddy.x = 1261 / 5 ∧
    (frame ⟨800, 480⟩ 0 (onKeyUp "ArrowRight" (frame ⟨800, 480⟩ 0 tired))).caddy.stamina =
      12 / 25 := by
  rw [frame_nearTrap, frame_tired]
  refine ⟨rfl, rfl, rfl, ?_, rfl, rfl, rfl, rfl, rfl, ?_, ?_, ?_, ?_⟩
  · simp [frame, update, moveStep, bagsStep, bagStep, trapsStep, golfersStep, hypotLt,
      gameOverScreen, nearTrap, clamp, startQuestionRound]
    norm_num
  · simp [frame, update, moveStep, bagsStep, bagStep, trapsStep, golfersStep, hypotLt,
      gameOverScreen, tired, clamp, startQuestionRound]
    norm_num
  · simp [frame, update, moveStep, bagsStep, bagStep, trapsStep, golfersStep, hypotLt,
      gameOverScreen, tired, clamp, startQuestionRound]
    norm_num
  · simp [frame, update, moveStep, bagsStep, bagStep, trapsStep, golfersStep, hypotLt,
      gameOverScreen, tired, clamp, startQuestionRound, onKeyUp]
    norm_num
  · simp [frame, update, moveStep, bagsStep, bagStep, trapsStep, golfersStep, hypotLt,
      gameOverScreen, tired, clamp, startQuestionRound, onKeyUp]
    norm_num

end Caddy


/-! ## Club manager world: the accounts -/

namespace Manager

/-- The chosen costs of a list, item by item. -/
theorem chosenCost_cons (x : Item) (t : List Item) :
    chosenCost (x :: t) = (if x.chosen then x.cost else 0) + chosenCost t := by
  unfold chosenCost
  by_cases h : x.chosen = true <;> simp [List.filter_cons, h]

/-- The chosen benefits of a list, item by item. -/
theorem chosenBenefit_cons (x : Item) (t : List Item) :
    chosenBenefit (x :: t) = (if x.chosen then x.benefit else 0) + chosenBenefit t := by
  unfold chosenBenefit
  by_cases h : x.chosen = true <;> simp [List.filter_cons, h]

/-- Changing the flag of one item moves its cost in or out of the chosen costs. -/
theorem chosenCost_set (l : List Item) (i : ℕ) (it : Item) (b : Bool) (h : l[i]? = some it) :
    chosenCost (l.set i { it with chosen := b }) =
      chosenCost l - (if it.chosen then it.cost else 0) + (if b then it.cost else 0) := by
  induction l generalizing i with
  | nil => simp at h
  | cons x t ih =>
    cases i with
    | zero =>
      simp only [List.getElem?_cons_zero, Option.some.injEq] at h
      subst h
      simp only [List.set_cons_zero, chosenCost_cons]
      ring
    | succ j =>
      simp only [List.getElem?_cons_succ] at h
      simp only [List.set_cons_succ, chosenCost_cons, ih j h]
      ring

/-- Changing the flag of one item moves its benefit in or out of the chosen
benefits. -/
theorem chosenBenefit_set (l : List Item) (i : ℕ) (it : Item) (b : Bool) (h : l[i]? = some it) :
    chosenBenefit (l.set i { it with chosen := b }) =
      chosenBenefit l - (if it.chosen then it.benefit else 0) + (if b then it.benefit else 0) := by
  induction l generalizing i with
  | nil => simp at h
  | cons x t ih =>
    cases i with
    | zero =>
      simp only [List.getElem?_cons_zero, Option.some.injEq] at h
      subst h
      simp only [List.set_cons_zero, chosenBenefit_cons]
      ring
    | succ j =>
      simp only [List.getElem?_cons_succ] at h
      simp only [List.set_cons_succ, chosenBenefit_cons, ih j h]
      ring

/-- Changing the flag of one item keeps the prices. -/
theorem prices_set (l : List Item) (i : ℕ) (it : Item) (b : Bool) (h : l[i]? = some it) :
    prices (l.set i { it with chosen := b }) = prices l := by
  induction l generalizing i with
  | nil => simp at h
  | cons x t ih =>
    cases i with
    | zero =>
      simp only [List.getElem?_cons_zero, Option.some.injEq] at h
      subst h
      simp [prices]
    | succ j =>
      simp only [List.getElem?_cons_succ] at h
      have := ih j h
      simp only [prices, List.set_cons_succ, List.map_cons] at this ⊢
      rw [this]

/-- With no negative cost, the chosen costs and the cost of an item not chosen stay
within the sum of all costs. -/
theorem chosenCost_add_le (l : List Item) (i : ℕ) (it : Item) (h : l[i]? = some it)
    (hun : it.chosen = false) (hpos : ∀ p ∈ prices l, 0 ≤ p.1) :
    chosenCost l + it.cost ≤ ((prices l).map Prod.fst).sum := by
  have hle : ∀ t : List Item, (∀ p ∈ prices t, 0 ≤ p.1) →
      chosenCost t ≤ ((prices t).map Prod.fst).sum := by
    intro t
    induction t with
    | nil => intro _; simp [chosenCost, prices]
    | cons x t iht =>
      intro hp
      have hx : 0 ≤ x.cost := hp (x.cost, x.benefit) (by simp [prices])
      have ht := iht (fun p hp1 => hp p (by
        simp only [prices, List.map_cons, List.mem_cons] at hp1 ⊢
        exact Or.inr hp1))
      rw [chosenCost_cons]
      simp only [prices, List.map_cons, List.sum_cons] at ht ⊢
      split_ifs <;> linarith
  induction l generalizing i with
  | nil => simp at h
  | cons x t ih =>
    have hx : 0 ≤ x.cost := hpos (x.cost, x.benefit) (by simp [prices])
    have hpt : ∀ p ∈ prices t, 0 ≤ p.1 := fun p hp1 => hpos p (by
      simp only [prices, List.map_cons, List.mem_cons] at hp1 ⊢
      exact Or.inr hp1)
    cases i with
    | zero =>
      simp only [List.getElem?_cons_zero, Option.some.injEq] at h
      subst h
      have ht := hle t hpt
      rw [chosenCost_cons]
      simp only [prices, List.map_cons, List.sum_cons, hun] at ht ⊢
      simp only [Bool.false_eq_true, if_false]
      linarith
    | succ j =>
      simp only [List.getElem?_cons_succ] at h
      have ht := ih j h hpt
      rw [chosenCost_cons]
      simp only [prices, List.map_cons, List.sum_cons] at ht ⊢
      split_ifs <;> linarith

/-- In a balanced state the budget covers every item that is not chosen, with 400
to spare. -/
theorem Balanced.covers {st : State} (h : Balanced st) (i : ℕ) (it : Item)
    (hit : st.items[i]? = some it) (hun : it.chosen = false) : it.cost + 400 ≤ st.budget := by
  obtain ⟨hp, hb, -⟩ := h
  have hpos : ∀ p ∈ prices st.items, 0 ≤ p.1 := by
    rw [hp]
    intro p hp1
    simp only [prices, catalog, List.map_cons, List.map_nil, List.mem_cons,
      List.mem_singleton, List.not_mem_nil, or_false] at hp1
    rcases hp1 with h | h | h | h | h <;> rw [h] <;> norm_num
  have hle := chosenCost_add_le st.items i it hit hun hpos
  rw [hp] at hle
  have hsum : ((prices catalog).map Prod.fst).sum = 1600 := by
    simp [prices, catalog]
  rw [hsum] at hle
  rw [hb]
  linarith

/-- In a balanced state `toggle` never takes the rejection branch: it flips the flag
of the item and moves its cost and benefit, and the state stays balanced. -/
theorem Balanced.toggle {st : State} (h : Balanced st) (i : ℕ) :
    Balanced (toggle i st) ∧ (toggle i st).overlayMsg = st.overlayMsg ∧
      (toggle i st).booked = st.booked := by
  unfold Manager.toggle
  cases hit : st.items[i]? with
  | none => exact ⟨h, rfl, rfl⟩
  | some it =>
    simp only []
    cases hc : it.chosen with
    | false =>
      have hcov := h.covers i it hit hc
      have hge : st.budget ≥ it.cost := by linarith
      simp only [Bool.not_false, if_true, hge]
      refine ⟨⟨?_, ?_, ?_⟩, trivial, trivial⟩
      · simp only [prices_set st.items i it true hit]
        exact h.1
      · simp only [chosenCost_set st.items i it true hit, hc, h.2.1]
        simp only [Bool.false_eq_true, if_false, if_true]
        ring
      · simp only [chosenBenefit_set st.items i it true hit, hc, h.2.2]
        simp only [Bool.false_eq_true, if_false, if_true]
        ring
    | true =>
      simp only [Bool.not_true, Bool.false_eq_true, if_false]
      refine ⟨⟨?_, ?_, ?_⟩, trivial, trivial⟩
      · simp only [prices_set st.items i it false hit]
        exact h.1
      · simp only [chosenCost_set st.items i it false hit, hc, h.2.1]
        simp only [Bool.false_eq_true, if_false, if_true]
        ring
      · simp only [chosenBenefit_set st.items i it false hit, hc, h.2.2]
        simp only [Bool.false_eq_true, if_false, if_true]
        ring

end Manager


namespace Manager

/-- The loop over the items keeps a balanced state balanced and leaves the message
alone. -/
theorem Balanced.loop {st : State} (h : Balanced st) (m : Mouse) (l : List ℕ) :
    Balanced (l.foldl (fun s j => if onItem m j then Manager.toggle j s else s) st) ∧
    (l.foldl (fun s j => if onItem m j then Manager.toggle j s else s) st).overlayMsg
      = st.overlayMsg := by
  induction l generalizing st with
  | nil => exact ⟨h, rfl⟩
  | cons j t ih =>
    simp only [List.foldl_cons]
    by_cases hj : onItem m j = true
    · simp only [hj, if_true]
      obtain ⟨h1, h2, -⟩ := h.toggle j
      obtain ⟨h3, h4⟩ := ih h1
      exact ⟨h3, h4.trans h2⟩
    · simp only [hj, Bool.false_eq_true, if_false]
      exact ih h

/-- The message of a booking is not the message of a rejection. -/
theorem booked_ne_rejected (n : String) :
    "Event Booked! Final satisfaction " ++ n ++ "%" ≠ "Not enough budget for that item." := by
  intro h
  have h1 := congrArg String.data h
  simp [String.data_append] at h1

/-- With every flag cleared no cost is chosen. -/
theorem chosenCost_clear (l : List Item) :
    chosenCost (l.map (fun it => { it with chosen := false })) = 0 := by
  induction l with
  | nil => rfl
  | cons x t ih =>
    rw [List.map_cons, chosenCost_cons, ih]
    simp

/-- With every flag cleared no benefit is chosen. -/
theorem chosenBenefit_clear (l : List Item) :
    chosenBenefit (l.map (fun it => { it with chosen := false })) = 0 := by
  induction l with
  | nil => rfl
  | cons x t ih =>
    rw [List.map_cons, chosenBenefit_cons, ih]
    simp

/-- Every call keeps a balanced state balanced and sets no rejection message. -/
theorem Balanced.step {st : State} (h : Balanced st)
    (hq : st.overlayMsg ≠ some "Not enough budget for that item.") (i : Input) :
    Balanced (Manager.step st i) ∧
    (Manager.step st i).overlayMsg ≠ some "Not enough budget for that item." := by
  cases i with
  | start =>
    refine ⟨⟨?_, ?_, ?_⟩, hq⟩
    · have h1 := h.1
      simp only [Manager.step, onStart, prices, List.map_map] at h1 ⊢
      exact h1
    · show (2000 : ℤ) = 2000 - chosenCost (st.items.map (fun it => { it with chosen := false }))
      rw [chosenCost_clear]
      ring
    · show (40 : ℤ) = 40 + chosenBenefit (st.items.map (fun it => { it with chosen := false }))
      rw [chosenBenefit_clear]
      ring
  | click canvas m =>
    obtain ⟨h1, h2⟩ := h.loop m (List.range st.items.length)
    simp only [Manager.step, onMouseDown]
    split_ifs
    · refine ⟨h1, ?_⟩
      simp only [ne_eq, Option.some.injEq]
      exact booked_ne_rejected _
    · exact ⟨h1, by rw [h2]; exact hq⟩

/-- Every sequence of calls keeps a balanced state balanced and sets no rejection
message. -/
theorem Balanced.play {st : State} (h : Balanced st)
    (hq : st.overlayMsg ≠ some "Not enough budget for that item.") (inputs : List Input) :
    Balanced (Manager.play st inputs) ∧
    (Manager.play st inputs).overlayMsg ≠ some "Not enough budget for that item." := by
  induction inputs generalizing st with
  | nil => exact ⟨h, hq⟩
  | cons i t ih =>
    obtain ⟨h1, h2⟩ := h.step hq i
    exact ih h1 h2

/-- The new closure is balanced. -/
theorem create_balanced : Balanced create := by
  refine ⟨rfl, ?_, ?_⟩
  · simp [create, chosenCost, catalog]
  · simp [create, chosenBenefit, catalog]

end Manager


namespace Manager

/-- With no negative cost, the chosen costs stay within the sum of all costs. -/
theorem chosenCost_le (l : List Item) (hpos : ∀ p ∈ prices l, 0 ≤ p.1) :
    chosenCost l ≤ ((prices l).map Prod.fst).sum := by
  induction l with
  | nil => simp [chosenCost, prices]
  | cons x t ih =>
    have hx : 0 ≤ x.cost := hpos (x.cost, x.benefit) (by simp [prices])
    have ht := ih (fun p hp1 => hpos p (by
      simp only [prices, List.map_cons, List.mem_cons] at hp1 ⊢
      exact Or.inr hp1))
    rw [chosenCost_cons]
    simp only [prices, List.map_cons, List.sum_cons] at ht ⊢
    split_ifs <;> linarith

/-- In a balanced state at least 400 of the budget is left. -/
theorem Balanced.budget_ge {st : State} (h : Balanced st) : 400 ≤ st.budget := by
  obtain ⟨hp, hb, -⟩ := h
  have hpos : ∀ p ∈ prices st.items, 0 ≤ p.1 := by
    rw [hp]
    intro p hp1
    simp only [prices, catalog, List.map_cons, List.map_nil, List.mem_cons,
      List.mem_singleton, List.not_mem_nil, or_false] at hp1
    rcases hp1 with h | h | h | h | h <;> rw [h] <;> norm_num
  have hle := chosenCost_le st.items hpos
  rw [hp] at hle
  have hsum : ((prices catalog).map Prod.fst).sum = 1600 := by
    simp [prices, catalog]
  rw [hsum] at hle
  rw [hb]
  linarith

/-- C22. In every state the closure reaches from its creation by any sequence of
`onStart()` calls and presses (anywhere, on any canvas), the items keep the prices
of the catalog, whose costs sum to 1600, `budget` is 2000 less the costs of the
chosen items and `satisfaction` is 40 plus their benefits; hence `budget >= 400`.
The rejection branch is never taken: at every point of the item loop of a further
press the budget covers every item that is not chosen, and the message is never
`Not enough budget for that item.`. -/
theorem accounts_balanced (inputs : List Input) :
    (play create inputs).budget = 2000 - chosenCost (play create inputs).items ∧
    (play create inputs).satisfaction = 40 + chosenBenefit (play create inputs).items ∧
    prices (play create inputs).items = prices catalog ∧
    ((prices catalog).map Prod.fst).sum = 1600 ∧
    400 ≤ (play create inputs).budget ∧
    (play create inputs).overlayMsg ≠ some "Not enough budget for that item." ∧
    ∀ (m : Mouse) (n i : ℕ) (it : Item),
      ((List.range n).foldl (fun s j => if onItem m j then toggle j s else s)
        (play create inputs)).items[i]? = some it →
      it.chosen = false →
      it.cost ≤ ((List.range n).foldl (fun s j => if onItem m j then toggle j s else s)
        (play create inputs)).budget := by
  have hq : create.overlayMsg ≠ some "Not enough budget for that item." := by
    simp [create]
  obtain ⟨h1, h2⟩ := create_balanced.play hq inputs
  refine ⟨h1.2.1, h1.2.2, h1.1, by simp [prices, catalog], h1.budget_ge, h2, ?_⟩
  intro m n i it hit hun
  have h3 := ((h1.loop m (List.range n)).1).covers i it hit hun
  linarith

/-- Witness for C22: on a 800 x 480 canvas, a press on Catering, a press on Prizes
and a press on the button leave a budget of 1150 and a satisfaction of 170. -/
theorem accounts_balanced_witness :
    (play create [.click ⟨800, 480⟩ ⟨100, 80, true⟩, .click ⟨800, 480⟩ ⟨100, 192, true⟩,
      .click ⟨800, 480⟩ ⟨580, 400, true⟩]).budget = 1150 ∧
    (play create [.click ⟨800, 480⟩ ⟨100, 80, true⟩, .click ⟨800, 480⟩ ⟨100, 192, true⟩,
      .click ⟨800, 480⟩ ⟨580, 400, true⟩]).satisfaction = 170 := by
  obtain ⟨hb, hs, -⟩ := accounts_balanced [.click ⟨800, 480⟩ ⟨100, 80, true⟩,
    .click ⟨800, 480⟩ ⟨100, 192, true⟩, .click ⟨800, 480⟩ ⟨580, 400, true⟩]
  have h0 : onItem ⟨100, 80, true⟩ 0 = true := by
    simp only [onItem, decide_eq_true_eq]
    norm_num
  have h2 : onItem ⟨100, 192, true⟩ 2 = true := by
    simp only [onItem, decide_eq_true_eq]
    norm_num
  have hitems : (play create [.click ⟨800, 480⟩ ⟨100, 80, true⟩,
      .click ⟨800, 480⟩ ⟨100, 192, true⟩, .click ⟨800, 480⟩ ⟨580, 400, true⟩]).items =
      [ { id := "catering", name := "Catering", cost := 400, benefit := 60, chosen := true },
        { id := "pr", name := "PR Campaign", cost := 300, benefit := 40, chosen := false },
        { id := "prize", name := "Prizes", cost := 450, benefit := 70, chosen := true },
        { id := "security", name := "Security", cost := 250, benefit := 30, chosen := false },
        { id := "greens", name := "Extra Greens Crew", cost := 200, benefit := 25,
          chosen := false } ] := by
    have hbook : onBook ⟨800, 480⟩ ⟨580, 400, true⟩ = true := by
      simp only [onBook, decide_eq_true_eq]
      norm_num
    simp only [play, List.foldl_cons, List.foldl_nil, step]
    rw [onMouseDown_item ⟨800, 480⟩ ⟨100, 80, true⟩ _ 0 (le_refl _) (by simp [create, catalog]) h0]
    have ht0 : toggle 0 create =
        { create with items := create.items.set 0
                        { id := "catering", name := "Catering", cost := 400, benefit := 60,
                          chosen := true }
                      budget := 1600, satisfaction := 100 } := by
      simp [toggle, create, catalog]
    rw [ht0, onMouseDown_item ⟨800, 480⟩ ⟨100, 192, true⟩ _ 2 (le_refl _)
      (by simp [create, catalog]) h2]
    unfold onMouseDown
    simp only [loop_miss ⟨580, 400, true⟩ (by norm_num), hbook, if_true]
    simp [toggle, create, catalog]
  rw [hb, hs, hitems]
  simp [chosenCost, chosenBenefit]

end Manager


/-! ## Course designer world: play mode needs both markers -/

namespace Designer

/-- Outside play mode nothing is asked of the markers. -/
theorem Marked.of_design {st : State} (h : st.inPlayMode = false) : Marked st := by
  intro h1
  rw [h] at h1
  cases h1

/-- The function `paintAt` keeps the mode, and does nothing in play mode. -/
theorem paintAt_keeps (g : Geometry) (mx my : ℚ) (st : State) :
    (paintAt g mx my st).state.inPlayMode = st.inPlayMode ∧
    (st.inPlayMode = true → (paintAt g mx my st).state = st) := by
  unfold paintAt
  dsimp only
  repeat' split
  all_goals first | exact ⟨rfl, fun _ => rfl⟩ | (refine ⟨rfl, fun h => ?_⟩; simp_all)

/-- The function `paintAt` keeps the markers placed while in play mode. -/
theorem paintAt_marked (g : Geometry) (mx my : ℚ) (st : State) (h : Marked st) :
    Marked (paintAt g mx my st).state := by
  obtain ⟨h1, h2⟩ := paintAt_keeps g mx my st
  cases hp : st.inPlayMode with
  | true =>
    rw [h2 hp]
    exact h
  | false => exact Marked.of_design (h1.trans hp)

/-- The function `startPlayMode` enters play mode only with both markers placed. -/
theorem startPlayMode_marked (g : Geometry) (st : State) (h : Marked st) :
    Marked (startPlayMode g st) := by
  unfold startPlayMode
  split
  · rename_i tee hole ht hh
    intro _
    simp [ht, hh]
  · exact h

/-- The function `onStart` leaves play mode. -/
theorem onStart_marked (g : Geometry) (st : State) : Marked (onStart g st) :=
  Marked.of_design rfl

/-- The function `updatePlay` leaves play mode or keeps the mode and the markers. -/
theorem updatePlay_keeps (g : Geometry) (sqrt : ℚ → ℚ) (st : State) :
    (updatePlay g sqrt st).state.inPlayMode = false ∨
    ((updatePlay g sqrt st).state.inPlayMode = st.inPlayMode ∧
      (updatePlay g sqrt st).state.teeCell = st.teeCell ∧
      (updatePlay g sqrt st).state.holeCell = st.holeCell) := by
  unfold updatePlay
  dsimp only
  repeat' split
  all_goals first | exact Or.inr ⟨rfl, rfl, rfl⟩ | exact Or.inl rfl

/-- The function `updatePlay` keeps the markers placed while in play mode. -/
theorem updatePlay_marked (g : Geometry) (sqrt : ℚ → ℚ) (st : State) (h : Marked st) :
    Marked (updatePlay g sqrt st).state := by
  rcases updatePlay_keeps g sqrt st with h1 | ⟨h1, h2, h3⟩
  · exact Marked.of_design h1
  · intro hp
    rw [h2, h3]
    exact h (h1 ▸ hp)

/-- With the hole placed `updatePlay` does not throw for a missing hole. -/
theorem updatePlay_no_holeError (g : Geometry) (sqrt : ℚ → ℚ) (st st1 : State)
    (h : st.holeCell.isSome = true) : updatePlay g sqrt st ≠ .holeError st1 := by
  obtain ⟨hole, hh⟩ := Option.isSome_iff_exists.mp h
  unfold updatePlay
  dsimp only
  simp only [hh]
  repeat' split
  all_goals simp

/-- Every call keeps the markers placed while in play mode. -/
theorem step_marked (g : Geometry) (sqrt cos sin : ℚ → ℚ) (st : State) (i : Input)
    (h : Marked st) : Marked (step g sqrt cos sin st i) := by
  cases i with
  | start => exact onStart_marked g st
  | mouseMove m =>
    simp only [step, onMouseMove]
    split_ifs
    · exact paintAt_marked g m.x m.y st h
    · exact h
  | mouseDown canvas m =>
    simp only [step, onMouseDown]
    split_ifs with h1 h2 h3 h4
    · exact startPlayMode_marked g st h
    · exact Marked.of_design (by simpa using h1)
    · exact paintAt_marked g m.x m.y st h
    · exact onStart_marked g _
    · exact h
  | mouseUp m => exact h
  | keyDown code =>
    simp only [step, onKeyDown]
    split_ifs <;> exact h
  | keyUp code =>
    simp only [step, onKeyUp]
    split_ifs <;> exact h
  | resize => exact h
  | frame =>
    simp only [step, frame]
    split_ifs
    · exact updatePlay_marked g sqrt _ h
    · exact updatePlay_marked g sqrt _ h
    · exact h

/-- Every sequence of calls keeps the markers placed while in play mode. -/
theorem play_marked (g : Geometry) (sqrt cos sin : ℚ → ℚ) (inputs : List Input) (st : State)
    (h : Marked st) : Marked (play g sqrt cos sin st inputs) := by
  induction inputs generalizing st with
  | nil => exact h
  | cons i t ih => exact ih _ (step_marked g sqrt cos sin st i h)

end Designer


namespace Designer

/-- C23. In every state the closure reaches from its creation, whatever the grid
geometry and whatever pointer events, key events, frames, `onStart()` and resize
calls it receives (a call that throws leaves the state it had reached), play mode
implies that the tee and the hole are placed.  Hence neither `updatePlay()` run on
such a state in play mode nor the frame loop throws for a missing hole cell. -/
theorem play_mode_has_markers (g : Geometry) (sqrt cos sin : ℚ → ℚ) (inputs : List Input) :
    ((play g sqrt cos sin (create g) inputs).inPlayMode = true →
      (∃ tee, (play g sqrt cos sin (create g) inputs).teeCell = some tee) ∧
      (∃ hole, (play g sqrt cos sin (create g) inputs).holeCell = some hole)) ∧
    ((play g sqrt cos sin (create g) inputs).inPlayMode = true →
      ∀ st1, updatePlay g sqrt (play g sqrt cos sin (create g) inputs) ≠ .holeError st1) ∧
    (∀ st1, frame g sqrt (play g sqrt cos sin (create g) inputs) ≠ .holeError st1) := by
  have h : Marked (play g sqrt cos sin (create g) inputs) :=
    play_marked g sqrt cos sin inputs (create g) (Marked.of_design rfl)
  refine ⟨?_, ?_, ?_⟩
  · intro hp
    exact ⟨Option.isSome_iff_exists.mp (h hp).1, Option.isSome_iff_exists.mp (h hp).2⟩
  · intro hp st1
    exact updatePlay_no_holeError g sqrt _ st1 (h hp).2
  · intro st1
    unfold frame
    split_ifs with hp hc
    · exact updatePlay_no_holeError g sqrt _ st1 (h hp).2
    · exact updatePlay_no_holeError g sqrt _ st1 (h hp).2
    · simp

/-- Witness for C23: on the 48-row grid of a 800 x 480 canvas (cells of 10 x 10), the
hole is placed with `KeyH` and a press, the tee with `KeyT` and a press, and a press
on the Play button enters play mode with both markers placed. -/
theorem play_mode_has_markers_witness :
    (play ⟨48, 10, 10⟩ Pro.sqrtQ (fun _ => 1) (fun _ => 0) (create ⟨48, 10, 10⟩)
      [.start, .keyDown "KeyH", .mouseDown ⟨800, 480⟩ ⟨705, 245, true⟩, .keyDown "KeyT",
       .mouseDown ⟨800, 480⟩ ⟨105, 245, true⟩, .mouseDown ⟨800, 480⟩ ⟨530, 430, true⟩]).inPlayMode
      = true ∧
    (∃ tee, (play ⟨48, 10, 10⟩ Pro.sqrtQ (fun _ => 1) (fun _ => 0) (create ⟨48, 10, 10⟩)
      [.start, .keyDown "KeyH", .mouseDown ⟨800, 480⟩ ⟨705, 245, true⟩, .keyDown "KeyT",
       .mouseDown ⟨800, 480⟩ ⟨105, 245, true⟩, .mouseDown ⟨800, 480⟩ ⟨530, 430, true⟩]).teeCell
      = some tee) := by
  have hp : (play ⟨48, 10, 10⟩ Pro.sqrtQ (fun _ => 1) (fun _ => 0) (create ⟨48, 10, 10⟩)
      [.start, .keyDown "KeyH", .mouseDown ⟨800, 480⟩ ⟨705, 245, true⟩, .keyDown "KeyT",
       .mouseDown ⟨800, 480⟩ ⟨105, 245, true⟩, .mouseDown ⟨800, 480⟩ ⟨530, 430, true⟩]).inPlayMode
      = true := by
    simp [play, step, onStart, create, onKeyDown, onMouseDown, paintAt, startPlayMode,
      Result.state]
    norm_num
  exact ⟨hp, ((play_mode_has_markers ⟨48, 10, 10⟩ Pro.sqrtQ (fun _ => 1) (fun _ => 0)
    [.start, .keyDown "KeyH", .mouseDown ⟨800, 480⟩ ⟨705, 245, true⟩, .keyDown "KeyT",
     .mouseDown ⟨800, 480⟩ ⟨105, 245, true⟩, .mouseDown ⟨800, 480⟩ ⟨530, 430, true⟩]).1 hp).1⟩

end Designer


/-! ## Caddy world: what an update keeps -/

namespace Caddy

/-- The drain of one carried bag is not negative. -/
theorem drain_nonneg (dt : ℚ) (round : ℕ) (hdt : 0 ≤ dt) :
    0 ≤ 0.02 * dt * (1 + ((round : ℚ) - 1) * 0.2) := by
  have hr : (0 : ℚ) ≤ round := Nat.cast_nonneg round
  have hf : (0 : ℚ) ≤ 1 + ((round : ℚ) - 1) * 0.2 := by linarith
  exact mul_nonneg (mul_nonneg (by norm_num) hdt) hf

/-- The function `gameOverScreen` only touches the question variables and the
page. -/
theorem gameOverScreen_keeps (message : String) (st : State) :
    (gameOverScreen message st).caddy = st.caddy ∧
    (gameOverScreen message st).bags = st.bags ∧
    (gameOverScreen message st).traps = st.traps ∧
    (gameOverScreen message st).golfers = st.golfers ∧
    (gameOverScreen message st).round = st.round ∧
    (gameOverScreen message st).started = st.started ∧
    (gameOverScreen message st).showingQuestion = false :=
  ⟨rfl, rfl, rfl, rfl, rfl, rfl, rfl⟩

/-- One bag of `bags.forEach`: only the stamina of the caddy, the status text, the
question variables and the page can change, and no question is opened. -/
theorem bagStep_keeps (dt : ℚ) (st : State) (bag : Bag) :
    (bagStep dt st bag).1.caddy = { st.caddy with stamina := (bagStep dt st bag).1.caddy.stamina } ∧
    (bagStep dt st bag).1.traps = st.traps ∧
    (bagStep dt st bag).1.golfers = st.golfers ∧
    (bagStep dt st bag).1.round = st.round ∧
    (bagStep dt st bag).1.started = st.started ∧
    (st.showingQuestion = false → (bagStep dt st bag).1.showingQuestion = false) := by
  unfold bagStep
  dsimp only
  repeat' split
  all_goals exact ⟨rfl, rfl, rfl, rfl, rfl, fun h => by first | rfl | exact h⟩

/-- One bag of `bags.forEach` keeps the stamina between 0 and any bound it was
under. -/
theorem bagStep_stamina (dt : ℚ) (st : State) (bag : Bag) (c : ℚ) (hdt : 0 ≤ dt)
    (h : 0 ≤ st.caddy.stamina ∧ st.caddy.stamina ≤ c) :
    0 ≤ (bagStep dt st bag).1.caddy.stamina ∧ (bagStep dt st bag).1.caddy.stamina ≤ c := by
  have hd := drain_nonneg dt st.round hdt
  have hc : 0 ≤ c := le_trans h.1 h.2
  unfold bagStep
  dsimp only
  repeat' split
  all_goals first
    | exact h
    | exact ⟨le_refl _, hc⟩
    | (constructor <;> dsimp only <;> linarith [h.1, h.2])

/-- A bag that leaves `bags.forEach` not carried has cost nothing. -/
theorem bagStep_free (dt : ℚ) (st : State) (bag : Bag)
    (h : (bagStep dt st bag).2.carried = false) :
    (bagStep dt st bag).1.caddy.stamina = st.caddy.stamina := by
  unfold bagStep at h ⊢
  dsimp only at h ⊢
  repeat' split
  all_goals first
    | rfl
    | simp_all

end Caddy


namespace Caddy

/-- What every bag of `bags.forEach` keeps, the whole loop keeps. -/
theorem bags_foldl_inv (dt : ℚ) (P : State → Prop)
    (hP : ∀ st bag, P st → P (bagStep dt st bag).1) (l : List Bag) (acc : State × List Bag)
    (h : P acc.1) :
    P (l.foldl
      (fun (acc : State × List Bag) bag =>
        let r := bagStep dt acc.1 bag
        (r.1, acc.2 ++ [r.2]))
      acc).1 := by
  induction l generalizing acc with
  | nil => exact h
  | cons b t ih => exact ih _ (hP acc.1 b h)

/-- The bags already visited stay in the list `bags.forEach` builds. -/
theorem bags_foldl_mem (dt : ℚ) (l : List Bag) (acc : State × List Bag) (b : Bag)
    (h : b ∈ acc.2) :
    b ∈ (l.foldl
      (fun (acc : State × List Bag) bag =>
        let r := bagStep dt acc.1 bag
        (r.1, acc.2 ++ [r.2]))
      acc).2 := by
  induction l generalizing acc with
  | nil => exact h
  | cons x t ih => exact ih _ (List.mem_append_left _ h)

/-- When no bag leaves `bags.forEach` carried, the loop has cost nothing. -/
theorem bags_foldl_free (dt : ℚ) (l : List Bag) (acc : State × List Bag)
    (h : ∀ b ∈ (l.foldl
      (fun (acc : State × List Bag) bag =>
        let r := bagStep dt acc.1 bag
        (r.1, acc.2 ++ [r.2]))
      acc).2, b.carried = false) :
    (l.foldl
      (fun (acc : State × List Bag) bag =>
        let r := bagStep dt acc.1 bag
        (r.1, acc.2 ++ [r.2]))
      acc).1.caddy.stamina = acc.1.caddy.stamina := by
  induction l generalizing acc with
  | nil => rfl
  | cons x t ih =>
    simp only [List.foldl_cons] at h ⊢
    rw [ih _ h]
    apply bagStep_free
    apply h
    apply bags_foldl_mem
    simp

/-- What every bag of `bags.forEach` keeps and the list of bags does not affect, the
function `bagsStep` keeps. -/
theorem bagsStep_inv (dt : ℚ) (P : State → Prop)
    (hP : ∀ st bag, P st → P (bagStep dt st bag).1)
    (hbags : ∀ st bags, P st → P { st with bags := bags }) (st : State) (h : P st) :
    P (bagsStep dt st) := by
  unfold bagsStep
  exact hbags _ _ (bags_foldl_inv dt P hP st.bags (st, []) h)

/-- What `gameOverScreen` keeps, the loop `traps.forEach` keeps. -/
theorem trapsStep_inv (P : State → Prop)
    (hP : ∀ st message, P st → P (gameOverScreen message st)) (st : State) (h : P st) :
    P (trapsStep st) := by
  unfold trapsStep
  generalize st.traps = l
  induction l generalizing st with
  | nil => exact h
  | cons t rest ih =>
    simp only [List.foldl_cons]
    split_ifs
    · exact ih _ (hP st _ h)
    · exact ih _ h

/-- What `startQuestionRound` keeps, every step of `golfers.forEach` keeps. -/
theorem golfers_foldl_inv (pick : ℕ) (P : State → Prop)
    (hP : ∀ st, P st → P (startQuestionRound pick st)) (l : List Golfer)
    (acc : State × List Golfer) (h : P acc.1) :
    P (l.foldl
      (fun (acc : State × List Golfer) g =>
        if !g.reached && hypotLt (acc.1.caddy.x - g.x) (acc.1.caddy.y - g.y) 30 then
          (startQuestionRound pick acc.1, acc.2 ++ [{ g with reached := true }])
        else (acc.1, acc.2 ++ [g]))
      acc).1 := by
  induction l generalizing acc with
  | nil => exact h
  | cons g rest ih =>
    simp only [List.foldl_cons]
    split_ifs
    · exact ih _ (hP acc.1 h)
    · exact ih _ h

/-- What `startQuestionRound` keeps and the list of golfers does not affect, the loop
`golfers.forEach` keeps. -/
theorem golfersStep_inv (pick : ℕ) (P : State → Prop)
    (hP : ∀ st, P st → P (startQuestionRound pick st))
    (hgolfers : ∀ st golfers, P st → P { st with golfers := golfers }) (st : State) (h : P st) :
    P (golfersStep pick st) := by
  unfold golfersStep
  exact hgolfers _ _ (golfers_foldl_inv pick P hP st.golfers (st, []) h)

/-- The loops over the traps and the golfers leave the caddy and the bags alone. -/
theorem after_bags_keeps (pick : ℕ) (st : State) :
    (golfersStep pick (trapsStep st)).caddy = st.caddy ∧
    (golfersStep pick (trapsStep st)).bags = st.bags := by
  apply golfersStep_inv pick (fun s => s.caddy = st.caddy ∧ s.bags = st.bags)
  · intro s h
    exact h
  · intro s golfers h
    exact h
  · apply trapsStep_inv (fun s => s.caddy = st.caddy ∧ s.bags = st.bags)
    · intro s message h
      exact h
    · exact ⟨rfl, rfl⟩

/-- The stamina after `update(dt)` with a non-negative `dt` stays between 0 and 100
when it was. -/
theorem update_stamina (canvas : Canvas) (pick : ℕ) (dt : ℚ) (st : State) (hdt : 0 ≤ dt)
    (h : 0 ≤ st.caddy.stamina ∧ st.caddy.stamina ≤ 100) :
    0 ≤ (update canvas pick dt st).caddy.stamina ∧
      (update canvas pick dt st).caddy.stamina ≤ 100 := by
  unfold update
  split_ifs
  · exact h
  · rw [(after_bags_keeps pick _).1]
    apply bagsStep_inv dt (fun s => 0 ≤ s.caddy.stamina ∧ s.caddy.stamina ≤ 100)
    · intro s bag hs
      exact bagStep_stamina dt s bag 100 hdt hs
    · intro s bags hs
      exact hs
    · unfold moveStep
      dsimp only
      split_ifs
      · exact ⟨by norm_num, le_refl _⟩
      · constructor
        · have : 0 ≤ 0.05 * dt := mul_nonneg (by norm_num) hdt
          linarith [h.1]
        · linarith
      · exact h

end Caddy


namespace Caddy

/-- The stamina the move part of `update(dt)` leaves. -/
theorem moveStep_stamina (canvas : Canvas) (dt : ℚ) (st : State) :
    (moveStep canvas dt st).caddy.stamina =
      if st.caddy.vx = 0 ∧ st.caddy.vy = 0 then
        (if st.caddy.stamina + 0.05 * dt > 100 then 100 else st.caddy.stamina + 0.05 * dt)
      else st.caddy.stamina := rfl

/-- C21, against the claim. Round 1 on a 800 x 480 canvas, no question open: the
caddy of `resting` stands still carrying one bag with a stamina of 50; after
`update(16)` the stamina is 50.48, greater than before (the regeneration adds 0.8
and the carried bag takes 0.32). -/
theorem stamina_rises_while_carrying :
    resting.started = true ∧ resting.showingQuestion = false ∧
    resting.bags.map Bag.carried = [true, false] ∧
    resting.caddy.stamina = 50 ∧
    (update ⟨800, 480⟩ 0 16 resting).caddy.stamina = 1262 / 25 ∧
    (update ⟨800, 480⟩ 0 16 resting).bags.map Bag.carried = [true, false] := by
  refine ⟨rfl, rfl, rfl, rfl, ?_, ?_⟩
  · simp [update, moveStep, bagsStep, bagStep, trapsStep, golfersStep, hypotLt,
      gameOverScreen, resting, tired, clamp, startQuestionRound]
    norm_num
  · simp [update, moveStep, bagsStep, bagStep, trapsStep, golfersStep, hypotLt,
      gameOverScreen, resting, tired, clamp, startQuestionRound]
    norm_num

/-- C21, as the code has it. For every `update(dt)` with `dt >= 0` on a stamina
within [0, 100], paused or not: if the caddy is moving the stamina after the call is
not greater than before; if the caddy stands still and no bag is carried when the
call ends, the stamina is not smaller than before; and if the caddy stands still,
carrying or not, the stamina is at most `min(stamina + 0.05 * dt, 100)`, the
regeneration, from which each carried bag then takes its drain. -/
theorem stamina_direction (canvas : Canvas) (pick : ℕ) (dt : ℚ) (st : State) (hdt : 0 ≤ dt)
    (h0 : 0 ≤ st.caddy.stamina) (h100 : st.caddy.stamina ≤ 100) :
    (¬ (st.caddy.vx = 0 ∧ st.caddy.vy = 0) →
      (update canvas pick dt st).caddy.stamina ≤ st.caddy.stamina) ∧
    (st.caddy.vx = 0 ∧ st.caddy.vy = 0 →
      (∀ b ∈ (update canvas pick dt st).bags, b.carried = false) →
      st.caddy.stamina ≤ (update canvas pick dt st).caddy.stamina) ∧
    (st.caddy.vx = 0 ∧ st.caddy.vy = 0 →
      (update canvas pick dt st).caddy.stamina ≤ min (st.caddy.stamina + 0.05 * dt) 100) := by
  have hregen : 0 ≤ 0.05 * dt := mul_nonneg (by norm_num) hdt
  have hmin : st.caddy.stamina ≤ min (st.caddy.stamina + 0.05 * dt) 100 :=
    le_min (by linarith) h100
  unfold update
  split_ifs with hpause
  · exact ⟨fun _ => le_refl _, fun _ _ => le_refl _, fun _ => hmin⟩
  · rw [(after_bags_keeps pick _).1, (after_bags_keeps pick _).2]
    refine ⟨?_, ?_, ?_⟩
    · intro hmove
      have h := bagsStep_inv dt
        (fun s => 0 ≤ s.caddy.stamina ∧ s.caddy.stamina ≤ st.caddy.stamina)
        (fun s bag hs => bagStep_stamina dt s bag _ hdt hs) (fun s bags hs => hs)
        (moveStep canvas dt st)
        (by
          simp only [moveStep_stamina, if_neg hmove]
          exact ⟨h0, le_refl _⟩)
      exact h.2
    · intro hidle hfree
      have h : (bagsStep dt (moveStep canvas dt st)).caddy.stamina =
          (moveStep canvas dt st).caddy.stamina :=
        bags_foldl_free dt (moveStep canvas dt st).bags (moveStep canvas dt st, []) hfree
      rw [h, moveStep_stamina, if_pos hidle]
      split_ifs
      · exact h100
      · linarith
    · intro hidle
      have h := bagsStep_inv dt
        (fun s => 0 ≤ s.caddy.stamina ∧
          s.caddy.stamina ≤ min (st.caddy.stamina + 0.05 * dt) 100)
        (fun s bag hs => bagStep_stamina dt s bag _ hdt hs) (fun s bags hs => hs)
        (moveStep canvas dt st)
        (by
          simp only [moveStep_stamina, if_pos hidle]
          split_ifs with hcap
          · exact ⟨by norm_num, le_of_eq (min_eq_right (le_of_lt hcap)).symm⟩
          · exact ⟨by linarith, le_of_eq (min_eq_left (not_lt.mp hcap)).symm⟩)
      exact h.2

/-- Witness for C21: the caddy of `tired`, walking with a bag, and the caddy of
`nearTrap` brought to a halt with half of the stamina left, carrying nothing. -/
theorem stamina_direction_witness :
    (update ⟨800, 480⟩ 0 16 tired).caddy.stamina ≤ tired.caddy.stamina ∧
    (50 : ℚ) ≤ (update ⟨800, 480⟩ 0 16
      { nearTrap with caddy := { nearTrap.caddy with vx := 0, stamina := 50 } }).caddy.stamina := by
  have h1 := stamina_direction ⟨800, 480⟩ 0 16 tired (by norm_num)
    (by simp [tired]; norm_num) (by simp [tired]; norm_num)
  have h2 := stamina_direction ⟨800, 480⟩ 0 16
    { nearTrap with caddy := { nearTrap.caddy with vx := 0, stamina := 50 } } (by norm_num)
    (by simp) (by simp; norm_num)
  refine ⟨h1.1 (by simp [tired]; norm_num), h2.2.1 (by simp [nearTrap]) ?_⟩
  intro b hb
  simp [update, moveStep, bagsStep, bagStep, trapsStep, golfersStep, hypotLt,
    gameOverScreen, nearTrap, clamp, startQuestionRound] at hb
  norm_num at hb
  rcases hb with hb | hb <;> rw [hb]

end Caddy


/-! ## Caddy world: rounds -/

namespace Caddy

/-- What `initGame()` leaves when it returns. -/
theorem initGame_some (canvas : Canvas) (rand : ℕ → ℚ) (fuel : ℕ) (st s0 : State)
    (h : initGame canvas rand fuel st = some s0) :
    s0.caddy = { st.caddy with x := 60, y := (canvas.height : ℚ) - 140, stamina := 100
                               vx := 0, vy := 0 } ∧
    s0.golfers = [{ x := (canvas.width : ℚ) * (0.4 + (st.round : ℚ) * 0.1)
                    y := (canvas.height : ℚ) - 150, reached := false }] ∧
    s0.round = st.round ∧ s0.started = true ∧ s0.showingQuestion = st.showingQuestion := by
  unfold initGame at h
  dsimp only at h
  split at h
  · cases h
  · simp only [Option.some.injEq] at h
    subst h
    exact ⟨rfl, rfl, rfl, rfl, rfl⟩

/-- The function `onKeyDown` only sets the velocity of the caddy. -/
theorem onKeyDown_keeps (code : String) (st : State) :
    (onKeyDown code st).caddy.x = st.caddy.x ∧
    (onKeyDown code st).caddy.stamina = st.caddy.stamina ∧
    (onKeyDown code st).golfers = st.golfers ∧
    (onKeyDown code st).round = st.round ∧
    (onKeyDown code st).showingQuestion = st.showingQuestion := by
  unfold onKeyDown
  dsimp only
  repeat' split
  all_goals exact ⟨rfl, rfl, rfl, rfl, rfl⟩

/-- The function `onKeyUp` only clears the velocity of the caddy. -/
theorem onKeyUp_keeps (code : String) (st : State) :
    (onKeyUp code st).caddy.x = st.caddy.x ∧
    (onKeyUp code st).caddy.stamina = st.caddy.stamina ∧
    (onKeyUp code st).golfers = st.golfers ∧
    (onKeyUp code st).round = st.round ∧
    (onKeyUp code st).showingQuestion = st.showingQuestion := by
  unfold onKeyUp
  dsimp only
  repeat' split
  all_goals exact ⟨rfl, rfl, rfl, rfl, rfl⟩

/-- With no question open the `click` listener returns at once. -/
theorem onClick_closed (canvas : Canvas) (x y : ℚ) (st : State)
    (h : st.showingQuestion = false) : onClick canvas x y st = (st, []) := by
  unfold onClick
  simp [h]

/-- The `click` listener leaves the caddy alone. -/
theorem onClick_caddy (canvas : Canvas) (x y : ℚ) (st : State) :
    (onClick canvas x y st).1.caddy = st.caddy := by
  unfold onClick
  split_ifs
  · rfl
  · split
    · rfl
    · rename_i q _
      generalize (List.range q.options.length) = l
      have key : ∀ (l : List ℕ) (acc : State × List Timeout), acc.1.caddy = st.caddy →
          (l.foldl
            (fun (acc : State × List Timeout) (i : ℕ) =>
              let top : ℚ := (canvas.height : ℚ) / 2 + (i : ℚ) * 45
              if x > (canvas.width : ℚ) / 2 - 90 ∧ x < (canvas.width : ℚ) / 2 + 90 ∧
                  y > top ∧ y < top + 35 then
                ({ acc.1 with selected := some i, questionAnswered := true },
                  acc.2 ++ [if i = q.answer then Timeout.nextRound else Timeout.gameOver])
              else acc)
            acc).1.caddy = st.caddy := by
        intro l
        induction l with
        | nil => intro acc h; exact h
        | cons i t ih =>
          intro acc h
          simp only [List.foldl_cons]
          split_ifs <;> exact ih _ h
      exact key l (st, []) rfl

end Caddy


namespace Caddy

/-- Every call keeps the stamina between 0 and 100, the elapsed time of an update
being non-negative. -/
theorem step_stamina (st s : State) (i : Input) (hi : i.Forward)
    (h : 0 ≤ st.caddy.stamina ∧ st.caddy.stamina ≤ 100) (hs : step st i = some s) :
    0 ≤ s.caddy.stamina ∧ s.caddy.stamina ≤ 100 := by
  have hfull : ∀ canvas rand fuel (t : State), initGame canvas rand fuel t = some s →
      0 ≤ s.caddy.stamina ∧ s.caddy.stamina ≤ 100 := by
    intro canvas rand fuel t ht
    rw [(initGame_some canvas rand fuel t s ht).1]
    exact ⟨by norm_num, le_refl _⟩
  cases i with
  | start canvas rand fuel => exact hfull canvas rand fuel _ hs
  | tick canvas pick dt =>
    simp only [step, Option.some.injEq] at hs
    subst hs
    exact update_stamina canvas pick dt st hi h
  | keyDown code =>
    simp only [step, Option.some.injEq] at hs
    subst hs
    rw [(onKeyDown_keeps code st).2.1]
    exact h
  | keyUp code =>
    simp only [step, Option.some.injEq] at hs
    subst hs
    rw [(onKeyUp_keeps code st).2.1]
    exact h
  | click canvas x y =>
    simp only [step, Option.some.injEq] at hs
    subst hs
    rw [onClick_caddy]
    exact h
  | timeout t canvas rand fuel =>
    cases t with
    | nextRound => exact hfull canvas rand fuel _ hs
    | gameOver =>
      simp only [step, Timeout.run, Option.some.injEq] at hs
      subst hs
      exact h
  | restart canvas rand fuel => exact hfull canvas rand fuel _ hs

/-- Every sequence of calls keeps the stamina between 0 and 100, the elapsed time of
every update being non-negative. -/
theorem play_stamina (inputs : List Input) (st s : State) (hi : ∀ i ∈ inputs, i.Forward)
    (h : 0 ≤ st.caddy.stamina ∧ st.caddy.stamina ≤ 100) (hs : play st inputs = some s) :
    0 ≤ s.caddy.stamina ∧ s.caddy.stamina ≤ 100 := by
  induction inputs generalizing st with
  | nil =>
    simp only [play, Option.some.injEq] at hs
    subst hs
    exact h
  | cons i t ih =>
    simp only [play] at hs
    cases h1 : step st i with
    | none => simp [h1] at hs
    | some st1 =>
      simp only [h1] at hs
      exact ih st1 (fun j hj => hi j (List.mem_cons_of_mem _ hj))
        (step_stamina st st1 i (hi i (List.mem_cons_self _ _)) h h1) hs

/-- C26. The closure is created with a stamina of 100 and `initGame()` sets it to 100
whenever it returns.  In every state `s` the closure reaches from its creation by
calls of `onStart`, updates with `dt >= 0`, keys, clicks, timer callbacks and
restarts, the stamina lies in [0, 100]; and a single `update(dt)` with `dt >= 0`
keeps any stamina of [0, 100] in [0, 100], whatever the bags, carried or not, and the
round. -/
theorem stamina_in_range (statusPill : String) (inputs : List Input) (s : State)
    (hdt : ∀ i ∈ inputs, i.Forward) (hplay : play (create statusPill) inputs = some s) :
    (0 ≤ s.caddy.stamina ∧ s.caddy.stamina ≤ 100) ∧
    (∀ canvas rand fuel (st s0 : State), initGame canvas rand fuel st = some s0 →
      s0.caddy.stamina = 100) ∧
    (∀ canvas pick (dt : ℚ) (st : State), 0 ≤ dt →
      0 ≤ st.caddy.stamina → st.caddy.stamina ≤ 100 →
      0 ≤ (update canvas pick dt st).caddy.stamina ∧
        (update canvas pick dt st).caddy.stamina ≤ 100) := by
  refine ⟨play_stamina inputs (create statusPill) s hdt ?_ hplay, ?_, ?_⟩
  · exact ⟨by simp [create], by simp [create]⟩
  · intro canvas rand fuel st s0 h
    rw [(initGame_some canvas rand fuel st s0 h).1]
  · intro canvas pick dt st hdt0 h0 h100
    exact update_stamina canvas pick dt st hdt0 ⟨h0, h100⟩

end Caddy


namespace Caddy

/-- Round 1 on a 800 x 480 canvas with the draws `draws 12`: the four traps lie at
(250, 330) and both bags at (120, 340). -/
theorem initGame_round1 :
    initGame ⟨800, 480⟩ (draws 12) 1 (create "Loading...") =
      some { create "Loading..." with
        traps := [⟨250, 330, 14⟩, ⟨250, 330, 14⟩, ⟨250, 330, 14⟩, ⟨250, 330, 14⟩]
        bags := [⟨120, 340, false, false⟩, ⟨120, 340, false, false⟩]
        golfers := [⟨400, 330, false⟩]
        caddy := { x := 60, y := 340, vx := 0, vy := 0, speed := 2.2, stamina := 100 }
        started := true
        statusPill := "Round 1" } := by
  simp [initGame, placeBags, placeBag, newTrap, trapCount, bagCount, courseLength, draws,
    create, hypotLt, List.range_succ]
  norm_num
  rfl

end Caddy

namespace Caddy

/-- Witness for C26: the closure is started on a 800 x 480 canvas, the player holds
`ArrowRight` and a frame passes. -/
theorem stamina_in_range_witness :
    ∃ s, play (create "Loading...")
        [.start ⟨800, 480⟩ (draws 12) 1, .keyDown "ArrowRight", .tick ⟨800, 480⟩ 0 16] = some s ∧
      s.caddy.x = 311 / 5 ∧ 0 ≤ s.caddy.stamina ∧ s.caddy.stamina ≤ 100 := by
  have hfwd : ∀ i ∈ ([.start ⟨800, 480⟩ (draws 12) 1, .keyDown "ArrowRight",
      .tick ⟨800, 480⟩ 0 16] : List Input), i.Forward := by
    intro i hi
    simp only [List.mem_cons, List.mem_singleton, List.not_mem_nil, or_false] at hi
    rcases hi with h | h | h <;> rw [h] <;> simp [Input.Forward]
  have hplay : play (create "Loading...")
      [.start ⟨800, 480⟩ (draws 12) 1, .keyDown "ArrowRight", .tick ⟨800, 480⟩ 0 16] =
      some (update ⟨800, 480⟩ 0 16 (onKeyDown "ArrowRight"
        { create "Loading..." with
          traps := [⟨250, 330, 14⟩, ⟨250, 330, 14⟩, ⟨250, 330, 14⟩, ⟨250, 330, 14⟩]
          bags := [⟨120, 340, false, false⟩, ⟨120, 340, false, false⟩]
          golfers := [⟨400, 330, false⟩]
          caddy := { x := 60, y := 340, vx := 0, vy := 0, speed := 2.2, stamina := 100 }
          started := true
          statusPill := "Round 1" })) := by
    simp only [play, step, onStart, initGame_round1]
  refine ⟨_, hplay, ?_, (stamina_in_range "Loading..." _ _ hfwd hplay).1⟩
  simp [update, moveStep, bagsStep, bagStep, trapsStep, golfersStep, hypotLt,
    gameOverScreen, clamp, startQuestionRound, onKeyDown, create]
  norm_num

end Caddy


/-! ## Caddy world: the golfer of the late rounds -/

namespace Caddy

/-- From round 7 on, on a canvas at least 800 wide, the golfer stands more than 96 px
to the right of every abscissa up to `width - 16`. -/
theorem golfer_far (canvas : Canvas) (r : ℕ) (x : ℚ) (hr : 7 ≤ r) (hw : 800 ≤ canvas.width)
    (hx : x ≤ (canvas.width : ℚ) - 16) :
    96 ≤ (canvas.width : ℚ) * (0.4 + (r : ℚ) * 0.1) - x := by
  have hr1 : (7 : ℚ) ≤ r := by exact_mod_cast hr
  have hw1 : (800 : ℚ) ≤ canvas.width := by exact_mod_cast hw
  nlinarith [mul_nonneg (by linarith : (0 : ℚ) ≤ (canvas.width : ℚ)) (by linarith : (0 : ℚ) ≤ (r : ℚ) - 7)]

/-- From round 7 on the proximity test of the golfer fails at every such abscissa. -/
theorem golfer_not_near (canvas : Canvas) (r : ℕ) (x y gy : ℚ) (hr : 7 ≤ r)
    (hw : 800 ≤ canvas.width) (hx : x ≤ (canvas.width : ℚ) - 16) :
    900 < (x - (canvas.width : ℚ) * (0.4 + (r : ℚ) * 0.1)) *
            (x - (canvas.width : ℚ) * (0.4 + (r : ℚ) * 0.1)) + (y - gy) * (y - gy) ∧
    hypotLt (x - (canvas.width : ℚ) * (0.4 + (r : ℚ) * 0.1)) (y - gy) 30 = false := by
  have hd := golfer_far canvas r x hr hw hx
  have h1 : 900 < (x - (canvas.width : ℚ) * (0.4 + (r : ℚ) * 0.1)) *
      (x - (canvas.width : ℚ) * (0.4 + (r : ℚ) * 0.1)) + (y - gy) * (y - gy) := by
    nlinarith [mul_self_nonneg (y - gy)]
  refine ⟨h1, ?_⟩
  simp only [hypotLt, decide_eq_false_iff_not, not_and, not_lt]
  intro _
  linarith

/-- From round 7 on, on a fixed canvas at least 800 wide, `update(dt)` opens no
question: the round, the golfer and the bound on the abscissa of the caddy stay. -/
theorem update_far (canvas : Canvas) (pick : ℕ) (dt : ℚ) (st : State) (r : ℕ) (hr : 7 ≤ r)
    (hw : 800 ≤ canvas.width)
    (h : st.round = r ∧ st.showingQuestion = false ∧
      st.golfers = [{ x := (canvas.width : ℚ) * (0.4 + (r : ℚ) * 0.1)
                      y := (canvas.height : ℚ) - 150, reached := false }] ∧
      st.caddy.x ≤ (canvas.width : ℚ) - 16) :
    (update canvas pick dt st).round = r ∧ (update canvas pick dt st).showingQuestion = false ∧
      (update canvas pick dt st).golfers =
        [{ x := (canvas.width : ℚ) * (0.4 + (r : ℚ) * 0.1)
           y := (canvas.height : ℚ) - 150, reached := false }] ∧
      (update canvas pick dt st).caddy.x ≤ (canvas.width : ℚ) - 16 := by
  have hw1 : (800 : ℚ) ≤ canvas.width := by exact_mod_cast hw
  unfold update
  split_ifs
  · exact h
  · have h1 : (moveStep canvas dt st).round = r ∧ (moveStep canvas dt st).showingQuestion = false ∧
        (moveStep canvas dt st).golfers =
          [{ x := (canvas.width : ℚ) * (0.4 + (r : ℚ) * 0.1)
             y := (canvas.height : ℚ) - 150, reached := false }] ∧
        (moveStep canvas dt st).caddy.x ≤ (canvas.width : ℚ) - 16 := by
      refine ⟨h.1, h.2.1, h.2.2.1, ?_⟩
      show clamp (st.caddy.x + st.caddy.vx) 16 ((canvas.width : ℚ) - 16) ≤ _
      unfold clamp
      exact max_le (by linarith) (min_le_left _ _)
    have h2 := bagsStep_inv dt
      (fun s => s.round = r ∧ s.showingQuestion = false ∧
        s.golfers = [{ x := (canvas.width : ℚ) * (0.4 + (r : ℚ) * 0.1)
                       y := (canvas.height : ℚ) - 150, reached := false }] ∧
        s.caddy.x ≤ (canvas.width : ℚ) - 16)
      (fun s bag hs => by
        obtain ⟨k1, -, k3, k4, -, k6⟩ := bagStep_keeps dt s bag
        refine ⟨k4.trans hs.1, k6 hs.2.1, k3.trans hs.2.2.1, ?_⟩
        rw [k1]
        exact hs.2.2.2)
      (fun s bags hs => hs) _ h1
    have h3 := trapsStep_inv
      (fun s => s.round = r ∧ s.showingQuestion = false ∧
        s.golfers = [{ x := (canvas.width : ℚ) * (0.4 + (r : ℚ) * 0.1)
                       y := (canvas.height : ℚ) - 150, reached := false }] ∧
        s.caddy.x ≤ (canvas.width : ℚ) - 16)
      (fun s message hs => ⟨hs.1, rfl, hs.2.2.1, hs.2.2.2⟩) _ h2
    generalize trapsStep (bagsStep dt (moveStep canvas dt st)) = s at h3
    obtain ⟨k1, k2, k3, k4⟩ := h3
    have hfar := (golfer_not_near canvas r s.caddy.x s.caddy.y ((canvas.height : ℚ) - 150)
      hr hw k4).2
    have hg : golfersStep pick s = s := by
      unfold golfersStep
      simp only [k3, List.foldl_cons, List.foldl_nil, hfar, Bool.not_false, Bool.and_false,
        Bool.false_eq_true, if_false, List.nil_append]
      rw [← k3]
    rw [hg]
    exact ⟨k1, k2, k3, k4⟩

end Caddy


namespace Caddy

/-- Within a round from 7 on, on a fixed canvas at least 800 wide, no update, key or
click opens a question or changes the round. -/
theorem play_far (canvas : Canvas) (r : ℕ) (hr : 7 ≤ r) (hw : 800 ≤ canvas.width)
    (inputs : List Input) (st : State) (hin : ∀ i ∈ inputs, i.InRound canvas)
    (h : st.round = r ∧ st.showingQuestion = false ∧
      st.golfers = [{ x := (canvas.width : ℚ) * (0.4 + (r : ℚ) * 0.1)
                      y := (canvas.height : ℚ) - 150, reached := false }] ∧
      st.caddy.x ≤ (canvas.width : ℚ) - 16) :
    ∃ s, play st inputs = some s ∧ s.round = r ∧ s.showingQuestion = false ∧
      s.golfers = [{ x := (canvas.width : ℚ) * (0.4 + (r : ℚ) * 0.1)
                     y := (canvas.height : ℚ) - 150, reached := false }] ∧
      s.caddy.x ≤ (canvas.width : ℚ) - 16 := by
  induction inputs generalizing st with
  | nil => exact ⟨st, rfl, h⟩
  | cons i t ih =>
    have ht : ∀ j ∈ t, j.InRound canvas := fun j hj => hin j (List.mem_cons_of_mem _ hj)
    have hi := hin i (List.mem_cons_self _ _)
    cases i with
    | start c rand fuel => exact absurd hi (by simp [Input.InRound])
    | timeout k c rand fuel => exact absurd hi (by simp [Input.InRound])
    | restart c rand fuel => exact absurd hi (by simp [Input.InRound])
    | tick c pick dt =>
      simp only [Input.InRound] at hi
      subst hi
      simp only [play, step]
      exact ih _ ht (update_far c pick dt st r hr hw h)
    | keyDown code =>
      simp only [play, step]
      obtain ⟨k1, -, k3, k4, k5⟩ := onKeyDown_keeps code st
      exact ih _ ht ⟨k4.trans h.1, k5.trans h.2.1, k3.trans h.2.2.1, by rw [k1]; exact h.2.2.2⟩
    | keyUp code =>
      simp only [play, step]
      obtain ⟨k1, -, k3, k4, k5⟩ := onKeyUp_keeps code st
      exact ih _ ht ⟨k4.trans h.1, k5.trans h.2.1, k3.trans h.2.2.1, by rw [k1]; exact h.2.2.2⟩
    | click c x y =>
      simp only [play, step, onClick_closed c x y st h.2.1]
      exact ih _ ht h

/-- C25. Let `initGame()` return on a canvas at least 800 wide for a round from 7 on
with no question open (as when `startNextRound()` calls it).  The golfer stands at
`x = width * (0.4 + 0.1 * round)`, the caddy at `x = 60`, and every point with
`x <= width - 16`, the upper end of the clamp of `update`, is more than 30 px from
the golfer.  Whatever updates and clicks on that canvas and keys follow, the state
they lead to has no question open, the same round, the golfer not reached and the
caddy at `x <= width - 16`, and a click there hands nothing to `setTimeout`: the
round does not end unless the game is restarted. -/
theorem golfer_out_of_reach (canvas : Canvas) (rand : ℕ → ℚ) (fuel : ℕ) (st s0 : State)
    (inputs : List Input) (hround : 7 ≤ st.round) (hw : 800 ≤ canvas.width)
    (hq : st.showingQuestion = false) (hinit : initGame canvas rand fuel st = some s0)
    (hin : ∀ i ∈ inputs, i.InRound canvas) :
    s0.golfers = [{ x := (canvas.width : ℚ) * (0.4 + (st.round : ℚ) * 0.1)
                    y := (canvas.height : ℚ) - 150, reached := false }] ∧
    s0.caddy.x = 60 ∧
    (∀ x y : ℚ, x ≤ (canvas.width : ℚ) - 16 →
      900 < (x - (canvas.width : ℚ) * (0.4 + (st.round : ℚ) * 0.1)) *
              (x - (canvas.width : ℚ) * (0.4 + (st.round : ℚ) * 0.1)) +
            (y - ((canvas.height : ℚ) - 150)) * (y - ((canvas.height : ℚ) - 150))) ∧
    ∃ s, play s0 inputs = some s ∧ s.showingQuestion = false ∧ s.round = st.round ∧
      s.golfers = s0.golfers ∧ s.caddy.x ≤ (canvas.width : ℚ) - 16 ∧
      ∀ x y : ℚ, onClick canvas x y s = (s, []) := by
  obtain ⟨k1, k2, k3, -, k5⟩ := initGame_some canvas rand fuel st s0 hinit
  have hw1 : (800 : ℚ) ≤ canvas.width := by exact_mod_cast hw
  have hx : s0.caddy.x = 60 := by rw [k1]
  refine ⟨k2, hx, fun x y hxy => (golfer_not_near canvas st.round x y _ hround hw hxy).1, ?_⟩
  obtain ⟨s, h1, h2, h3, h4, h5⟩ := play_far canvas st.round hround hw inputs s0 hin
    ⟨k3, k5.trans hq, k2, by rw [hx]; linarith⟩
  exact ⟨s, h1, h3, h2, h4.trans k2.symm, h5, fun x y => onClick_closed canvas x y s h3⟩

/-- Round 7 on a 800 x 480 canvas with the draws `draws 30`: `initGame()` returns. -/
theorem initGame_round7 :
    ∃ s0, initGame ⟨800, 480⟩ (draws 30) 1 { create "Round 6" with round := 7 } = some s0 := by
  cases h : initGame ⟨800, 480⟩ (draws 30) 1 { create "Round 6" with round := 7 } with
  | some s0 => exact ⟨s0, rfl⟩
  | none =>
    exfalso
    simp [initGame, placeBags, placeBag, newTrap, trapCount, bagCount, courseLength, draws,
      create, hypotLt, List.range_succ] at h
    norm_num at h
    cases h

/-- Witness for C25: round 7 on a 800 x 480 canvas; the player holds `ArrowRight`, a
frame passes and the canvas is clicked. -/
theorem golfer_out_of_reach_witness :
    ∃ s0, initGame ⟨800, 480⟩ (draws 30) 1 { create "Round 6" with round := 7 } = some s0 ∧
      s0.golfers = [{ x := 880, y := 330, reached := false }] ∧
      ∃ s, play s0 [.keyDown "ArrowRight", .tick ⟨800, 480⟩ 0 16, .click ⟨800, 480⟩ 400 250]
          = some s ∧
        s.showingQuestion = false ∧ s.round = 7 := by
  obtain ⟨s0, h0⟩ := initGame_round7
  have hin : ∀ i ∈ ([.keyDown "ArrowRight", .tick ⟨800, 480⟩ 0 16,
      .click ⟨800, 480⟩ 400 250] : List Input), i.InRound ⟨800, 480⟩ := by
    intro i hi
    simp only [List.mem_cons, List.mem_singleton, List.not_mem_nil, or_false] at hi
    rcases hi with h | h | h <;> rw [h] <;> simp [Input.InRound]
  obtain ⟨hg, -, -, s, h1, h2, h3, -⟩ :=
    golfer_out_of_reach ⟨800, 480⟩ (draws 30) 1 { create "Round 6" with round := 7 } s0
      [.keyDown "ArrowRight", .tick ⟨800, 480⟩ 0 16, .click ⟨800, 480⟩ 400 250]
      (by simp) (le_refl _) rfl h0 hin
  refine ⟨s0, h0, ?_, s, h1, h2, h3⟩
  rw [hg]
  norm_num

end Caddy


/-! ## Pro golfer world: the ball comes to rest -/

namespace Pro

/-- A ball on the ground is left alone by `physicsStep()`. -/
theorem physicsStep_onGround (canvas : Canvas) (g : Game) (h : g.ball.onGround = true) :
    physicsStep canvas g = g := by
  unfold physicsStep
  simp [h]

/-- The function `physicsStep()` keeps the constants, hence the ground line. -/
theorem physicsStep_groundY (canvas : Canvas) (g : Game) :
    groundY canvas (physicsStep canvas g) = groundY canvas g := by
  have h : (physicsStep canvas g).cfg = g.cfg := by
    unfold physicsStep
    dsimp only
    split_ifs <;> rfl
  unfold groundY
  rw [h]

/-- The ball above the ground line after the move stays in flight, with the new
velocity. -/
theorem physicsStep_fly (canvas : Canvas) (g : Game) (hair : g.ball.onGround = false)
    (h : g.ball.y + (g.ball.vy + gravity) < groundY canvas g) :
    (physicsStep canvas g).ball.onGround = false ∧
    (physicsStep canvas g).ball.vy = g.ball.vy + gravity ∧
    (physicsStep canvas g).ball.y = g.ball.y + (g.ball.vy + gravity) := by
  have h1 : ¬ (g.ball.y + (g.ball.vy + gravity) ≥
      (canvas.height : ℚ) - g.cfg.groundH - ballRadius) := not_le.mpr h
  unfold physicsStep
  simp only [hair, Bool.not_false, if_true, h1, if_false]
  split_ifs <;> exact ⟨rfl, rfl, rfl⟩

/-- The ball reaching the ground line faster than 1.5 bounces: it is put on the line
and leaves it with a fifth of its speed. -/
theorem physicsStep_bounce (canvas : Canvas) (g : Game) (hair : g.ball.onGround = false)
    (h : g.ball.y + (g.ball.vy + gravity) ≥ groundY canvas g)
    (hv : |g.ball.vy + gravity| > 1.5) :
    (physicsStep canvas g).ball.onGround = false ∧
    (physicsStep canvas g).ball.vy = (g.ball.vy + gravity) * (-0.2) ∧
    (physicsStep canvas g).ball.y = groundY canvas g := by
  have h1 : g.ball.y + (g.ball.vy + gravity) ≥
      (canvas.height : ℚ) - g.cfg.groundH - ballRadius := h
  unfold physicsStep
  simp only [hair, Bool.not_false, if_true, h1, hv]
  split_ifs <;> exact ⟨rfl, rfl, rfl⟩

/-- The ball reaching the ground line at 1.5 or slower comes to rest on it. -/
theorem physicsStep_land (canvas : Canvas) (g : Game) (hair : g.ball.onGround = false)
    (h : g.ball.y + (g.ball.vy + gravity) ≥ groundY canvas g)
    (hv : ¬ |g.ball.vy + gravity| > 1.5) :
    (physicsStep canvas g).ball.onGround = true ∧
    (physicsStep canvas g).ball.vy = 0 ∧
    (physicsStep canvas g).ball.y = groundY canvas g := by
  have h1 : g.ball.y + (g.ball.vy + gravity) ≥
      (canvas.height : ℚ) - g.cfg.groundH - ballRadius := h
  unfold physicsStep
  simp only [hair, Bool.not_false, if_true, h1, hv, if_false]
  split_ifs <;> exact ⟨rfl, rfl, rfl⟩

end Pro


namespace Pro

/-- A step of free flight keeps the energy. -/
theorem energy_fly (canvas : Canvas) (g : Game) (hair : g.ball.onGround = false)
    (h : g.ball.y + (g.ball.vy + gravity) < groundY canvas g) :
    energy canvas (physicsStep canvas g) = energy canvas g := by
  obtain ⟨-, f2, f3⟩ := physicsStep_fly canvas g hair h
  unfold energy
  rw [physicsStep_groundY, f2, f3]
  ring

/-- One more step of free flight before the descent. -/
theorem DescendsIn.succ (canvas : Canvas) (g : Game) (k : ℕ) (hair : g.ball.onGround = false)
    (h : g.ball.y + (g.ball.vy + gravity) < groundY canvas g)
    (hk : DescendsIn canvas (physicsStep canvas g) k) : DescendsIn canvas g (k + 1) := by
  obtain ⟨k1, k2, k3, k4, k5⟩ := hk
  have hG := physicsStep_groundY canvas g
  unfold DescendsIn
  rw [Function.iterate_succ_apply]
  exact ⟨k1, k2.trans hG, hG ▸ k3, k4.trans (energy_fly canvas g hair h), hG ▸ k5⟩

/-- A ball in flight that is not rising comes down on the ground line. -/
theorem descends_of_falling (canvas : Canvas) (n : ℕ) (g : Game)
    (hair : g.ball.onGround = false) (hy : g.ball.y ≤ groundY canvas g) (hv : 0 ≤ g.ball.vy)
    (hn : groundY canvas g - g.ball.y ≤ n * gravity) : ∃ k, DescendsIn canvas g k := by
  have hg : (0 : ℚ) < gravity := by norm_num [gravity]
  induction n generalizing g with
  | zero =>
    refine ⟨0, hair, rfl, hy, rfl, ?_⟩
    simp only [Nat.cast_zero, zero_mul] at hn
    show g.ball.y + (g.ball.vy + gravity) ≥ groundY canvas g
    linarith
  | succ n ih =>
    by_cases h : g.ball.y + (g.ball.vy + gravity) ≥ groundY canvas g
    · exact ⟨0, hair, rfl, hy, rfl, h⟩
    · have h1 := not_le.mp h
      obtain ⟨f1, f2, f3⟩ := physicsStep_fly canvas g hair h1
      have hG := physicsStep_groundY canvas g
      obtain ⟨k, hk⟩ := ih (physicsStep canvas g) f1 (by rw [hG, f3]; linarith)
        (by rw [f2]; linarith)
        (by
          rw [hG, f3]
          push_cast at hn
          linarith)
      exact ⟨k + 1, DescendsIn.succ canvas g k hair h1 hk⟩

/-- A rising ball comes down on the ground line. -/
theorem descends_of_rising (canvas : Canvas) (m : ℕ) (g : Game)
    (hair : g.ball.onGround = false) (hy : g.ball.y ≤ groundY canvas g)
    (hm : -g.ball.vy ≤ m * gravity) : ∃ k, DescendsIn canvas g k := by
  have hg : (0 : ℚ) < gravity := by norm_num [gravity]
  induction m generalizing g with
  | zero =>
    simp only [Nat.cast_zero, zero_mul] at hm
    obtain ⟨n, hn⟩ := exists_nat_ge ((groundY canvas g - g.ball.y) / gravity)
    exact descends_of_falling canvas n g hair hy (by linarith) ((div_le_iff₀ hg).mp hn)
  | succ m ih =>
    by_cases h : g.ball.y + (g.ball.vy + gravity) ≥ groundY canvas g
    · exact ⟨0, hair, rfl, hy, rfl, h⟩
    · have h1 := not_le.mp h
      obtain ⟨f1, f2, f3⟩ := physicsStep_fly canvas g hair h1
      have hG := physicsStep_groundY canvas g
      obtain ⟨k, hk⟩ := ih (physicsStep canvas g) f1 (by rw [hG, f3]; linarith)
        (by
          rw [f2]
          push_cast at hm
          linarith)
      exact ⟨k + 1, DescendsIn.succ canvas g k hair h1 hk⟩

/-- Every ball in flight not below the ground line comes down on it. -/
theorem descends (canvas : Canvas) (g : Game) (hair : g.ball.onGround = false)
    (hy : g.ball.y ≤ groundY canvas g) : ∃ k, DescendsIn canvas g k := by
  have hg : (0 : ℚ) < gravity := by norm_num [gravity]
  obtain ⟨m, hm⟩ := exists_nat_ge (-g.ball.vy / gravity)
  exact descends_of_rising canvas m g hair hy ((div_le_iff₀ hg).mp hm)

end Pro


namespace Pro

/-- The energy of a ball about to come down, in terms of the speed of the impact. -/
theorem energy_of_impact (canvas : Canvas) (s : Game) :
    energy canvas s =
      (s.ball.vy + gravity) * (s.ball.vy + gravity) - gravity * (s.ball.vy + gravity) +
        2 * gravity * (groundY canvas s - s.ball.y) := by
  unfold energy
  ring

/-- Some bound `1.5 * 5^N` carries more energy than any given amount. -/
theorem exists_energy_bound (e : ℚ) :
    ∃ N : ℕ, e ≤ (1.5 * 5 ^ N) * (1.5 * 5 ^ N) - gravity * (1.5 * 5 ^ N) := by
  obtain ⟨N, hN⟩ := pow_unbounded_of_one_lt e (by norm_num : (1 : ℚ) < 5)
  refine ⟨N, ?_⟩
  have h1 : (1 : ℚ) ≤ 5 ^ N := one_le_pow₀ (by norm_num)
  have hg : gravity = 0.45 := rfl
  rw [hg]
  nlinarith [mul_nonneg (by linarith : (0 : ℚ) ≤ (5 : ℚ) ^ N - 1) (by linarith : (0 : ℚ) ≤ (5 : ℚ) ^ N)]

/-- A ball in flight whose energy is within that of an impact at `1.5 * 5^N` comes to
rest after at most `N` bounces. -/
theorem rests_of_energy (canvas : Canvas) (N : ℕ) (g : Game) (hair : g.ball.onGround = false)
    (hy : g.ball.y ≤ groundY canvas g)
    (hE : energy canvas g ≤ (1.5 * 5 ^ N) * (1.5 * 5 ^ N) - gravity * (1.5 * 5 ^ N)) :
    ∃ n, RestsIn canvas g n := by
  have hg : gravity = 0.45 := rfl
  induction N generalizing g with
  | zero =>
    obtain ⟨k, k1, k2, k3, k4, k5⟩ := descends canvas g hair hy
    have hen := energy_of_impact canvas ((physicsStep canvas)^[k] g)
    rw [k4, k2] at hen
    have hv0 : 0 ≤ ((physicsStep canvas)^[k] g).ball.vy + gravity := by linarith
    have hland : ¬ |((physicsStep canvas)^[k] g).ball.vy + gravity| > 1.5 := by
      rw [abs_of_nonneg hv0]
      intro hv
      simp only [pow_zero, mul_one] at hE
      rw [hg] at hE hen hv hv0
      nlinarith
    obtain ⟨l1, l2, l3⟩ := physicsStep_land canvas _ k1 (k2 ▸ k5) hland
    refine ⟨k + 1, ?_⟩
    unfold RestsIn
    rw [Function.iterate_succ_apply']
    exact ⟨l1, l2, l3.trans k2⟩
  | succ N ih =>
    obtain ⟨k, k1, k2, k3, k4, k5⟩ := descends canvas g hair hy
    have hen := energy_of_impact canvas ((physicsStep canvas)^[k] g)
    rw [k4, k2] at hen
    have hv0 : 0 ≤ ((physicsStep canvas)^[k] g).ball.vy + gravity := by linarith
    by_cases hv : |((physicsStep canvas)^[k] g).ball.vy + gravity| > 1.5
    · obtain ⟨b1, b2, b3⟩ := physicsStep_bounce canvas _ k1 (k2 ▸ k5) hv
      have hG := physicsStep_groundY canvas ((physicsStep canvas)^[k] g)
      rw [abs_of_nonneg hv0] at hv
      have hp : (0 : ℚ) < 5 ^ N := by positivity
      have hle : ((physicsStep canvas)^[k] g).ball.vy + gravity ≤ 1.5 * 5 ^ (N + 1) := by
        by_contra hcon
        have hcon1 := not_le.mp hcon
        rw [pow_succ] at hE hcon1
        rw [hg] at hE hen hv hv0 hcon1
        nlinarith
      obtain ⟨n, n1, n2, n3⟩ := ih (physicsStep canvas ((physicsStep canvas)^[k] g)) b1
        (by rw [b3, hG])
        (by
          unfold energy
          rw [b2, b3, hG]
          rw [pow_succ] at hle
          rw [hg] at hv hle ⊢
          nlinarith)
      refine ⟨n + (k + 1), ?_⟩
      unfold RestsIn
      rw [Function.iterate_add_apply, Function.iterate_succ_apply']
      exact ⟨n1, n2, n3.trans (hG.trans k2)⟩
    · obtain ⟨l1, l2, l3⟩ := physicsStep_land canvas _ k1 (k2 ▸ k5) hv
      refine ⟨k + 1, ?_⟩
      unfold RestsIn
      rw [Function.iterate_succ_apply']
      exact ⟨l1, l2, l3.trans k2⟩

end Pro


namespace Pro

/-- While no step brings the ball down on the ground line, it stays in flight with
the energy it had, and after the first step strictly above the line. -/
theorem flight_keeps (canvas : Canvas) (k : ℕ) (g : Game) (hair : g.ball.onGround = false)
    (hy : g.ball.y ≤ groundY canvas g)
    (hno : ∀ j < k, impact canvas ((physicsStep canvas)^[j] g) = none) :
    ((physicsStep canvas)^[k] g).ball.onGround = false ∧
    groundY canvas ((physicsStep canvas)^[k] g) = groundY canvas g ∧
    energy canvas ((physicsStep canvas)^[k] g) = energy canvas g ∧
    ((physicsStep canvas)^[k] g).ball.y ≤ groundY canvas g ∧
    (0 < k → ((physicsStep canvas)^[k] g).ball.y < groundY canvas g) := by
  induction k with
  | zero => exact ⟨hair, rfl, rfl, hy, fun h => absurd h (lt_irrefl 0)⟩
  | succ k ih =>
    obtain ⟨i1, i2, i3, i4, -⟩ := ih (fun j hj => hno j (Nat.lt_succ_of_lt hj))
    have hk := hno k (Nat.lt_succ_self k)
    have hfly : ((physicsStep canvas)^[k] g).ball.y +
        (((physicsStep canvas)^[k] g).ball.vy + gravity) <
        groundY canvas ((physicsStep canvas)^[k] g) := by
      by_contra hcon
      unfold impact at hk
      rw [if_pos ⟨i1, not_lt.mp hcon⟩] at hk
      cases hk
    obtain ⟨f1, f2, f3⟩ := physicsStep_fly canvas _ i1 hfly
    have hG := physicsStep_groundY canvas ((physicsStep canvas)^[k] g)
    rw [Function.iterate_succ_apply']
    refine ⟨f1, hG.trans i2, (energy_fly canvas _ i1 hfly).trans i3, ?_, fun _ => ?_⟩
    · rw [f3]
      linarith
    · rw [f3]
      linarith

/-- C24. On a fixed canvas, from every state whose ball is in flight at or above the
ground line `groundY` (`y <= groundY`), with any velocity, iterating `physicsStep()`
brings the ball to rest on the ground after finitely many steps: `onGround` true,
`vy = 0`, `y = groundY`.  A step that brings the ball down at a speed of at most 1.5
ends at rest; one that brings it down faster than 1.5 is a bounce, and the speed at
which the ball next comes down is less than 0.2 times the speed of that bounce. -/
theorem physicsStep_comes_to_rest (canvas : Canvas) (g : Game)
    (hair : g.ball.onGround = false) (hy : g.ball.y ≤ groundY canvas g) :
    (∃ n, ((physicsStep canvas)^[n] g).ball.onGround = true ∧
      ((physicsStep canvas)^[n] g).ball.vy = 0 ∧
      ((physicsStep canvas)^[n] g).ball.y = groundY canvas g) ∧
    (∀ v, impact canvas g = some v → v ≤ 1.5 →
      (physicsStep canvas g).ball.onGround = true ∧ (physicsStep canvas g).ball.vy = 0 ∧
        (physicsStep canvas g).ball.y = groundY canvas g) ∧
    (∀ v, impact canvas g = some v → 1.5 < v →
      (physicsStep canvas g).ball.onGround = false ∧
      ∀ k w, (∀ j < k, impact canvas ((physicsStep canvas)^[j + 1] g) = none) →
        impact canvas ((physicsStep canvas)^[k + 1] g) = some w → w < 0.2 * v) := by
  have hg : gravity = 0.45 := rfl
  refine ⟨?_, ?_, ?_⟩
  · obtain ⟨N, hN⟩ := exists_energy_bound (energy canvas g)
    exact rests_of_energy canvas N g hair hy hN
  · intro v hv hslow
    unfold impact at hv
    split_ifs at hv with hc
    simp only [Option.some.injEq] at hv
    exact physicsStep_land canvas g hair hc.2 (by rw [hv]; exact not_lt.mpr hslow)
  · intro v hv hfast
    unfold impact at hv
    split_ifs at hv with hc
    simp only [Option.some.injEq] at hv
    have hv0 : 0 ≤ g.ball.vy + gravity := by linarith [hc.2]
    rw [abs_of_nonneg hv0] at hv
    obtain ⟨b1, b2, b3⟩ := physicsStep_bounce canvas g hair hc.2
      (by rw [abs_of_nonneg hv0, hv]; exact hfast)
    have hG := physicsStep_groundY canvas g
    refine ⟨b1, ?_⟩
    intro k w hno hw
    simp only [Function.iterate_succ_apply] at hno hw
    obtain ⟨i1, i2, i3, i4, i5⟩ := flight_keeps canvas k (physicsStep canvas g) b1
      (by rw [b3, hG]) hno
    unfold impact at hw
    split_ifs at hw with hd
    simp only [Option.some.injEq] at hw
    have hen := energy_of_impact canvas ((physicsStep canvas)^[k] (physicsStep canvas g))
    have he1 : energy canvas (physicsStep canvas g) =
        (0.2 * v) * (0.2 * v) - gravity * (0.2 * v) := by
      unfold energy
      rw [b2, b3, hG, hv]
      ring
    rw [i3, he1, i2] at hen
    have hd2 := hd.2
    rw [i2] at hd2
    have hw0 : 0 ≤ ((physicsStep canvas)^[k] (physicsStep canvas g)).ball.vy + gravity := by
      linarith
    rw [abs_of_nonneg hw0] at hw
    rw [hw] at hen hd2
    rcases Nat.eq_zero_or_pos k with hk | hk
    · subst hk
      simp only [Function.iterate_zero, id_eq] at hw
      rw [b2, hv] at hw
      rw [hg] at hw
      linarith
    · have hlt := i5 hk
      by_contra hcon
      have hcon1 := not_lt.mp hcon
      rw [hg] at hen
      nlinarith

/-- Witness for C24: the ball of `inFlight`, leaving the ground line at 5 px per
frame upwards, comes to rest on the line `y = 376`. -/
theorem physicsStep_comes_to_rest_witness :
    inFlight.ball.onGround = false ∧ inFlight.ball.y ≤ groundY ⟨800, 480⟩ inFlight ∧
    ∃ n, ((physicsStep ⟨800, 480⟩)^[n] inFlight).ball.onGround = true ∧
      ((physicsStep ⟨800, 480⟩)^[n] inFlight).ball.vy = 0 ∧
      ((physicsStep ⟨800, 480⟩)^[n] inFlight).ball.y = 376 := by
  have hG : groundY ⟨800, 480⟩ inFlight = 376 := by
    simp [groundY, inFlight, ballRadius]
    norm_num
  have hy : inFlight.ball.y ≤ groundY ⟨800, 480⟩ inFlight := by
    rw [hG]
    simp [inFlight]
  obtain ⟨n, h1, h2, h3⟩ := (physicsStep_comes_to_rest ⟨800, 480⟩ inFlight rfl hy).1
  exact ⟨rfl, hy, n, h1, h2, h3.trans hG⟩

end Pro

end GolfWorlds
